import Mathlib

/-!
# MultiModelSpectrumChannel: registry of receivers, transmit models and converters

A shallow embedding of `src/spectrum/model/multi-model-spectrum-channel.cc`.

* Objects held through `Ptr<...>` are represented by a natural number standing for the
  pointer (object identity); `std::find` over `m_rxPhys` compares these pointers.
* The two registries and the converter cache are `std::map`s keyed by the spectrum model
  uid; they are represented by association lists kept in ascending key order, which is
  the iteration order of `std::map`.
* `NS_ASSERT`, `NS_ASSERT_MSG` and `NS_FATAL_ERROR` abort the run.  Every operation
  returns the channel state it leaves behind together with the fatal condition, if any.
* Values of type `double` are rational numbers with exact arithmetic, `ns3::Time` is an
  integer count of ticks; what `StartTx` does to the outside (traces, scheduling calls)
  is returned as a list of effects in the order in which it happens.
* `m_numDevices` is a `std::size_t`.  The increment is not reduced modulo `2 ^ 64`: the
  count never exceeds the number of stored pointers, each of which occupies eight bytes
  of addressable memory.  The decrement wraps at zero as the machine does.
-/

namespace ns3

/-! ## Collaborators declared outside the file under study -/

/-- Modelled from the spec: the class `SpectrumModel` is declared in a file that is not
among the sources.  The spec describes it as an immutable value uniquely identifying a
frequency-axis layout; the channel only reads `GetUid ()` and asks `IsOrthogonal`.  A
model handle is therefore represented by its uid, and orthogonality is a parameter
`isOrthogonal` of the operations that need it. -/
structure SpectrumModel where
  uid : Nat
  deriving DecidableEq, Repr

/-- Modelled from the spec: `SpectrumConverter` is declared outside the sources.  The
spec calls converter construction a pure function of two model handles, so a converter
is represented by the pair of handles it was constructed from,
`SpectrumConverter (txSpectrumModel, rxSpectrumModel)`. -/
structure SpectrumConverter where
  fromModel : SpectrumModel
  toModel : SpectrumModel
  deriving DecidableEq, Repr

/-- The object returned by `SpectrumPhy::GetAntenna ()`, as far as the two
`DynamicCast`s of the channel can tell. -/
inductive AntennaObject where
  | antennaModel (ptr : Nat)
  | phasedArrayModel (ptr : Nat)
  | other (ptr : Nat)
  deriving DecidableEq, Repr

/-- The value of `DynamicCast<PhasedArrayModel> (obj)`: the pointer when the object is a
phased array, null otherwise. -/
def dynamicCastPhasedArrayModel : Option AntennaObject → Option Nat
  | some (.phasedArrayModel p) => some p
  | _ => none

/-- A `NetDevice` with the id of the node it is attached to. -/
structure NetDevice where
  ptr : Nat
  nodeId : Nat
  deriving DecidableEq, Repr

/-- An endpoint as the channel observes it during one call: the pointer `ptr`, and what
its accessors return at that moment.  `rxSpectrumModel = none` is the null pointer
returned by `GetRxSpectrumModel ()` before a model has been set. -/
structure SpectrumPhy where
  ptr : Nat
  rxSpectrumModel : Option SpectrumModel
  device : Option NetDevice
  mobility : Option Nat
  antenna : Option AntennaObject
  deriving DecidableEq, Repr

/-- A power spectral density: the spectrum model it is expressed in and its samples. -/
structure SpectrumValue where
  spectrumModel : SpectrumModel
  values : List Int
  deriving DecidableEq, Repr

/-- The members of `SpectrumSignalParameters` that the channel reads. -/
structure SpectrumSignalParameters where
  psd : Option SpectrumValue
  txPhy : Option SpectrumPhy
  txAntenna : Option Nat
  deriving DecidableEq, Repr

/-- The reasons for which the run is aborted. -/
inductive Fatal where
  /-- The assertion `NS_ASSERT_MSG (rxSpectrumModel, ...)` in `AddRx` -/
  | rxSpectrumModelNotSet
  /-- The assertion `NS_ASSERT (ret.second)` in `FindAndEventuallyAddTxSpectrumModel` -/
  | txModelInsertFailed
  /-- The assertion `NS_ASSERT (ret2.second)` in `AddRx` and `FindAndEventuallyAddTxSpectrumModel` -/
  | converterInsertFailed
  /-- The assertion `NS_ASSERT (i < m_numDevices)` in `GetDevice` -/
  | indexOutOfRange
  /-- The call `NS_FATAL_ERROR ("m_numDevices > actual number of devices")` in `GetDevice` -/
  | numDevicesTooLarge
  /-- The assertion `NS_ASSERT_MSG (txPhasedArrayModel && rxPhasedArrayModel, ...)` in `StartRx` -/
  | phasedArrayModelMissing
  /-- A null `Ptr` is dereferenced -/
  | nullDereference
  /-- The assertion `NS_ASSERT (txParams->txPhy)` in `StartTx` -/
  | txPhyNotSet
  /-- The assertion `NS_ASSERT (txParams->psd)` in `StartTx` -/
  | psdNotSet
  /-- The assertion `NS_ASSERT_MSG (... == rxSpectrumModelUid, ...)` in `StartTx`: a
  spectrum model change was not notified to the channel -/
  | spectrumModelChangeNotNotified
  deriving DecidableEq, Repr

/-! ## `std::map` keyed by `SpectrumModelUid_t` -/

/-- Modelled from the spec: the header declaring `TxSpectrumModelInfoMap_t`,
`RxSpectrumModelInfoMap_t` and `SpectrumConverterMap_t` is not among the sources.  The
spec describes keyed containers; the calls made on them (`find`, `insert`, `emplace`
returning an iterator and an insertion flag) are those of `std::map`, whose iteration
order is ascending key order. -/
abbrev UidMap (α : Type) := List (Nat × α)

/-- The call `m.find (k)`: the mapped value, or `none` for `m.end ()`. -/
def UidMap.find {α : Type} (k : Nat) : UidMap α → Option α
  | [] => none
  | (k', v) :: rest => if k = k' then some v else UidMap.find k rest

/-- The calls `m.insert (std::make_pair (k, v))` and `m.emplace (k, v)`: the element is
placed in key order unless the key is present; the flag tells whether it was inserted. -/
def UidMap.insert {α : Type} (k : Nat) (v : α) : UidMap α → UidMap α × Bool
  | [] => ([(k, v)], true)
  | (k', v') :: rest =>
    if k < k' then ((k, v) :: (k', v') :: rest, true)
    else if k = k' then ((k', v') :: rest, false)
    else ((k', v') :: (UidMap.insert k v rest).1, (UidMap.insert k v rest).2)

/-- A write through an iterator that points at the element with key `k`. -/
def UidMap.modify {α : Type} (k : Nat) (f : α → α) : UidMap α → UidMap α
  | [] => []
  | (k', v) :: rest =>
    if k = k' then (k', f v) :: rest else (k', v) :: UidMap.modify k f rest

/-- The keys in iteration order. -/
def UidMap.keys {α : Type} (m : UidMap α) : List Nat := m.map Prod.fst

/-! ## Channel state -/

abbrev SpectrumConverterMap_t := UidMap SpectrumConverter

/-- A Transmit-Model entry. -/
structure TxSpectrumModelInfo where
  m_txSpectrumModel : SpectrumModel
  m_spectrumConverterMap : SpectrumConverterMap_t
  deriving DecidableEq, Repr

/-- A Receive-Model entry; `m_rxPhys` holds the endpoint pointers in insertion order. -/
structure RxSpectrumModelInfo where
  m_rxSpectrumModel : SpectrumModel
  m_rxPhys : List Nat
  deriving DecidableEq, Repr

abbrev TxSpectrumModelInfoMap_t := UidMap TxSpectrumModelInfo
abbrev RxSpectrumModelInfoMap_t := UidMap RxSpectrumModelInfo

/-- The data members of `MultiModelSpectrumChannel`. -/
structure MultiModelSpectrumChannel where
  m_numDevices : Nat
  m_txSpectrumModelInfoMap : TxSpectrumModelInfoMap_t
  m_rxSpectrumModelInfoMap : RxSpectrumModelInfoMap_t
  deriving DecidableEq, Repr

/-- The constructor: `m_numDevices{0}` and two empty maps. -/
def MultiModelSpectrumChannel.new : MultiModelSpectrumChannel :=
  { m_numDevices := 0, m_txSpectrumModelInfoMap := [], m_rxSpectrumModelInfoMap := [] }

/-- The statement `--m_numDevices` on a `std::size_t`. -/
def decrement (n : Nat) : Nat := if n = 0 then 18446744073709551615 else n - 1

/-- The loop of `RemoveRx`: the first bucket, in iteration order, that holds `phy` loses
the first occurrence of it and the scan stops; `none` when no bucket holds it. -/
def RemoveRx.scan (phy : Nat) : RxSpectrumModelInfoMap_t → Option RxSpectrumModelInfoMap_t
  | [] => none
  | (k, info) :: rest =>
    if phy ∈ info.m_rxPhys then
      some ((k, { info with m_rxPhys := info.m_rxPhys.erase phy }) :: rest)
    else
      match RemoveRx.scan phy rest with
      | some rest' => some ((k, info) :: rest')
      | none => none

/-- The method `MultiModelSpectrumChannel::RemoveRx (phy)`. -/
def RemoveRx (s : MultiModelSpectrumChannel) (phy : Nat) : MultiModelSpectrumChannel :=
  match RemoveRx.scan phy s.m_rxSpectrumModelInfoMap with
  | some rx => { s with m_rxSpectrumModelInfoMap := rx, m_numDevices := decrement s.m_numDevices }
  | none => s

/-- The loop of `AddRx` over the transmit-model entries, run when the receive-model entry
is new: each entry whose model is distinct from and not orthogonal to `rxSpectrumModel`
gets a converter keyed by the receive uid.  A failed insertion aborts the loop, leaving
the entries visited so far updated. -/
def AddRx.createConverters (isOrthogonal : SpectrumModel → SpectrumModel → Bool)
    (rxSpectrumModel : SpectrumModel) :
    TxSpectrumModelInfoMap_t → TxSpectrumModelInfoMap_t × Option Fatal
  | [] => ([], none)
  | (k, info) :: rest =>
    if rxSpectrumModel.uid ≠ info.m_txSpectrumModel.uid
        ∧ isOrthogonal info.m_txSpectrumModel rxSpectrumModel = false then
      match UidMap.insert rxSpectrumModel.uid
          (SpectrumConverter.mk info.m_txSpectrumModel rxSpectrumModel)
          info.m_spectrumConverterMap with
      | (convs, true) =>
        ((k, { info with m_spectrumConverterMap := convs })
            :: (AddRx.createConverters isOrthogonal rxSpectrumModel rest).1,
          (AddRx.createConverters isOrthogonal rxSpectrumModel rest).2)
      | (convs, false) =>
        ((k, { info with m_spectrumConverterMap := convs }) :: rest,
          some Fatal.converterInsertFailed)
    else
      ((k, info) :: (AddRx.createConverters isOrthogonal rxSpectrumModel rest).1,
        (AddRx.createConverters isOrthogonal rxSpectrumModel rest).2)

/-- The method `MultiModelSpectrumChannel::AddRx (phy)`. -/
def AddRx (isOrthogonal : SpectrumModel → SpectrumModel → Bool)
    (s : MultiModelSpectrumChannel) (phy : SpectrumPhy) :
    MultiModelSpectrumChannel × Option Fatal :=
  match phy.rxSpectrumModel with
  | none => (s, some Fatal.rxSpectrumModelNotSet)
  | some rxSpectrumModel =>
    let rxSpectrumModelUid := rxSpectrumModel.uid
    let s1 := RemoveRx s phy.ptr
    let s2 := { s1 with m_numDevices := s1.m_numDevices + 1 }
    let emplaced := UidMap.insert rxSpectrumModelUid
      (RxSpectrumModelInfo.mk rxSpectrumModel []) s2.m_rxSpectrumModelInfoMap
    let rx := UidMap.modify rxSpectrumModelUid
      (fun info => { info with m_rxPhys := info.m_rxPhys ++ [phy.ptr] }) emplaced.1
    let s3 := { s2 with m_rxSpectrumModelInfoMap := rx }
    if emplaced.2 then
      let created := AddRx.createConverters isOrthogonal rxSpectrumModel
        s3.m_txSpectrumModelInfoMap
      ({ s3 with m_txSpectrumModelInfoMap := created.1 }, created.2)
    else
      (s3, none)

/-- The loop of `FindAndEventuallyAddTxSpectrumModel` over the receive-model entries: it
fills the converter map `convs` of the new transmit-model entry.  A failed insertion
aborts the loop. -/
def FindAndEventuallyAddTxSpectrumModel.createConverters
    (isOrthogonal : SpectrumModel → SpectrumModel → Bool) (txSpectrumModel : SpectrumModel) :
    RxSpectrumModelInfoMap_t → SpectrumConverterMap_t → SpectrumConverterMap_t × Option Fatal
  | [], convs => (convs, none)
  | (_, info) :: rest, convs =>
    if info.m_rxSpectrumModel.uid ≠ txSpectrumModel.uid
        ∧ isOrthogonal txSpectrumModel info.m_rxSpectrumModel = false then
      match UidMap.insert info.m_rxSpectrumModel.uid
          (SpectrumConverter.mk txSpectrumModel info.m_rxSpectrumModel) convs with
      | (convs', true) =>
        FindAndEventuallyAddTxSpectrumModel.createConverters isOrthogonal txSpectrumModel
          rest convs'
      | (convs', false) => (convs', some Fatal.converterInsertFailed)
    else
      FindAndEventuallyAddTxSpectrumModel.createConverters isOrthogonal txSpectrumModel
        rest convs

/-- The method `MultiModelSpectrumChannel::FindAndEventuallyAddTxSpectrumModel (txSpectrumModel)`.
The returned iterator is represented by the key and the entry it points at. -/
def FindAndEventuallyAddTxSpectrumModel (isOrthogonal : SpectrumModel → SpectrumModel → Bool)
    (s : MultiModelSpectrumChannel) (txSpectrumModel : SpectrumModel) :
    MultiModelSpectrumChannel × Except Fatal (Nat × TxSpectrumModelInfo) :=
  let txSpectrumModelUid := txSpectrumModel.uid
  match UidMap.find txSpectrumModelUid s.m_txSpectrumModelInfoMap with
  | some info => (s, .ok (txSpectrumModelUid, info))
  | none =>
    let ret := UidMap.insert txSpectrumModelUid (TxSpectrumModelInfo.mk txSpectrumModel [])
      s.m_txSpectrumModelInfoMap
    if ret.2 then
      let created := FindAndEventuallyAddTxSpectrumModel.createConverters isOrthogonal
        txSpectrumModel s.m_rxSpectrumModelInfoMap []
      let tx := UidMap.modify txSpectrumModelUid
        (fun info => { info with m_spectrumConverterMap := created.1 }) ret.1
      let s1 := { s with m_txSpectrumModelInfoMap := tx }
      match created.2 with
      | some e => (s1, .error e)
      | none => (s1, .ok (txSpectrumModelUid, TxSpectrumModelInfo.mk txSpectrumModel created.1))
    else
      ({ s with m_txSpectrumModelInfoMap := ret.1 }, .error Fatal.txModelInsertFailed)

/-- The method `MultiModelSpectrumChannel::GetNDevices ()`. -/
def GetNDevices (s : MultiModelSpectrumChannel) : Nat := s.m_numDevices

/-- The inner loop of `GetDevice` over one bucket, entered with the counter `j`: the
endpoint found at index `i`, or the counter after the bucket. -/
def GetDevice.scanPhys (i : Nat) : List Nat → Nat → Nat ⊕ Nat
  | [], j => .inr j
  | phy :: rest, j => if j = i then .inl phy else GetDevice.scanPhys i rest (j + 1)

/-- The outer loop of `GetDevice` over the buckets in iteration order; `none` when the
loops end without reaching index `i`. -/
def GetDevice.scan (i : Nat) : RxSpectrumModelInfoMap_t → Nat → Option Nat
  | [], _ => none
  | (_, info) :: rest, j =>
    match GetDevice.scanPhys i info.m_rxPhys j with
    | .inl phy => some phy
    | .inr j' => GetDevice.scan i rest j'

/-- The method `MultiModelSpectrumChannel::GetDevice (i)`; `deviceOf phy` is what `GetDevice ()` of
the endpoint `phy` returns (possibly null). -/
def GetDevice (deviceOf : Nat → Option NetDevice) (s : MultiModelSpectrumChannel) (i : Nat) :
    Except Fatal (Option NetDevice) :=
  if i < s.m_numDevices then
    match GetDevice.scan i s.m_rxSpectrumModelInfoMap 0 with
    | some phy => .ok (deviceOf phy)
    | none => .error Fatal.numDevicesTooLarge
  else
    .error Fatal.indexOutOfRange

/-- The members of the base class `SpectrumChannel` read by `StartRx`: the two optional
spectrum-aware loss models, each given by its `CalcRxPowerSpectralDensity`. -/
structure SpectrumChannel where
  m_spectrumPropagationLoss :
    Option (SpectrumSignalParameters → Option Nat → Option Nat → SpectrumValue)
  m_phasedArraySpectrumPropagationLoss :
    Option (SpectrumSignalParameters → Option Nat → Option Nat → Nat → Nat →
      SpectrumSignalParameters)

/-- What a call of `StartRx` does for the receiver: it returns early, or it calls
`receiver->StartRx (params)`. -/
inductive Delivery where
  | dropped
  | delivered (params : SpectrumSignalParameters)
  deriving DecidableEq, Repr

/-- The tail of `StartRx`, from `params->psd = convertedPsd` on. -/
def StartRx.applyLoss (base : SpectrumChannel) (params : SpectrumSignalParameters)
    (convertedPsd : SpectrumValue) (receiver : SpectrumPhy) : Except Fatal Delivery :=
  let params1 := { params with psd := some convertedPsd }
  match base.m_spectrumPropagationLoss with
  | some loss =>
    match params1.txPhy with
    | none => .error Fatal.nullDereference
    | some txPhy =>
      .ok (.delivered { params1 with psd := some (loss params1 txPhy.mobility receiver.mobility) })
  | none =>
    match base.m_phasedArraySpectrumPropagationLoss with
    | some loss =>
      match params1.txPhy with
      | none => .error Fatal.nullDereference
      | some txPhy =>
        match dynamicCastPhasedArrayModel txPhy.antenna,
            dynamicCastPhasedArrayModel receiver.antenna with
        | some txPhasedArrayModel, some rxPhasedArrayModel =>
          .ok (.delivered
            (loss params1 txPhy.mobility receiver.mobility txPhasedArrayModel rxPhasedArrayModel))
        | _, _ => .error Fatal.phasedArrayModelMissing
    | none => .ok (.delivered params1)

/-- The method `MultiModelSpectrumChannel::StartRx (params, receiver)`; `convert c psd` is
`c.Convert (psd)` of the converter `c`. -/
def StartRx (isOrthogonal : SpectrumModel → SpectrumModel → Bool)
    (convert : SpectrumConverter → SpectrumValue → SpectrumValue) (base : SpectrumChannel)
    (s : MultiModelSpectrumChannel) (params : SpectrumSignalParameters) (receiver : SpectrumPhy) :
    MultiModelSpectrumChannel × Except Fatal Delivery :=
  match params.psd with
  | none => (s, .error Fatal.nullDereference)
  | some psd =>
    let txSpectrumModelUid := psd.spectrumModel.uid
    match receiver.rxSpectrumModel with
    | none => (s, .error Fatal.nullDereference)
    | some rxSpectrumModel =>
      let rxSpectrumModelUid := rxSpectrumModel.uid
      match FindAndEventuallyAddTxSpectrumModel isOrthogonal s psd.spectrumModel with
      | (s1, .error e) => (s1, .error e)
      | (s1, .ok (_, txInfo)) =>
        if txSpectrumModelUid = rxSpectrumModelUid then
          (s1, StartRx.applyLoss base params psd receiver)
        else
          match UidMap.find rxSpectrumModelUid txInfo.m_spectrumConverterMap with
          | none => (s1, .ok .dropped)
          | some converter => (s1, StartRx.applyLoss base params (convert converter psd) receiver)

/-! ## Reachable states -/

/-- The states a channel can be in: the freshly constructed one, and every state left by
a call of `AddRx`, `RemoveRx`, `FindAndEventuallyAddTxSpectrumModel` or `StartRx` that
did not abort the run. -/
inductive Reachable (isOrthogonal : SpectrumModel → SpectrumModel → Bool) :
    MultiModelSpectrumChannel → Prop where
  | new : Reachable isOrthogonal MultiModelSpectrumChannel.new
  | addRx {s : MultiModelSpectrumChannel} (phy : SpectrumPhy) :
      Reachable isOrthogonal s → (AddRx isOrthogonal s phy).2 = none →
      Reachable isOrthogonal (AddRx isOrthogonal s phy).1
  | removeRx {s : MultiModelSpectrumChannel} (phy : Nat) :
      Reachable isOrthogonal s → Reachable isOrthogonal (RemoveRx s phy)
  | findTx {s : MultiModelSpectrumChannel} (txSpectrumModel : SpectrumModel)
      (entry : Nat × TxSpectrumModelInfo) :
      Reachable isOrthogonal s →
      (FindAndEventuallyAddTxSpectrumModel isOrthogonal s txSpectrumModel).2 = .ok entry →
      Reachable isOrthogonal (FindAndEventuallyAddTxSpectrumModel isOrthogonal s txSpectrumModel).1
  | startRx {s : MultiModelSpectrumChannel}
      (convert : SpectrumConverter → SpectrumValue → SpectrumValue) (base : SpectrumChannel)
      (params : SpectrumSignalParameters) (receiver : SpectrumPhy) (d : Delivery) :
      Reachable isOrthogonal s →
      (StartRx isOrthogonal convert base s params receiver).2 = .ok d →
      Reachable isOrthogonal (StartRx isOrthogonal convert base s params receiver).1

/-- The endpoints of all buckets, concatenated in iteration order. -/
def allRxPhys (s : MultiModelSpectrumChannel) : List Nat :=
  (s.m_rxSpectrumModelInfoMap.map (fun e => e.2.m_rxPhys)).flatten

/-- The bucket keyed by `uid`: its endpoints, empty when there is no such entry. -/
def bucket (s : MultiModelSpectrumChannel) (uid : Nat) : List Nat :=
  match UidMap.find uid s.m_rxSpectrumModelInfoMap with
  | some info => info.m_rxPhys
  | none => []

/-! ## Notions used to state the properties -/

/-- The map with every value replaced by its image under `h`, keys kept. -/
def UidMap.mapVal {α β : Type} (h : α → β) (m : UidMap α) : UidMap β :=
  m.map (fun e => (e.1, h e.2))

/-- The Receive-Model entries without their endpoint lists: key and model handle. -/
def rxModels (s : MultiModelSpectrumChannel) : UidMap SpectrumModel :=
  UidMap.mapVal RxSpectrumModelInfo.m_rxSpectrumModel s.m_rxSpectrumModelInfoMap

/-- The converter that a transmit model `txSpectrumModel` needs towards one receive
model: none when the two uids agree or the models are orthogonal. -/
def converterFor (isOrthogonal : SpectrumModel → SpectrumModel → Bool)
    (txSpectrumModel : SpectrumModel) (e : Nat × SpectrumModel) :
    Option (Nat × SpectrumConverter) :=
  if e.2.uid ≠ txSpectrumModel.uid ∧ isOrthogonal txSpectrumModel e.2 = false then
    some (e.2.uid, SpectrumConverter.mk txSpectrumModel e.2)
  else none

/-- The converters that `txSpectrumModel` needs towards the receive models `m`. -/
def convertersFor (isOrthogonal : SpectrumModel → SpectrumModel → Bool)
    (txSpectrumModel : SpectrumModel) (m : UidMap SpectrumModel) : SpectrumConverterMap_t :=
  m.filterMap (converterFor isOrthogonal txSpectrumModel)

/-- One Transmit-Model entry after a new receive model `rxSpectrumModel` has been taken
into account. -/
def addConverter (isOrthogonal : SpectrumModel → SpectrumModel → Bool)
    (rxSpectrumModel : SpectrumModel) (info : TxSpectrumModelInfo) : TxSpectrumModelInfo :=
  if rxSpectrumModel.uid ≠ info.m_txSpectrumModel.uid
      ∧ isOrthogonal info.m_txSpectrumModel rxSpectrumModel = false then
    { info with m_spectrumConverterMap :=
        (UidMap.insert rxSpectrumModel.uid
          (SpectrumConverter.mk info.m_txSpectrumModel rxSpectrumModel)
          info.m_spectrumConverterMap).1 }
  else info

/-- The representation invariant of the channel: both maps are in ascending key order,
every entry is keyed by the uid of its model, the device count is the number of stored
endpoints, no endpoint is stored twice, and every cached converter leads from the model
of its entry to a distinct, non-orthogonal model of the receive registry. -/
structure Invariant (isOrthogonal : SpectrumModel → SpectrumModel → Bool)
    (s : MultiModelSpectrumChannel) : Prop where
  rxSorted : (UidMap.keys s.m_rxSpectrumModelInfoMap).Pairwise (· < ·)
  txSorted : (UidMap.keys s.m_txSpectrumModelInfoMap).Pairwise (· < ·)
  rxKey : ∀ e ∈ s.m_rxSpectrumModelInfoMap, e.2.m_rxSpectrumModel.uid = e.1
  txKey : ∀ e ∈ s.m_txSpectrumModelInfoMap, e.2.m_txSpectrumModel.uid = e.1
  count : s.m_numDevices = (allRxPhys s).length
  nodup : (allRxPhys s).Nodup
  convs : ∀ e ∈ s.m_txSpectrumModelInfoMap, ∀ c ∈ e.2.m_spectrumConverterMap,
    c.1 ≠ e.1 ∧ ∃ r, (c.1, r) ∈ rxModels s ∧ isOrthogonal e.2.m_txSpectrumModel r = false
      ∧ c.2 = SpectrumConverter.mk e.2.m_txSpectrumModel r

/-! ## A concrete scenario -/

/-- Orthogonality in the scenario: two models do not overlap when their uids are at
least ten apart. -/
def exampleIsOrthogonal (a b : SpectrumModel) : Bool :=
  decide (a.uid + 10 ≤ b.uid ∨ b.uid + 10 ≤ a.uid)

/-- An endpoint with pointer `ptr` whose receive model has uid `uid`, without device,
mobility or antenna. -/
def examplePhy (ptr uid : Nat) : SpectrumPhy :=
  { ptr := ptr, rxSpectrumModel := some (SpectrumModel.mk uid), device := none,
    mobility := none, antenna := none }

/-- The channel after: endpoint 10 registers with model 3, transmit model 2 is seen,
endpoint 11 registers with model 1, endpoint 10 switches to model 20 and registers again. -/
def exampleChannel : MultiModelSpectrumChannel :=
  (AddRx exampleIsOrthogonal
    (AddRx exampleIsOrthogonal
      (FindAndEventuallyAddTxSpectrumModel exampleIsOrthogonal
        (AddRx exampleIsOrthogonal MultiModelSpectrumChannel.new (examplePhy 10 3)).1
        (SpectrumModel.mk 2)).1
      (examplePhy 11 1)).1
    (examplePhy 10 20)).1

/-! ## Transmission: `StartTx` -/

/-- Values of type `double`.  They are represented by rational numbers with exact
arithmetic; rounding, infinities and NaN are outside the model. -/
abbrev Double := Rat

/-- Values of `ns3::Time`, a signed count of ticks. -/
abbrev Time := Int

/-- Modelled from the spec: `Vector` is declared outside the sources; it is the mobility
position of the spec, three coordinates compared with `==`. -/
structure Vector where
  x : Double
  y : Double
  z : Double
  deriving DecidableEq, Repr

/-- Modelled from the spec: `Angles` is declared outside the sources.  The object built
by `Angles (v, o)` is represented by the two positions it is built from. -/
structure Angles where
  v : Vector
  o : Vector
  deriving DecidableEq, Repr

/-- The value of `DynamicCast<AntennaModel> (obj)`. -/
def dynamicCastAntennaModel : Option AntennaObject → Option Nat
  | some (.antennaModel p) => some p
  | _ => none

/-- What the collaborating objects answer during one call of `StartTx`: the endpoint
behind a pointer stored in a bucket, `MobilityModel::GetPosition`,
`AntennaModel::GetGainDb`, `std::pow` and `SpectrumValue::operator*=`. -/
structure Environment where
  phy : Nat → SpectrumPhy
  position : Nat → Vector
  gainDb : Nat → Angles → Double
  pow : Double → Double → Double
  scale : SpectrumValue → Double → SpectrumValue

/-- The members of the base class `SpectrumChannel` read by `StartTx`: the scalar loss
model given by its `CalcRxPower`, the delay model given by its `GetDelay`, the transmit
filter given by its `Filter`, and the maximum loss. -/
structure SpectrumChannelLinkModels where
  m_propagationLoss : Option (Double → Nat → Nat → Double)
  m_propagationDelay : Option (Nat → Nat → Time)
  m_filter : Option (SpectrumSignalParameters → Nat → Bool)
  m_maxLossDb : Double

/-- What `StartTx` does to the outside, in the order in which it happens: the three
traces, and the calls `Simulator::ScheduleWithContext (context, delay, ...)`
(`context = some node`) and `Simulator::Schedule (delay, ...)` (`context = none`) of
`StartRx (rxParams, receiver)`. -/
inductive Effect where
  | txSigParamsTrace (txParams : SpectrumSignalParameters)
  | gainTrace (txMobility rxMobility : Nat)
      (txAntennaGain rxAntennaGain propagationGainDb pathLossDb : Double)
  | pathLossTrace (txPhy rxPhy : Nat) (pathLossDb : Double)
  | schedule (context : Option Nat) (delay : Time) (rxParams : SpectrumSignalParameters)
      (receiver : Nat)
  deriving DecidableEq, Repr

/-- The four local variables of the link computation of `StartTx`. -/
structure LinkGains where
  txAntennaGain : Double
  rxAntennaGain : Double
  propagationGainDb : Double
  pathLossDb : Double
  deriving DecidableEq, Repr

/-- The link computation of `StartTx` up to the traces, run when both mobility models
are present: the four variables start at `0.0` and `pathLossDb` is decreased by each
gain whose model is present. -/
def StartTx.linkGains (env : Environment) (base : SpectrumChannelLinkModels)
    (rxParams : SpectrumSignalParameters) (txMobility receiverMobility : Nat)
    (rxAntennaObject : Option AntennaObject) : LinkGains :=
  let g0 : LinkGains :=
    { txAntennaGain := 0, rxAntennaGain := 0, propagationGainDb := 0, pathLossDb := 0 }
  let g1 : LinkGains :=
    match rxParams.txAntenna with
    | some txAntenna =>
      let txAntennaGain := env.gainDb txAntenna
        (Angles.mk (env.position receiverMobility) (env.position txMobility))
      { g0 with txAntennaGain := txAntennaGain, pathLossDb := g0.pathLossDb - txAntennaGain }
    | none => g0
  let g2 : LinkGains :=
    match dynamicCastAntennaModel rxAntennaObject with
    | some rxAntenna =>
      let rxAntennaGain := env.gainDb rxAntenna
        (Angles.mk (env.position txMobility) (env.position receiverMobility))
      { g1 with rxAntennaGain := rxAntennaGain, pathLossDb := g1.pathLossDb - rxAntennaGain }
    | none => g1
  match base.m_propagationLoss with
  | some calcRxPower =>
    let propagationGainDb : Double :=
      if env.position txMobility = env.position receiverMobility then 0
      else calcRxPower 0 txMobility receiverMobility
    { g2 with propagationGainDb := propagationGainDb,
              pathLossDb := g2.pathLossDb - propagationGainDb }
  | none => g2

/-- The test `rxNetDevice && txNetDevice` followed by the comparison of the node ids. -/
def StartTx.sameNode : Option NetDevice → Option NetDevice → Bool
  | some rxNetDevice, some txNetDevice => decide (rxNetDevice.nodeId = txNetDevice.nodeId)
  | _, _ => false

/-- The test `m_filter && m_filter->Filter (txParams, *rxPhyIterator)`. -/
def StartTx.vetoed (base : SpectrumChannelLinkModels) (txParams : SpectrumSignalParameters)
    (rxPhy : Nat) : Bool :=
  match base.m_filter with
  | some filter => filter txParams rxPhy
  | none => false

/-- The body of the inner loop of `StartTx` for the endpoint `rxPhy` of the bucket whose
model has uid `rxSpectrumModelUid`: the effects it has, and the fatal condition if it
aborts the run.  `txPhy` and `psd` are the (non-null) transmitter and PSD of `txParams`. -/
def StartTx.rxPhy (env : Environment) (base : SpectrumChannelLinkModels)
    (txParams : SpectrumSignalParameters) (txPhy : SpectrumPhy) (psd : SpectrumValue)
    (rxSpectrumModelUid : Nat) (rxPhy : Nat) : List Effect × Option Fatal :=
  match (env.phy rxPhy).rxSpectrumModel with
  | none => ([], some Fatal.nullDereference)
  | some rxSpectrumModel =>
    if rxSpectrumModel.uid ≠ rxSpectrumModelUid then
      ([], some Fatal.spectrumModelChangeNotNotified)
    else if rxPhy = txPhy.ptr then ([], none)
    else if StartTx.sameNode (env.phy rxPhy).device txPhy.device = true then ([], none)
    else if StartTx.vetoed base txParams rxPhy = true then ([], none)
    else
      let rxParams : SpectrumSignalParameters := { txParams with psd := some psd }
      let context := (env.phy rxPhy).device.map NetDevice.nodeId
      match txPhy.mobility, (env.phy rxPhy).mobility with
      | some txMobility, some receiverMobility =>
        let g := StartTx.linkGains env base rxParams txMobility receiverMobility
          (env.phy rxPhy).antenna
        let traces := [Effect.gainTrace txMobility receiverMobility g.txAntennaGain
          g.rxAntennaGain g.propagationGainDb g.pathLossDb,
          Effect.pathLossTrace txPhy.ptr rxPhy g.pathLossDb]
        if g.pathLossDb > base.m_maxLossDb then (traces, none)
        else
          let pathGainLinear := env.pow 10 ((-g.pathLossDb) / 10)
          let delay : Time :=
            match base.m_propagationDelay with
            | some getDelay => getDelay txMobility receiverMobility
            | none => 0
          (traces ++ [Effect.schedule context delay
            { rxParams with psd := some (env.scale psd pathGainLinear) } rxPhy], none)
      | _, _ => ([Effect.schedule context 0 rxParams rxPhy], none)

/-- The inner loop of `StartTx` over the endpoints of one bucket. -/
def StartTx.rxPhys (env : Environment) (base : SpectrumChannelLinkModels)
    (txParams : SpectrumSignalParameters) (txPhy : SpectrumPhy) (psd : SpectrumValue)
    (rxSpectrumModelUid : Nat) : List Nat → List Effect × Option Fatal
  | [] => ([], none)
  | rxPhy :: rest =>
    match StartTx.rxPhy env base txParams txPhy psd rxSpectrumModelUid rxPhy with
    | (effects, some e) => (effects, some e)
    | (effects, none) =>
      (effects ++ (StartTx.rxPhys env base txParams txPhy psd rxSpectrumModelUid rest).1,
        (StartTx.rxPhys env base txParams txPhy psd rxSpectrumModelUid rest).2)

/-- The outer loop of `StartTx` over the Receive-Model entries in iteration order. -/
def StartTx.rxInfos (env : Environment) (base : SpectrumChannelLinkModels)
    (txParams : SpectrumSignalParameters) (txPhy : SpectrumPhy) (psd : SpectrumValue) :
    RxSpectrumModelInfoMap_t → List Effect × Option Fatal
  | [] => ([], none)
  | (_, info) :: rest =>
    match StartTx.rxPhys env base txParams txPhy psd info.m_rxSpectrumModel.uid
        info.m_rxPhys with
    | (effects, some e) => (effects, some e)
    | (effects, none) =>
      (effects ++ (StartTx.rxInfos env base txParams txPhy psd rest).1,
        (StartTx.rxInfos env base txParams txPhy psd rest).2)

/-- The method `MultiModelSpectrumChannel::StartTx (txParams)`: the channel state it
leaves, its effects in order, and the fatal condition if it aborts the run. -/
def StartTx (env : Environment) (base : SpectrumChannelLinkModels)
    (s : MultiModelSpectrumChannel) (txParams : SpectrumSignalParameters) :
    MultiModelSpectrumChannel × List Effect × Option Fatal :=
  match txParams.txPhy with
  | none => (s, [], some Fatal.txPhyNotSet)
  | some txPhy =>
    match txParams.psd with
    | none => (s, [], some Fatal.psdNotSet)
    | some psd =>
      let r := StartTx.rxInfos env base txParams txPhy psd s.m_rxSpectrumModelInfoMap
      (s, Effect.txSigParamsTrace txParams :: r.1, r.2)

/-- One scheduling call: the arguments of `Simulator::Schedule` or
`Simulator::ScheduleWithContext`. -/
structure ScheduledRx where
  context : Option Nat
  delay : Time
  rxParams : SpectrumSignalParameters
  receiver : Nat
  deriving DecidableEq, Repr

/-- The scheduling call made by one effect, if it is one. -/
def Effect.scheduled : Effect → Option ScheduledRx
  | .schedule context delay rxParams receiver => some ⟨context, delay, rxParams, receiver⟩
  | _ => none

/-- The scheduling calls among the effects, in the order in which they are issued. -/
def scheduledCalls (effects : List Effect) : List ScheduledRx :=
  effects.filterMap Effect.scheduled

/-! ## Notions used to state the properties of the transmit path -/

/-- Following the spec: the transmit antenna gain of a link, looked up via the antenna of
the signal with the angle from receiver to transmitter, `0` when the signal has no
antenna. -/
def specTxAntennaGain (env : Environment) (txAntenna : Option Nat)
    (txMobility receiverMobility : Nat) : Double :=
  match txAntenna with
  | some a => env.gainDb a (Angles.mk (env.position receiverMobility) (env.position txMobility))
  | none => 0

/-- Following the spec: the receive antenna gain of a link, looked up via the antenna
model of the receiver with the angle from transmitter to receiver, `0` when the receiver
has no antenna model. -/
def specRxAntennaGain (env : Environment) (rxAntennaObject : Option AntennaObject)
    (txMobility receiverMobility : Nat) : Double :=
  match dynamicCastAntennaModel rxAntennaObject with
  | some a => env.gainDb a (Angles.mk (env.position txMobility) (env.position receiverMobility))
  | none => 0

/-- Following the spec: the propagation gain of a link, `0` when no scalar loss model is
configured or when the two positions are identical, else the value of the model. -/
def specPropagationGain (env : Environment) (base : SpectrumChannelLinkModels)
    (txMobility receiverMobility : Nat) : Double :=
  match base.m_propagationLoss with
  | some calcRxPower =>
    if env.position txMobility = env.position receiverMobility then 0
    else calcRxPower 0 txMobility receiverMobility
  | none => 0

/-- Following the spec:
`pathLoss = -(txAntennaGain) - (rxAntennaGain) - (propagationGain)`. -/
def specPathLoss (env : Environment) (base : SpectrumChannelLinkModels)
    (txAntenna : Option Nat) (rxAntennaObject : Option AntennaObject)
    (txMobility receiverMobility : Nat) : Double :=
  -(specTxAntennaGain env txAntenna txMobility receiverMobility)
    - specRxAntennaGain env rxAntennaObject txMobility receiverMobility
    - specPropagationGain env base txMobility receiverMobility

/-- Following the spec: the receiver `rxPhy` is out of range when both endpoints have a
mobility model and the path loss exceeds the maximum loss. -/
def outOfRange (env : Environment) (base : SpectrumChannelLinkModels)
    (txParams : SpectrumSignalParameters) (txPhy : SpectrumPhy) (rxPhy : Nat) : Bool :=
  match txPhy.mobility, (env.phy rxPhy).mobility with
  | some txMobility, some receiverMobility =>
    decide (specPathLoss env base txParams.txAntenna (env.phy rxPhy).antenna
      txMobility receiverMobility > base.m_maxLossDb)
  | _, _ => false

/-- Following the spec: the receiver gets a scheduling call when it is not the
transmitter, is not on the node of the transmitter (when both have devices), is not
vetoed by the configured transmit filter, and is not out of range. -/
def inRangeReceiver (env : Environment) (base : SpectrumChannelLinkModels)
    (txParams : SpectrumSignalParameters) (txPhy : SpectrumPhy) (rxPhy : Nat) : Bool :=
  decide (rxPhy ≠ txPhy.ptr)
    && (match (env.phy rxPhy).device, txPhy.device with
        | some rxNetDevice, some txNetDevice =>
          decide (rxNetDevice.nodeId ≠ txNetDevice.nodeId)
        | _, _ => true)
    && (match base.m_filter with
        | some filter => !filter txParams rxPhy
        | none => true)
    && !outOfRange env base txParams txPhy rxPhy

/-- Every endpoint stored in a bucket currently reports a receive model whose uid is the
uid of the bucket: no model change is left without a new call of `AddRx`. -/
def Notified (env : Environment) (s : MultiModelSpectrumChannel) : Prop :=
  ∀ e ∈ s.m_rxSpectrumModelInfoMap, ∀ phy ∈ e.2.m_rxPhys,
    (env.phy phy).rxSpectrumModel.map SpectrumModel.uid = some e.1

/-- The pairs (uid of the bucket model, endpoint) in the order in which the two loops of
`StartTx` visit them. -/
def StartTx.visits (m : RxSpectrumModelInfoMap_t) : List (Nat × Nat) :=
  (m.map (fun e => e.2.m_rxPhys.map (fun phy => (e.2.m_rxSpectrumModel.uid, phy)))).flatten

/-- The two loops of `StartTx` run as one loop over the visits. -/
def StartTx.visitAll (env : Environment) (base : SpectrumChannelLinkModels)
    (txParams : SpectrumSignalParameters) (txPhy : SpectrumPhy) (psd : SpectrumValue) :
    List (Nat × Nat) → List Effect × Option Fatal
  | [] => ([], none)
  | (uid, rxPhy) :: rest =>
    match (StartTx.rxPhy env base txParams txPhy psd uid rxPhy).2 with
    | some e => ((StartTx.rxPhy env base txParams txPhy psd uid rxPhy).1, some e)
    | none =>
      ((StartTx.rxPhy env base txParams txPhy psd uid rxPhy).1
          ++ (StartTx.visitAll env base txParams txPhy psd rest).1,
        (StartTx.visitAll env base txParams txPhy psd rest).2)

/-- The runs of a program that registers and removes endpoints while the endpoints change
their receive model: `heap phy` is the endpoint behind the pointer `phy` as it is now,
and `changed phy` tells whether the endpoint has changed its receive model after the last
call of `AddRx` on it.  A call of `AddRx` that aborts ends the run. -/
inductive RegistryRun (isOrthogonal : SpectrumModel → SpectrumModel → Bool) :
    (Nat → SpectrumPhy) → (Nat → Bool) → MultiModelSpectrumChannel → Prop where
  | new (heap : Nat → SpectrumPhy) :
      RegistryRun isOrthogonal heap (fun _ => false) MultiModelSpectrumChannel.new
  | addRx {heap : Nat → SpectrumPhy} {changed : Nat → Bool} {s : MultiModelSpectrumChannel}
      (phy : Nat) :
      RegistryRun isOrthogonal heap changed s →
      (AddRx isOrthogonal s { heap phy with ptr := phy }).2 = none →
      RegistryRun isOrthogonal heap (Function.update changed phy false)
        (AddRx isOrthogonal s { heap phy with ptr := phy }).1
  | removeRx {heap : Nat → SpectrumPhy} {changed : Nat → Bool} {s : MultiModelSpectrumChannel}
      (phy : Nat) :
      RegistryRun isOrthogonal heap changed s →
      RegistryRun isOrthogonal heap changed (RemoveRx s phy)
  | setRxSpectrumModel {heap : Nat → SpectrumPhy} {changed : Nat → Bool}
      {s : MultiModelSpectrumChannel} (phy : Nat) (model : Option SpectrumModel) :
      RegistryRun isOrthogonal heap changed s →
      RegistryRun isOrthogonal
        (Function.update heap phy { heap phy with rxSpectrumModel := model })
        (Function.update changed phy true) s

/-- The registry does not shrink from `s` to `t`: every key of the receive-model map and
of the transmit-model map of `s` is a key in `t`, and every Transmit-Model entry of `s`
is found in `t` under the same key with the same model and with at least the converter
keys it had. -/
def RegistryGrows (s t : MultiModelSpectrumChannel) : Prop :=
  (∀ k ∈ UidMap.keys s.m_rxSpectrumModelInfoMap, k ∈ UidMap.keys t.m_rxSpectrumModelInfoMap)
    ∧ (∀ k ∈ UidMap.keys s.m_txSpectrumModelInfoMap,
        k ∈ UidMap.keys t.m_txSpectrumModelInfoMap)
    ∧ ∀ e ∈ s.m_txSpectrumModelInfoMap, ∃ e' ∈ t.m_txSpectrumModelInfoMap,
        e'.1 = e.1 ∧ e'.2.m_txSpectrumModel = e.2.m_txSpectrumModel
          ∧ ∀ r ∈ UidMap.keys e.2.m_spectrumConverterMap,
              r ∈ UidMap.keys e'.2.m_spectrumConverterMap

/-! ## A concrete transmission -/

/-- The endpoints of the scenario: endpoint 10 reports model 20 and has mobility model 1;
endpoint 11 reports model 1, sits on node 3 and has mobility model 2; the transmitter 12
has mobility model 3; any other pointer is an endpoint without model. -/
def exampleEnvironment : Environment :=
  { phy := fun p =>
      if p = 10 then
        { ptr := 10, rxSpectrumModel := some ⟨20⟩, device := none, mobility := some 1,
          antenna := none }
      else if p = 11 then
        { ptr := 11, rxSpectrumModel := some ⟨1⟩, device := some ⟨7, 3⟩, mobility := some 2,
          antenna := none }
      else
        { ptr := p, rxSpectrumModel := none, device := none, mobility := none,
          antenna := none },
    position := fun m => ⟨m, 0, 0⟩,
    gainDb := fun _ _ => 0,
    pow := fun _ _ => 1,
    scale := fun v _ => v }

/-- The link models of the scenario: no loss model, no filter, maximum loss 100, and a
delay model for which the link towards mobility model 2 takes 5 ticks and any other
link 1 tick. -/
def exampleLinkModels : SpectrumChannelLinkModels :=
  { m_propagationLoss := none,
    m_propagationDelay := some (fun _ b => if b = 2 then 5 else 1),
    m_filter := none,
    m_maxLossDb := 100 }

/-- The scenario with gains: endpoint 11 has antenna model 5, antenna model `a` has a
gain of `a` dB in every direction, and the scalar loss model gives a propagation gain of
`-(a + b)` dB between the mobility models `a` and `b`. -/
def exampleGainEnvironment : Environment :=
  { exampleEnvironment with
    gainDb := fun a _ => a,
    phy := fun p =>
      if p = 11 then { exampleEnvironment.phy 11 with antenna := some (.antennaModel 5) }
      else exampleEnvironment.phy p }

/-- The link models of the scenario with the scalar loss model. -/
def exampleLossLinkModels : SpectrumChannelLinkModels :=
  { exampleLinkModels with m_propagationLoss := some (fun _ a b => -((a : Double) + b)) }

/-- The transmitter of the scenario. -/
def exampleTxPhy : SpectrumPhy :=
  { ptr := 12, rxSpectrumModel := none, device := none, mobility := some 3, antenna := none }

/-- The signal of the scenario: a PSD `[1, 1]` over model 2 sent by endpoint 12. -/
def exampleTxParams : SpectrumSignalParameters :=
  { psd := some ⟨⟨2⟩, [1, 1]⟩, txPhy := some exampleTxPhy, txAntenna := none }

/-- The signal of the scenario sent through antenna model 9. -/
def exampleAntennaTxParams : SpectrumSignalParameters :=
  { exampleTxParams with txAntenna := some 9 }

/-! ## Completeness of the converter cache -/

/-- The converter cache is complete: every Transmit-Model entry holds, for every
Receive-Model entry whose model has another uid and is not orthogonal to the model of the
transmit entry, the converter built from the two models, under the key of the receive
entry. -/
def ConvertersComplete (isOrthogonal : SpectrumModel → SpectrumModel → Bool)
    (s : MultiModelSpectrumChannel) : Prop :=
  ∀ e ∈ s.m_txSpectrumModelInfoMap, ∀ x ∈ rxModels s,
    x.2.uid ≠ e.2.m_txSpectrumModel.uid → isOrthogonal e.2.m_txSpectrumModel x.2 = false →
    UidMap.find x.1 e.2.m_spectrumConverterMap
      = some (SpectrumConverter.mk e.2.m_txSpectrumModel x.2)

/-- The converter of the scenario: it re-expresses a PSD in the model it leads to and
keeps the samples. -/
def exampleConvert (c : SpectrumConverter) (v : SpectrumValue) : SpectrumValue :=
  { v with spectrumModel := c.toModel }

/-! ## Lemmas on the uid-keyed maps -/

section UidMapLemmas
variable {α β : Type}

theorem UidMap.find_eq_none_iff (k : Nat) (m : UidMap α) :
    UidMap.find k m = none ↔ k ∉ UidMap.keys m := by
  induction m with
  | nil => simp [UidMap.find, UidMap.keys]
  | cons e rest ih =>
    obtain ⟨k', v⟩ := e
    by_cases h : k = k'
    · simp [UidMap.find, UidMap.keys, h]
    · simp only [UidMap.keys] at ih
      simp [UidMap.find, UidMap.keys, h, ih]

theorem UidMap.mem_of_find (k : Nat) (v : α) (m : UidMap α) (h : UidMap.find k m = some v) :
    (k, v) ∈ m := by
  induction m with
  | nil => simp [UidMap.find] at h
  | cons e rest ih =>
    obtain ⟨k', v'⟩ := e
    by_cases hk : k = k'
    · simp [UidMap.find, hk] at h
      simp [hk, h]
    · simp [UidMap.find, hk] at h
      exact List.mem_cons_of_mem _ (ih h)

theorem UidMap.find_of_mem (k : Nat) (v : α) (m : UidMap α)
    (hs : (UidMap.keys m).Pairwise (· < ·)) (h : (k, v) ∈ m) : UidMap.find k m = some v := by
  induction m with
  | nil => simp at h
  | cons e rest ih =>
    obtain ⟨k', v'⟩ := e
    simp only [UidMap.keys, List.map_cons, List.pairwise_cons] at hs
    rcases List.mem_cons.1 h with h1 | h1
    · cases h1
      simp [UidMap.find]
    · have hlt : k' < k := hs.1 k (List.mem_map.2 ⟨(k, v), h1, rfl⟩)
      have hne : k ≠ k' := by omega
      simp only [UidMap.find, hne, if_false]
      exact ih hs.2 h1

theorem UidMap.insert_flag (k : Nat) (v : α) (m : UidMap α) (h : k ∉ UidMap.keys m) :
    (UidMap.insert k v m).2 = true := by
  induction m with
  | nil => simp [UidMap.insert]
  | cons e rest ih =>
    obtain ⟨k', v'⟩ := e
    simp only [UidMap.keys, List.map_cons, List.mem_cons, not_or] at h
    simp only [UidMap.insert]
    split_ifs with h1 h2
    · rfl
    · exact absurd h2 h.1
    · exact ih h.2

theorem UidMap.insert_of_flag_false (k : Nat) (v : α) (m : UidMap α)
    (h : (UidMap.insert k v m).2 = false) : (UidMap.insert k v m).1 = m := by
  induction m with
  | nil => simp [UidMap.insert] at h
  | cons e rest ih =>
    obtain ⟨k', v'⟩ := e
    simp only [UidMap.insert] at h ⊢
    split_ifs at h ⊢ with h1 h2
    · rfl
    · simp [ih h]

theorem UidMap.insert_flag_of_mem (k : Nat) (v : α) (m : UidMap α)
    (hs : (UidMap.keys m).Pairwise (· < ·)) (h : k ∈ UidMap.keys m) :
    (UidMap.insert k v m).2 = false := by
  induction m with
  | nil => simp [UidMap.keys] at h
  | cons e rest ih =>
    obtain ⟨k', v'⟩ := e
    simp only [UidMap.keys, List.map_cons, List.pairwise_cons, List.mem_cons] at hs h
    simp only [UidMap.insert]
    split_ifs with h1 h2
    · rcases h with h | h
      · omega
      · have := hs.1 k h; omega
    · rfl
    · rcases h with h | h
      · exact absurd h h2
      · exact ih hs.2 h

theorem UidMap.mem_insert (k : Nat) (v : α) (m : UidMap α) (e : Nat × α) :
    e ∈ (UidMap.insert k v m).1 ↔ e ∈ m ∨ ((UidMap.insert k v m).2 = true ∧ e = (k, v)) := by
  induction m with
  | nil => simp [UidMap.insert]
  | cons e' rest ih =>
    obtain ⟨k', v'⟩ := e'
    simp only [UidMap.insert]
    split_ifs with h1 h2
    · simp only [List.mem_cons, true_and]; tauto
    · simp
    · simp only [List.mem_cons, ih]; tauto

theorem UidMap.keys_insert_sorted (k : Nat) (v : α) (m : UidMap α)
    (hs : (UidMap.keys m).Pairwise (· < ·)) :
    (UidMap.keys (UidMap.insert k v m).1).Pairwise (· < ·) := by
  induction m with
  | nil => simp [UidMap.insert, UidMap.keys]
  | cons e' rest ih =>
    obtain ⟨k', v'⟩ := e'
    simp only [UidMap.keys, List.map_cons, List.pairwise_cons] at hs
    simp only [UidMap.insert]
    split_ifs with h1 h2
    · simp only [UidMap.keys, List.map_cons, List.pairwise_cons, List.mem_cons]
      refine ⟨?_, hs⟩
      rintro a (rfl | ha)
      · exact h1
      · exact lt_trans h1 (hs.1 a ha)
    · simpa [UidMap.keys] using hs
    · simp only [UidMap.keys, List.map_cons, List.pairwise_cons]
      refine ⟨?_, ih hs.2⟩
      intro a ha
      obtain ⟨e, he, rfl⟩ := List.mem_map.1 ha
      rcases (UidMap.mem_insert k v rest e).1 he with h | ⟨_, rfl⟩
      · exact hs.1 _ (List.mem_map.2 ⟨e, h, rfl⟩)
      · simp only; omega

theorem UidMap.keys_modify (k : Nat) (f : α → α) (m : UidMap α) :
    UidMap.keys (UidMap.modify k f m) = UidMap.keys m := by
  induction m with
  | nil => rfl
  | cons e rest ih =>
    obtain ⟨k', v⟩ := e
    simp only [UidMap.keys] at ih
    simp only [UidMap.modify]
    split_ifs with h <;> simp [UidMap.keys, ih]

theorem UidMap.modify_insert (k : Nat) (v : α) (f : α → α) (m : UidMap α)
    (h : (UidMap.insert k v m).2 = true) :
    UidMap.modify k f (UidMap.insert k v m).1 = (UidMap.insert k (f v) m).1 := by
  induction m with
  | nil => simp [UidMap.insert, UidMap.modify]
  | cons e rest ih =>
    obtain ⟨k', v'⟩ := e
    simp only [UidMap.insert] at h ⊢
    split_ifs at h ⊢ with h1 h2
    · simp [UidMap.modify]
    · simp [UidMap.modify, h2, ih h]

theorem UidMap.insert_flag_congr (k : Nat) (v w : α) (m : UidMap α) :
    (UidMap.insert k v m).2 = (UidMap.insert k w m).2 := by
  induction m with
  | nil => rfl
  | cons e rest ih =>
    obtain ⟨k', v'⟩ := e
    simp only [UidMap.insert]
    split_ifs <;> first | rfl | exact ih

theorem UidMap.mapVal_insert (h : α → β) (k : Nat) (v : α) (m : UidMap α) :
    UidMap.mapVal h (UidMap.insert k v m).1 = (UidMap.insert k (h v) (UidMap.mapVal h m)).1
    ∧ (UidMap.insert k v m).2 = (UidMap.insert k (h v) (UidMap.mapVal h m)).2 := by
  induction m with
  | nil => simp [UidMap.insert, UidMap.mapVal]
  | cons e rest ih =>
    obtain ⟨k', v'⟩ := e
    simp only [UidMap.mapVal] at ih
    simp only [UidMap.insert, UidMap.mapVal, List.map_cons]
    split_ifs with h1 h2
    · simp
    · simp
    · simp [ih.1, ih.2]

theorem UidMap.mapVal_modify (h : α → β) (k : Nat) (f : α → α) (m : UidMap α)
    (hf : ∀ v, h (f v) = h v) : UidMap.mapVal h (UidMap.modify k f m) = UidMap.mapVal h m := by
  induction m with
  | nil => rfl
  | cons e rest ih =>
    obtain ⟨k', v⟩ := e
    simp only [UidMap.mapVal] at ih
    simp only [UidMap.modify, UidMap.mapVal]
    split_ifs with h1 <;> simp [hf, ih]

theorem UidMap.keys_mapVal (h : α → β) (m : UidMap α) :
    UidMap.keys (UidMap.mapVal h m) = UidMap.keys m := by
  simp [UidMap.keys, UidMap.mapVal, List.map_map, Function.comp_def]

theorem UidMap.find_mapVal (h : α → β) (k : Nat) (m : UidMap α) :
    UidMap.find k (UidMap.mapVal h m) = (UidMap.find k m).map h := by
  induction m with
  | nil => rfl
  | cons e rest ih =>
    obtain ⟨k', v⟩ := e
    simp only [UidMap.mapVal] at ih
    simp only [UidMap.find, UidMap.mapVal, List.map_cons]
    split_ifs with h1 <;> simp [ih]

theorem UidMap.find_modify (k k' : Nat) (f : α → α) (m : UidMap α) :
    UidMap.find k' (UidMap.modify k f m)
      = if k' = k then (UidMap.find k' m).map f else UidMap.find k' m := by
  induction m with
  | nil => simp [UidMap.find, UidMap.modify]
  | cons e rest ih =>
    obtain ⟨k1, v⟩ := e
    simp only [UidMap.modify]
    by_cases h1 : k = k1
    · subst h1
      by_cases h2 : k' = k
      · simp [UidMap.find, h2]
      · simp [UidMap.find, h2]
    · simp only [h1, if_false, UidMap.find]
      by_cases h2 : k' = k1
      · have h3 : ¬ k1 = k := fun h => h1 h.symm
        simp [h2, h3]
      · simp [h2, ih]

theorem UidMap.find_insert (k k' : Nat) (v : α) (m : UidMap α)
    (h : (UidMap.insert k v m).2 = true) :
    UidMap.find k' (UidMap.insert k v m).1 = if k' = k then some v else UidMap.find k' m := by
  induction m with
  | nil => simp [UidMap.insert, UidMap.find]
  | cons e rest ih =>
    obtain ⟨k1, v1⟩ := e
    simp only [UidMap.insert] at h ⊢
    by_cases h1 : k < k1
    · simp only [h1, if_true]
      by_cases h3 : k' = k
      · simp [UidMap.find, h3]
      · simp [UidMap.find, h3]
    · by_cases h2 : k = k1
      · simp [h1, h2] at h
      · simp only [h1, h2, if_false] at h ⊢
        by_cases h4 : k' = k1
        · have h5 : ¬ k' = k := fun h => h2 (h.symm.trans h4)
          have h6 : ¬ k1 = k := fun h => h2 h.symm
          simp [UidMap.find, h4, h6]
        · simp [UidMap.find, h4, ih h]

end UidMapLemmas

/-! ## `RemoveRx` -/

theorem RemoveRx.scan_eq_none_iff (phy : Nat) (m : RxSpectrumModelInfoMap_t) :
    RemoveRx.scan phy m = none ↔ phy ∉ (m.map (fun e => e.2.m_rxPhys)).flatten := by
  induction m with
  | nil => simp [RemoveRx.scan]
  | cons e rest ih =>
    obtain ⟨k, info⟩ := e
    simp only [RemoveRx.scan]
    by_cases h : phy ∈ info.m_rxPhys
    · simp [h]
    · simp only [h, if_false, List.map_cons, List.flatten_cons, List.mem_append, false_or]
      rw [← ih]
      cases RemoveRx.scan phy rest <;> simp

theorem RemoveRx.scan_flatten (phy : Nat) (m m' : RxSpectrumModelInfoMap_t)
    (h : RemoveRx.scan phy m = some m') :
    (m'.map (fun e => e.2.m_rxPhys)).flatten
      = ((m.map (fun e => e.2.m_rxPhys)).flatten).erase phy := by
  induction m generalizing m' with
  | nil => simp [RemoveRx.scan] at h
  | cons e rest ih =>
    obtain ⟨k, info⟩ := e
    simp only [RemoveRx.scan] at h
    by_cases hp : phy ∈ info.m_rxPhys
    · simp only [hp, if_true, Option.some.injEq] at h
      subst h
      simp [List.erase_append_left _ hp]
    · simp only [hp, if_false] at h
      cases hr : RemoveRx.scan phy rest with
      | none => simp [hr] at h
      | some rest' =>
        simp only [hr, Option.some.injEq] at h
        subst h
        simp [List.erase_append_right _ hp, ih rest' hr]

theorem RemoveRx.scan_models (phy : Nat) (m m' : RxSpectrumModelInfoMap_t)
    (h : RemoveRx.scan phy m = some m') :
    UidMap.mapVal RxSpectrumModelInfo.m_rxSpectrumModel m'
      = UidMap.mapVal RxSpectrumModelInfo.m_rxSpectrumModel m := by
  induction m generalizing m' with
  | nil => simp [RemoveRx.scan] at h
  | cons e rest ih =>
    obtain ⟨k, info⟩ := e
    simp only [RemoveRx.scan] at h
    by_cases hp : phy ∈ info.m_rxPhys
    · simp only [hp, if_true, Option.some.injEq] at h
      subst h
      simp [UidMap.mapVal]
    · simp only [hp, if_false] at h
      cases hr : RemoveRx.scan phy rest with
      | none => simp [hr] at h
      | some rest' =>
        simp only [hr, Option.some.injEq] at h
        subst h
        have := ih rest' hr
        simp only [UidMap.mapVal] at this
        simp [UidMap.mapVal, this]

/-- Each bucket after the scan is the bucket before it with `phy` erased, provided no
endpoint is stored twice. -/
theorem RemoveRx.scan_find (phy : Nat) (m m' : RxSpectrumModelInfoMap_t)
    (hn : ((m.map (fun e => e.2.m_rxPhys)).flatten).Nodup)
    (h : RemoveRx.scan phy m = some m') (k : Nat) :
    (UidMap.find k m').map (fun i => i.m_rxPhys)
      = (UidMap.find k m).map (fun i => i.m_rxPhys.erase phy) := by
  induction m generalizing m' with
  | nil => simp [RemoveRx.scan] at h
  | cons e rest ih =>
    obtain ⟨k1, info⟩ := e
    simp only [List.map_cons, List.flatten_cons] at hn
    have hn' := List.nodup_append.1 hn
    simp only [RemoveRx.scan] at h
    by_cases hp : phy ∈ info.m_rxPhys
    · simp only [hp, if_true, Option.some.injEq] at h
      subst h
      by_cases hk : k = k1
      · simp [UidMap.find, hk]
      · simp only [UidMap.find, hk, if_false]
        have hnot : phy ∉ (rest.map (fun e => e.2.m_rxPhys)).flatten :=
          fun hx => hn'.2.2 hp hx
        cases hf : UidMap.find k rest with
        | none => rfl
        | some i =>
          have hmem := UidMap.mem_of_find k i rest hf
          have : phy ∉ i.m_rxPhys := by
            intro hx
            exact hnot (List.mem_flatten.2 ⟨i.m_rxPhys, List.mem_map.2 ⟨(k, i), hmem, rfl⟩, hx⟩)
          simp [List.erase_of_not_mem this]
    · simp only [hp, if_false] at h
      cases hr : RemoveRx.scan phy rest with
      | none => simp [hr] at h
      | some rest' =>
        simp only [hr, Option.some.injEq] at h
        subst h
        by_cases hk : k = k1
        · simp [UidMap.find, hk, List.erase_of_not_mem hp]
        · simp only [UidMap.find, hk, if_false]
          exact ih rest' hn'.2.1 hr

theorem RemoveRx_tx (s : MultiModelSpectrumChannel) (phy : Nat) :
    (RemoveRx s phy).m_txSpectrumModelInfoMap = s.m_txSpectrumModelInfoMap := by
  unfold RemoveRx
  cases RemoveRx.scan phy s.m_rxSpectrumModelInfoMap <;> rfl

theorem RemoveRx_rxModels (s : MultiModelSpectrumChannel) (phy : Nat) :
    rxModels (RemoveRx s phy) = rxModels s := by
  unfold RemoveRx rxModels
  cases h : RemoveRx.scan phy s.m_rxSpectrumModelInfoMap with
  | none => rfl
  | some m' => exact RemoveRx.scan_models phy _ m' h

theorem RemoveRx_allRxPhys (s : MultiModelSpectrumChannel) (phy : Nat) :
    allRxPhys (RemoveRx s phy) = (allRxPhys s).erase phy := by
  unfold RemoveRx
  cases h : RemoveRx.scan phy s.m_rxSpectrumModelInfoMap with
  | none =>
    have := (RemoveRx.scan_eq_none_iff phy _).1 h
    simp only [allRxPhys]
    exact (List.erase_of_not_mem this).symm
  | some m' => exact RemoveRx.scan_flatten phy _ m' h

theorem RemoveRx_of_not_mem (s : MultiModelSpectrumChannel) (phy : Nat)
    (h : phy ∉ allRxPhys s) : RemoveRx s phy = s := by
  unfold RemoveRx
  rw [(RemoveRx.scan_eq_none_iff phy _).2 h]

theorem RemoveRx_numDevices (s : MultiModelSpectrumChannel) (phy : Nat) :
    (RemoveRx s phy).m_numDevices
      = if phy ∈ allRxPhys s then decrement s.m_numDevices else s.m_numDevices := by
  unfold RemoveRx
  cases h : RemoveRx.scan phy s.m_rxSpectrumModelInfoMap with
  | none =>
    have := (RemoveRx.scan_eq_none_iff phy _).1 h
    simp [allRxPhys, this]
  | some m' =>
    have : phy ∈ allRxPhys s := by
      by_contra hc
      rw [(RemoveRx.scan_eq_none_iff phy _).2 hc] at h
      cases h
    simp [this]

theorem keys_eq_of_mapVal_eq {α β : Type} (h : α → β) (m m' : UidMap α)
    (e : UidMap.mapVal h m' = UidMap.mapVal h m) : UidMap.keys m' = UidMap.keys m := by
  rw [← UidMap.keys_mapVal h m', ← UidMap.keys_mapVal h m, e]

theorem rxKey_iff_rxModels (m : RxSpectrumModelInfoMap_t) :
    (∀ e ∈ m, e.2.m_rxSpectrumModel.uid = e.1)
      ↔ ∀ r ∈ UidMap.mapVal RxSpectrumModelInfo.m_rxSpectrumModel m, r.2.uid = r.1 := by
  constructor
  · intro h r hr
    obtain ⟨e, he, rfl⟩ := List.mem_map.1 hr
    exact h e he
  · intro h e he
    exact h (e.1, e.2.m_rxSpectrumModel) (List.mem_map.2 ⟨e, he, rfl⟩)

theorem RemoveRx_invariant (isOrthogonal : SpectrumModel → SpectrumModel → Bool)
    (s : MultiModelSpectrumChannel) (phy : Nat) (h : Invariant isOrthogonal s) :
    Invariant isOrthogonal (RemoveRx s phy) := by
  have hm := RemoveRx_rxModels s phy
  have hk : UidMap.keys (RemoveRx s phy).m_rxSpectrumModelInfoMap
      = UidMap.keys s.m_rxSpectrumModelInfoMap := keys_eq_of_mapVal_eq _ _ _ hm
  refine ⟨?_, ?_, ?_, ?_, ?_, ?_, ?_⟩
  · rw [hk]; exact h.rxSorted
  · rw [RemoveRx_tx]; exact h.txSorted
  · rw [rxKey_iff_rxModels]
    have := (rxKey_iff_rxModels _).1 h.rxKey
    unfold rxModels at hm
    rw [hm]; exact this
  · rw [RemoveRx_tx]; exact h.txKey
  · rw [RemoveRx_numDevices, RemoveRx_allRxPhys]
    by_cases hp : phy ∈ allRxPhys s
    · have hl : 0 < (allRxPhys s).length := List.length_pos_of_mem hp
      simp only [hp, if_true, List.length_erase_of_mem hp, decrement, h.count]
      have : (allRxPhys s).length ≠ 0 := by omega
      simp [this]
    · simp [hp, List.erase_of_not_mem hp, h.count]
  · rw [RemoveRx_allRxPhys]; exact h.nodup.erase phy
  · rw [RemoveRx_tx, hm]; exact h.convs

/-! ## `AddRx` -/

/-- Without a clash of converter keys the loop of `AddRx` updates every entry and does
not abort. -/
theorem AddRx_createConverters_eq (isOrthogonal : SpectrumModel → SpectrumModel → Bool)
    (r : SpectrumModel) (tx : TxSpectrumModelInfoMap_t)
    (h : ∀ e ∈ tx, r.uid ∉ UidMap.keys e.2.m_spectrumConverterMap) :
    AddRx.createConverters isOrthogonal r tx
      = (UidMap.mapVal (addConverter isOrthogonal r) tx, none) := by
  induction tx with
  | nil => rfl
  | cons e rest ih =>
    obtain ⟨k, info⟩ := e
    have ih' := ih (fun e he => h e (List.mem_cons_of_mem _ he))
    have hflag := UidMap.insert_flag r.uid (SpectrumConverter.mk info.m_txSpectrumModel r)
      info.m_spectrumConverterMap (h (k, info) (List.mem_cons_self _ _))
    simp only [AddRx.createConverters, UidMap.mapVal, List.map_cons]
    simp only [UidMap.mapVal] at ih'
    by_cases hc : r.uid ≠ info.m_txSpectrumModel.uid
        ∧ isOrthogonal info.m_txSpectrumModel r = false
    · have ha : addConverter isOrthogonal r info = { info with m_spectrumConverterMap :=
          (UidMap.insert r.uid (SpectrumConverter.mk info.m_txSpectrumModel r)
            info.m_spectrumConverterMap).1 } := by
        simp only [addConverter, if_pos hc]
      rw [if_pos hc, ha, ih']
      generalize UidMap.insert r.uid (SpectrumConverter.mk info.m_txSpectrumModel r)
        info.m_spectrumConverterMap = ins at hflag
      obtain ⟨convs, flag⟩ := ins
      simp only at hflag
      subst hflag
      rfl
    · have ha : addConverter isOrthogonal r info = info := by
        simp only [addConverter, if_neg hc]
      rw [if_neg hc, ha, ih']

theorem flatten_insert_empty (k : Nat) (r : SpectrumModel) (m : RxSpectrumModelInfoMap_t) :
    ((UidMap.insert k (RxSpectrumModelInfo.mk r []) m).1.map (fun e => e.2.m_rxPhys)).flatten
      = (m.map (fun e => e.2.m_rxPhys)).flatten := by
  induction m with
  | nil => simp [UidMap.insert]
  | cons e rest ih =>
    obtain ⟨k', v⟩ := e
    simp only [UidMap.insert]
    split_ifs with h1 h2
    · simp
    · simp
    · simp [ih]

theorem flatten_modify_append (k phy : Nat) (m : RxSpectrumModelInfoMap_t)
    (h : k ∈ UidMap.keys m) :
    (((UidMap.modify k (fun info => { info with m_rxPhys := info.m_rxPhys ++ [phy] }) m).map
        (fun e => e.2.m_rxPhys)).flatten).Perm
      (phy :: (m.map (fun e => e.2.m_rxPhys)).flatten) := by
  induction m with
  | nil => simp [UidMap.keys] at h
  | cons e rest ih =>
    obtain ⟨k', v⟩ := e
    simp only [UidMap.modify]
    by_cases hk : k = k'
    · simp only [hk, if_true, List.map_cons, List.flatten_cons, List.append_assoc,
        List.singleton_append]
      exact List.perm_middle
    · simp only [hk, if_false, List.map_cons, List.flatten_cons]
      have hmem : k ∈ UidMap.keys rest := by
        simp only [UidMap.keys, List.map_cons, List.mem_cons] at h
        rcases h with h | h
        · exact absurd h hk
        · exact h
      exact ((ih hmem).append_left v.m_rxPhys).trans List.perm_middle

theorem UidMap.mem_keys_insert {α : Type} (k : Nat) (v : α) (m : UidMap α) :
    k ∈ UidMap.keys (UidMap.insert k v m).1 := by
  induction m with
  | nil => simp [UidMap.insert, UidMap.keys]
  | cons e rest ih =>
    obtain ⟨k', v'⟩ := e
    simp only [UidMap.insert]
    simp only [UidMap.keys] at ih
    split_ifs with h1 h2
    · simp [UidMap.keys]
    · simp [UidMap.keys, h2]
    · simp [UidMap.keys, ih]

theorem mem_keys_of_mem_rxModels (s : MultiModelSpectrumChannel) (k : Nat) (r : SpectrumModel)
    (h : (k, r) ∈ rxModels s) : k ∈ UidMap.keys s.m_rxSpectrumModelInfoMap := by
  rw [← UidMap.keys_mapVal RxSpectrumModelInfo.m_rxSpectrumModel]
  exact List.mem_map.2 ⟨(k, r), h, rfl⟩

theorem Invariant.not_mem_conv_keys {isOrthogonal : SpectrumModel → SpectrumModel → Bool}
    {s : MultiModelSpectrumChannel} (h : Invariant isOrthogonal s) (k : Nat)
    (hk : k ∉ UidMap.keys s.m_rxSpectrumModelInfoMap) :
    ∀ e ∈ s.m_txSpectrumModelInfoMap, k ∉ UidMap.keys e.2.m_spectrumConverterMap := by
  intro e he hmem
  obtain ⟨c, hc, rfl⟩ := List.mem_map.1 hmem
  obtain ⟨_, r, hr, _⟩ := h.convs e he c hc
  exact hk (mem_keys_of_mem_rxModels s _ r hr)

/-- The state left by `AddRx` in closed form, for a state that satisfies the invariant. -/
theorem AddRx_eq (isOrthogonal : SpectrumModel → SpectrumModel → Bool)
    (s : MultiModelSpectrumChannel) (phy : SpectrumPhy) (r : SpectrumModel)
    (hr : phy.rxSpectrumModel = some r) (h : Invariant isOrthogonal s) :
    AddRx isOrthogonal s phy =
      ({ m_numDevices := (RemoveRx s phy.ptr).m_numDevices + 1,
         m_txSpectrumModelInfoMap :=
           if r.uid ∈ UidMap.keys s.m_rxSpectrumModelInfoMap then s.m_txSpectrumModelInfoMap
           else UidMap.mapVal (addConverter isOrthogonal r) s.m_txSpectrumModelInfoMap,
         m_rxSpectrumModelInfoMap :=
           UidMap.modify r.uid (fun info => { info with m_rxPhys := info.m_rxPhys ++ [phy.ptr] })
             (UidMap.insert r.uid (RxSpectrumModelInfo.mk r [])
               (RemoveRx s phy.ptr).m_rxSpectrumModelInfoMap).1 }, none) := by
  have h1 := RemoveRx_invariant isOrthogonal s phy.ptr h
  have hk : UidMap.keys (RemoveRx s phy.ptr).m_rxSpectrumModelInfoMap
      = UidMap.keys s.m_rxSpectrumModelInfoMap :=
    keys_eq_of_mapVal_eq _ _ _ (RemoveRx_rxModels s phy.ptr)
  simp only [AddRx, hr, RemoveRx_tx]
  by_cases hmem : r.uid ∈ UidMap.keys s.m_rxSpectrumModelInfoMap
  · have hflag := UidMap.insert_flag_of_mem r.uid (RxSpectrumModelInfo.mk r [])
      (RemoveRx s phy.ptr).m_rxSpectrumModelInfoMap h1.rxSorted (hk ▸ hmem)
    simp [hflag, hmem]
  · have hflag := UidMap.insert_flag r.uid (RxSpectrumModelInfo.mk r [])
      (RemoveRx s phy.ptr).m_rxSpectrumModelInfoMap (hk ▸ hmem)
    have hc := AddRx_createConverters_eq isOrthogonal r s.m_txSpectrumModelInfoMap
      (h.not_mem_conv_keys r.uid hmem)
    simp [hflag, hmem, hc]

theorem AddRx_rxModels (isOrthogonal : SpectrumModel → SpectrumModel → Bool)
    (s : MultiModelSpectrumChannel) (phy : SpectrumPhy) (r : SpectrumModel)
    (hr : phy.rxSpectrumModel = some r) (h : Invariant isOrthogonal s) :
    rxModels (AddRx isOrthogonal s phy).1 = (UidMap.insert r.uid r (rxModels s)).1 := by
  rw [AddRx_eq isOrthogonal s phy r hr h]
  simp only [rxModels]
  rw [UidMap.mapVal_modify RxSpectrumModelInfo.m_rxSpectrumModel r.uid
    (fun info => { info with m_rxPhys := info.m_rxPhys ++ [phy.ptr] }) _ (fun _ => rfl),
    (UidMap.mapVal_insert _ _ _ _).1]
  have := RemoveRx_rxModels s phy.ptr
  simp only [rxModels] at this
  rw [this]

theorem AddRx_allRxPhys_perm (isOrthogonal : SpectrumModel → SpectrumModel → Bool)
    (s : MultiModelSpectrumChannel) (phy : SpectrumPhy) (r : SpectrumModel)
    (hr : phy.rxSpectrumModel = some r) (h : Invariant isOrthogonal s) :
    (allRxPhys (AddRx isOrthogonal s phy).1).Perm (phy.ptr :: (allRxPhys s).erase phy.ptr) := by
  rw [AddRx_eq isOrthogonal s phy r hr h, ← RemoveRx_allRxPhys]
  simp only [allRxPhys]
  have := flatten_modify_append r.uid phy.ptr
    (UidMap.insert r.uid (RxSpectrumModelInfo.mk r [])
      (RemoveRx s phy.ptr).m_rxSpectrumModelInfoMap).1 (UidMap.mem_keys_insert _ _ _)
  rw [flatten_insert_empty] at this
  exact this

theorem AddRx_tx_mem (isOrthogonal : SpectrumModel → SpectrumModel → Bool)
    (s : MultiModelSpectrumChannel) (phy : SpectrumPhy) (r : SpectrumModel)
    (hr : phy.rxSpectrumModel = some r) (h : Invariant isOrthogonal s)
    (e : Nat × TxSpectrumModelInfo) (he : e ∈ (AddRx isOrthogonal s phy).1.m_txSpectrumModelInfoMap) :
    ∃ e0 ∈ s.m_txSpectrumModelInfoMap, e.1 = e0.1
      ∧ e.2.m_txSpectrumModel = e0.2.m_txSpectrumModel
      ∧ ∀ c ∈ e.2.m_spectrumConverterMap, c ∈ e0.2.m_spectrumConverterMap
          ∨ (r.uid ∉ UidMap.keys s.m_rxSpectrumModelInfoMap
              ∧ r.uid ≠ e0.2.m_txSpectrumModel.uid
              ∧ isOrthogonal e0.2.m_txSpectrumModel r = false
              ∧ c = (r.uid, SpectrumConverter.mk e0.2.m_txSpectrumModel r)) := by
  rw [AddRx_eq isOrthogonal s phy r hr h] at he
  simp only at he
  by_cases hmem : r.uid ∈ UidMap.keys s.m_rxSpectrumModelInfoMap
  · rw [if_pos hmem] at he
    exact ⟨e, he, rfl, rfl, fun c hc => Or.inl hc⟩
  · rw [if_neg hmem] at he
    obtain ⟨e0, he0, rfl⟩ := List.mem_map.1 he
    refine ⟨e0, he0, rfl, ?_, ?_⟩
    · simp only [addConverter]; split_ifs <;> rfl
    · intro c hc
      simp only [addConverter] at hc
      split_ifs at hc with hcond
      · simp only at hc
        rcases (UidMap.mem_insert _ _ _ c).1 hc with h1 | ⟨_, h1⟩
        · exact Or.inl h1
        · exact Or.inr ⟨hmem, hcond.1, hcond.2, h1⟩
      · exact Or.inl hc

theorem AddRx_invariant (isOrthogonal : SpectrumModel → SpectrumModel → Bool)
    (s : MultiModelSpectrumChannel) (phy : SpectrumPhy) (r : SpectrumModel)
    (hr : phy.rxSpectrumModel = some r) (h : Invariant isOrthogonal s) :
    Invariant isOrthogonal (AddRx isOrthogonal s phy).1 := by
  have h1 := RemoveRx_invariant isOrthogonal s phy.ptr h
  have hperm := AddRx_allRxPhys_perm isOrthogonal s phy r hr h
  have hmodels := AddRx_rxModels isOrthogonal s phy r hr h
  have hmemModels : ∀ x, x ∈ rxModels s → x ∈ rxModels (AddRx isOrthogonal s phy).1 := by
    intro x hx
    rw [hmodels]
    exact (UidMap.mem_insert _ _ _ x).2 (Or.inl hx)
  refine ⟨?_, ?_, ?_, ?_, ?_, ?_, ?_⟩
  · rw [AddRx_eq isOrthogonal s phy r hr h]
    simp only [UidMap.keys_modify]
    exact UidMap.keys_insert_sorted _ _ _ h1.rxSorted
  · rw [AddRx_eq isOrthogonal s phy r hr h]
    simp only
    split_ifs
    · exact h.txSorted
    · rw [UidMap.keys_mapVal]; exact h.txSorted
  · rw [rxKey_iff_rxModels]
    intro x hx
    have hx' : x ∈ rxModels (AddRx isOrthogonal s phy).1 := hx
    rw [hmodels] at hx'
    rcases (UidMap.mem_insert _ _ _ x).1 hx' with h2 | ⟨_, h2⟩
    · exact (rxKey_iff_rxModels _).1 h.rxKey x h2
    · rw [h2]
  · intro e he
    obtain ⟨e0, he0, hk, hm, _⟩ := AddRx_tx_mem isOrthogonal s phy r hr h e he
    rw [hk, hm]
    exact h.txKey e0 he0
  · rw [hperm.length_eq]
    rw [AddRx_eq isOrthogonal s phy r hr h]
    simp only [List.length_cons]
    rw [h1.count, RemoveRx_allRxPhys]
  · rw [hperm.nodup_iff]
    exact List.nodup_cons.2 ⟨fun hx => (List.Nodup.mem_erase_iff h.nodup).1 hx |>.1 rfl,
      h.nodup.erase _⟩
  · intro e he c hc
    obtain ⟨e0, he0, hk, hm, hcs⟩ := AddRx_tx_mem isOrthogonal s phy r hr h e he
    rcases hcs c hc with hold | ⟨hnew, hne, horth, hceq⟩
    · obtain ⟨hne, r0, hr0, horth, hceq⟩ := h.convs e0 he0 c hold
      exact ⟨hk ▸ hne, r0, hmemModels _ hr0, hm ▸ horth, hm ▸ hceq⟩
    · refine ⟨?_, r, ?_, hm ▸ horth, ?_⟩
      · rw [hceq, hk, ← h.txKey e0 he0]; exact hne
      · rw [hmodels, hceq]
        refine (UidMap.mem_insert _ _ _ _).2 (Or.inr ⟨?_, rfl⟩)
        apply UidMap.insert_flag
        rw [show UidMap.keys (rxModels s) = UidMap.keys s.m_rxSpectrumModelInfoMap from
          UidMap.keys_mapVal _ _]
        exact hnew
      · rw [hceq, hm]

theorem AddRx_ok (isOrthogonal : SpectrumModel → SpectrumModel → Bool)
    (s : MultiModelSpectrumChannel) (phy : SpectrumPhy) (r : SpectrumModel)
    (hr : phy.rxSpectrumModel = some r) (h : Invariant isOrthogonal s) :
    (AddRx isOrthogonal s phy).2 = none := by
  rw [AddRx_eq isOrthogonal s phy r hr h]

/-! ## `FindAndEventuallyAddTxSpectrumModel`, `StartRx` and the reachable states -/

theorem UidMap.insert_append {α : Type} (k : Nat) (v : α) (m : UidMap α)
    (h : ∀ c ∈ m, c.1 < k) : UidMap.insert k v m = (m ++ [(k, v)], true) := by
  induction m with
  | nil => rfl
  | cons e rest ih =>
    obtain ⟨k', v'⟩ := e
    have h1 : k' < k := h (k', v') (List.mem_cons_self _ _)
    have h2 : ¬ k < k' := by omega
    have h3 : ¬ k = k' := by omega
    simp only [UidMap.insert, h2, h3, if_false]
    rw [ih (fun c hc => h c (List.mem_cons_of_mem _ hc))]
    rfl

theorem FindAndEventuallyAddTxSpectrumModel_createConverters_eq
    (isOrthogonal : SpectrumModel → SpectrumModel → Bool) (t : SpectrumModel)
    (rx : RxSpectrumModelInfoMap_t) (acc : SpectrumConverterMap_t)
    (hs : (UidMap.keys rx).Pairwise (· < ·))
    (hk : ∀ e ∈ rx, e.2.m_rxSpectrumModel.uid = e.1)
    (hacc : ∀ c ∈ acc, ∀ e ∈ rx, c.1 < e.1) :
    FindAndEventuallyAddTxSpectrumModel.createConverters isOrthogonal t rx acc
      = (acc ++ convertersFor isOrthogonal t
          (UidMap.mapVal RxSpectrumModelInfo.m_rxSpectrumModel rx), none) := by
  induction rx generalizing acc with
  | nil => simp [FindAndEventuallyAddTxSpectrumModel.createConverters, convertersFor,
      UidMap.mapVal]
  | cons e rest ih =>
    obtain ⟨k, info⟩ := e
    simp only [UidMap.keys, List.map_cons, List.pairwise_cons] at hs
    have hkey : info.m_rxSpectrumModel.uid = k := hk (k, info) (List.mem_cons_self _ _)
    have hk' : ∀ e ∈ rest, e.2.m_rxSpectrumModel.uid = e.1 :=
      fun e he => hk e (List.mem_cons_of_mem _ he)
    simp only [FindAndEventuallyAddTxSpectrumModel.createConverters, convertersFor,
      UidMap.mapVal, List.map_cons, List.filterMap_cons, converterFor]
    by_cases hc : info.m_rxSpectrumModel.uid ≠ t.uid
        ∧ isOrthogonal t info.m_rxSpectrumModel = false
    · rw [if_pos hc, if_pos hc]
      have hins := UidMap.insert_append info.m_rxSpectrumModel.uid
        (SpectrumConverter.mk t info.m_rxSpectrumModel) acc
        (fun c hc => hkey ▸ hacc c hc (k, info) (List.mem_cons_self _ _))
      rw [hins]
      simp only
      rw [ih _ hs.2 hk']
      · simp [convertersFor, UidMap.mapVal]
      · intro c hc e he
        rcases List.mem_append.1 hc with h1 | h1
        · exact hacc c h1 e (List.mem_cons_of_mem _ he)
        · simp only [List.mem_singleton] at h1
          rw [h1, hkey]
          exact hs.1 e.1 (List.mem_map.2 ⟨e, he, rfl⟩)
    · rw [if_neg hc, if_neg hc]
      rw [ih _ hs.2 hk' (fun c hc e he => hacc c hc e (List.mem_cons_of_mem _ he))]
      simp [convertersFor, UidMap.mapVal]

/-- The result of `FindAndEventuallyAddTxSpectrumModel` in closed form when the model is
not yet registered, for a state that satisfies the invariant. -/
theorem FindAndEventuallyAddTxSpectrumModel_eq_of_none
    (isOrthogonal : SpectrumModel → SpectrumModel → Bool)
    (s : MultiModelSpectrumChannel) (t : SpectrumModel) (h : Invariant isOrthogonal s)
    (hf : UidMap.find t.uid s.m_txSpectrumModelInfoMap = none) :
    FindAndEventuallyAddTxSpectrumModel isOrthogonal s t =
      ({ s with m_txSpectrumModelInfoMap :=
          (UidMap.insert t.uid
            (TxSpectrumModelInfo.mk t (convertersFor isOrthogonal t (rxModels s)))
            s.m_txSpectrumModelInfoMap).1 },
        .ok (t.uid, TxSpectrumModelInfo.mk t (convertersFor isOrthogonal t (rxModels s)))) := by
  have hflag := UidMap.insert_flag t.uid (TxSpectrumModelInfo.mk t [])
    s.m_txSpectrumModelInfoMap ((UidMap.find_eq_none_iff _ _).1 hf)
  have hc := FindAndEventuallyAddTxSpectrumModel_createConverters_eq isOrthogonal t
    s.m_rxSpectrumModelInfoMap [] h.rxSorted h.rxKey (fun c hc => by simp at hc)
  simp only [FindAndEventuallyAddTxSpectrumModel, hf, hflag, if_true, hc, List.nil_append]
  rw [UidMap.modify_insert _ _ _ _ hflag]
  rfl

theorem FindAndEventuallyAddTxSpectrumModel_eq_of_some
    (isOrthogonal : SpectrumModel → SpectrumModel → Bool)
    (s : MultiModelSpectrumChannel) (t : SpectrumModel) (info : TxSpectrumModelInfo)
    (hf : UidMap.find t.uid s.m_txSpectrumModelInfoMap = some info) :
    FindAndEventuallyAddTxSpectrumModel isOrthogonal s t = (s, .ok (t.uid, info)) := by
  simp only [FindAndEventuallyAddTxSpectrumModel, hf]

theorem FindAndEventuallyAddTxSpectrumModel_ok
    (isOrthogonal : SpectrumModel → SpectrumModel → Bool)
    (s : MultiModelSpectrumChannel) (t : SpectrumModel) (h : Invariant isOrthogonal s) :
    ∃ entry, (FindAndEventuallyAddTxSpectrumModel isOrthogonal s t).2 = .ok entry := by
  cases hf : UidMap.find t.uid s.m_txSpectrumModelInfoMap with
  | none =>
    rw [FindAndEventuallyAddTxSpectrumModel_eq_of_none isOrthogonal s t h hf]
    exact ⟨_, rfl⟩
  | some info =>
    rw [FindAndEventuallyAddTxSpectrumModel_eq_of_some isOrthogonal s t info hf]
    exact ⟨_, rfl⟩

theorem mem_convertersFor (isOrthogonal : SpectrumModel → SpectrumModel → Bool)
    (t : SpectrumModel) (m : UidMap SpectrumModel) (c : Nat × SpectrumConverter)
    (hc : c ∈ convertersFor isOrthogonal t m) :
    ∃ x ∈ m, x.2.uid ≠ t.uid ∧ isOrthogonal t x.2 = false
      ∧ c = (x.2.uid, SpectrumConverter.mk t x.2) := by
  simp only [convertersFor, List.mem_filterMap] at hc
  obtain ⟨x, hx, hcx⟩ := hc
  simp only [converterFor] at hcx
  split_ifs at hcx with hcond
  exact ⟨x, hx, hcond.1, hcond.2, (Option.some.inj hcx).symm⟩

theorem FindAndEventuallyAddTxSpectrumModel_invariant
    (isOrthogonal : SpectrumModel → SpectrumModel → Bool)
    (s : MultiModelSpectrumChannel) (t : SpectrumModel) (h : Invariant isOrthogonal s) :
    Invariant isOrthogonal (FindAndEventuallyAddTxSpectrumModel isOrthogonal s t).1 := by
  cases hf : UidMap.find t.uid s.m_txSpectrumModelInfoMap with
  | some info =>
    rw [FindAndEventuallyAddTxSpectrumModel_eq_of_some isOrthogonal s t info hf]
    exact h
  | none =>
    rw [FindAndEventuallyAddTxSpectrumModel_eq_of_none isOrthogonal s t h hf]
    refine ⟨h.rxSorted, ?_, h.rxKey, ?_, h.count, h.nodup, ?_⟩
    · exact UidMap.keys_insert_sorted _ _ _ h.txSorted
    · intro e he
      rcases (UidMap.mem_insert _ _ _ e).1 he with h1 | ⟨_, h1⟩
      · exact h.txKey e h1
      · rw [h1]
    · intro e he c hc
      rcases (UidMap.mem_insert _ _ _ e).1 he with h1 | ⟨_, h1⟩
      · exact h.convs e h1 c hc
      · subst h1
        obtain ⟨x, hx, hne, horth, hceq⟩ := mem_convertersFor isOrthogonal t _ c hc
        have hxk : x.2.uid = x.1 := (rxKey_iff_rxModels _).1 h.rxKey x hx
        subst hceq
        refine ⟨hne, x.2, ?_, horth, rfl⟩
        show (x.2.uid, x.2) ∈ rxModels s
        rw [hxk]
        exact hx

theorem StartRx_state (isOrthogonal : SpectrumModel → SpectrumModel → Bool)
    (convert : SpectrumConverter → SpectrumValue → SpectrumValue) (base : SpectrumChannel)
    (s : MultiModelSpectrumChannel) (params : SpectrumSignalParameters) (receiver : SpectrumPhy) :
    (StartRx isOrthogonal convert base s params receiver).1 = s
      ∨ ∃ psd, params.psd = some psd ∧ (StartRx isOrthogonal convert base s params receiver).1
          = (FindAndEventuallyAddTxSpectrumModel isOrthogonal s psd.spectrumModel).1 := by
  unfold StartRx
  cases hp : params.psd with
  | none => exact Or.inl rfl
  | some psd =>
    cases hr : receiver.rxSpectrumModel with
    | none => exact Or.inl rfl
    | some r =>
      right
      refine ⟨psd, rfl, ?_⟩
      simp only
      generalize FindAndEventuallyAddTxSpectrumModel isOrthogonal s psd.spectrumModel = res
      obtain ⟨s1, res2⟩ := res
      cases res2 with
      | error e => rfl
      | ok entry =>
        obtain ⟨k, txInfo⟩ := entry
        simp only
        split_ifs
        · rfl
        · cases UidMap.find r.uid txInfo.m_spectrumConverterMap <;> rfl

theorem StartRx_invariant (isOrthogonal : SpectrumModel → SpectrumModel → Bool)
    (convert : SpectrumConverter → SpectrumValue → SpectrumValue) (base : SpectrumChannel)
    (s : MultiModelSpectrumChannel) (params : SpectrumSignalParameters) (receiver : SpectrumPhy)
    (h : Invariant isOrthogonal s) :
    Invariant isOrthogonal (StartRx isOrthogonal convert base s params receiver).1 := by
  rcases StartRx_state isOrthogonal convert base s params receiver with h1 | ⟨psd, _, h1⟩
  · rw [h1]; exact h
  · rw [h1]; exact FindAndEventuallyAddTxSpectrumModel_invariant isOrthogonal s _ h

theorem Invariant.new (isOrthogonal : SpectrumModel → SpectrumModel → Bool) :
    Invariant isOrthogonal MultiModelSpectrumChannel.new := by
  refine ⟨?_, ?_, ?_, ?_, ?_, ?_, ?_⟩ <;>
    simp [MultiModelSpectrumChannel.new, UidMap.keys, allRxPhys]

theorem AddRx_fatal_of_none (isOrthogonal : SpectrumModel → SpectrumModel → Bool)
    (s : MultiModelSpectrumChannel) (phy : SpectrumPhy) (hr : phy.rxSpectrumModel = none) :
    AddRx isOrthogonal s phy = (s, some Fatal.rxSpectrumModelNotSet) := by
  simp only [AddRx, hr]

/-- Every reachable state satisfies the representation invariant. -/
theorem Reachable.invariant {isOrthogonal : SpectrumModel → SpectrumModel → Bool}
    {s : MultiModelSpectrumChannel} (h : Reachable isOrthogonal s) : Invariant isOrthogonal s := by
  induction h with
  | new => exact Invariant.new isOrthogonal
  | @addRx s phy _ hok ih =>
    cases hr : phy.rxSpectrumModel with
    | none =>
      rw [AddRx_fatal_of_none isOrthogonal s phy hr] at hok
      cases hok
    | some r => exact AddRx_invariant isOrthogonal s phy r hr ih
  | removeRx phy _ ih => exact RemoveRx_invariant isOrthogonal _ phy ih
  | findTx t entry _ _ ih => exact FindAndEventuallyAddTxSpectrumModel_invariant isOrthogonal _ t ih
  | startRx convert base params receiver d _ _ ih =>
    exact StartRx_invariant isOrthogonal convert base _ params receiver ih

/-! ## The scenario, and the device count (C1) -/

theorem exampleChannel_eq : exampleChannel =
    { m_numDevices := 2,
      m_txSpectrumModelInfoMap :=
        [(2, { m_txSpectrumModel := ⟨2⟩,
               m_spectrumConverterMap := [(1, ⟨⟨2⟩, ⟨1⟩⟩), (3, ⟨⟨2⟩, ⟨3⟩⟩)] })],
      m_rxSpectrumModelInfoMap :=
        [(1, { m_rxSpectrumModel := ⟨1⟩, m_rxPhys := [11] }),
         (3, { m_rxSpectrumModel := ⟨3⟩, m_rxPhys := [] }),
         (20, { m_rxSpectrumModel := ⟨20⟩, m_rxPhys := [10] })] } := by
  decide

theorem exampleChannel_reachable : Reachable exampleIsOrthogonal exampleChannel :=
  Reachable.addRx _
    (Reachable.addRx _
      (Reachable.findTx _ (2, TxSpectrumModelInfo.mk ⟨2⟩ [(3, ⟨⟨2⟩, ⟨3⟩⟩)])
        (Reachable.addRx _ Reachable.new (by decide)) rfl)
      (by decide))
    (by decide)

/-- C1. Device count invariant: in every state reachable from a freshly constructed
channel, `GetNDevices ()` equals the sum of the lengths of the `m_rxPhys` lists over all
Receive-Model entries, and equals the number of distinct registered endpoints. -/
theorem device_count_invariant (isOrthogonal : SpectrumModel → SpectrumModel → Bool)
    (s : MultiModelSpectrumChannel) (h : Reachable isOrthogonal s) :
    GetNDevices s = (s.m_rxSpectrumModelInfoMap.map (fun e => e.2.m_rxPhys.length)).sum
      ∧ GetNDevices s = (allRxPhys s).toFinset.card := by
  have hinv := h.invariant
  constructor
  · rw [GetNDevices, hinv.count, allRxPhys, List.length_flatten, List.map_map]
    rfl
  · rw [GetNDevices, hinv.count, List.toFinset_card_of_nodup hinv.nodup]

theorem device_count_invariant_witness :
    Reachable exampleIsOrthogonal exampleChannel
      ∧ GetNDevices exampleChannel
          = (exampleChannel.m_rxSpectrumModelInfoMap.map (fun e => e.2.m_rxPhys.length)).sum
      ∧ GetNDevices exampleChannel = (allRxPhys exampleChannel).toFinset.card :=
  ⟨exampleChannel_reachable,
    device_count_invariant exampleIsOrthogonal exampleChannel exampleChannel_reachable⟩

/-! ## Bindings and converter keys (C2, C3) -/

theorem bucket_sublist (m : RxSpectrumModelInfoMap_t) (k : Nat) (info : RxSpectrumModelInfo)
    (h : UidMap.find k m = some info) :
    info.m_rxPhys.Sublist ((m.map (fun e => e.2.m_rxPhys)).flatten) := by
  induction m with
  | nil => simp [UidMap.find] at h
  | cons e rest ih =>
    obtain ⟨k', v⟩ := e
    simp only [List.map_cons, List.flatten_cons]
    by_cases hk : k = k'
    · simp only [UidMap.find, hk, if_true, Option.some.injEq] at h
      subst h
      exact List.sublist_append_left _ _
    · simp only [UidMap.find, hk, if_false] at h
      exact (ih h).trans (List.sublist_append_right _ _)

theorem bucket_key_unique (m : RxSpectrumModelInfoMap_t)
    (hn : ((m.map (fun e => e.2.m_rxPhys)).flatten).Nodup) (phy k1 k2 : Nat)
    (i1 i2 : RxSpectrumModelInfo) (h1 : UidMap.find k1 m = some i1)
    (h2 : UidMap.find k2 m = some i2) (hp1 : phy ∈ i1.m_rxPhys) (hp2 : phy ∈ i2.m_rxPhys) :
    k1 = k2 := by
  induction m with
  | nil => simp [UidMap.find] at h1
  | cons e rest ih =>
    obtain ⟨k', v⟩ := e
    simp only [List.map_cons, List.flatten_cons] at hn
    have hn' := List.nodup_append.1 hn
    by_cases hk1 : k1 = k' <;> by_cases hk2 : k2 = k'
    · rw [hk1, hk2]
    · simp only [UidMap.find, hk1, if_true, Option.some.injEq] at h1
      simp only [UidMap.find, hk2, if_false] at h2
      subst h1
      exact absurd ((bucket_sublist rest k2 i2 h2).subset hp2) (fun hx => hn'.2.2 hp1 hx)
    · simp only [UidMap.find, hk2, if_true, Option.some.injEq] at h2
      simp only [UidMap.find, hk1, if_false] at h1
      subst h2
      exact absurd ((bucket_sublist rest k1 i1 h1).subset hp1) (fun hx => hn'.2.2 hp2 hx)
    · simp only [UidMap.find, hk1, if_false] at h1
      simp only [UidMap.find, hk2, if_false] at h2
      exact ih hn'.2.1 h1 h2

theorem bucket_eq_of_find (s : MultiModelSpectrumChannel) (k : Nat) (info : RxSpectrumModelInfo)
    (h : UidMap.find k s.m_rxSpectrumModelInfoMap = some info) : bucket s k = info.m_rxPhys := by
  simp only [bucket, h]

theorem mem_bucket (s : MultiModelSpectrumChannel) (k phy : Nat) (h : phy ∈ bucket s k) :
    ∃ info, UidMap.find k s.m_rxSpectrumModelInfoMap = some info ∧ phy ∈ info.m_rxPhys := by
  unfold bucket at h
  cases hf : UidMap.find k s.m_rxSpectrumModelInfoMap with
  | none => simp [hf] at h
  | some info => exact ⟨info, rfl, by simpa [hf] using h⟩

theorem bucket_sublist_allRxPhys (s : MultiModelSpectrumChannel) (k : Nat) :
    (bucket s k).Sublist (allRxPhys s) := by
  unfold bucket
  cases hf : UidMap.find k s.m_rxSpectrumModelInfoMap with
  | none => exact List.nil_sublist _
  | some info => exact bucket_sublist _ k info hf

/-- C2. At-most-one binding: in every state reachable from a freshly constructed channel
(the calls of `AddRx` may come with any current receive model of the endpoint), every
endpoint occurs at most once in the concatenation of all `m_rxPhys` lists: the buckets
that hold it have the same key, and it occurs at most once inside a bucket. -/
theorem at_most_one_binding (isOrthogonal : SpectrumModel → SpectrumModel → Bool)
    (s : MultiModelSpectrumChannel) (h : Reachable isOrthogonal s) (phy : Nat) :
    (allRxPhys s).count phy ≤ 1
      ∧ (∀ k1 k2, phy ∈ bucket s k1 → phy ∈ bucket s k2 → k1 = k2)
      ∧ ∀ k, (bucket s k).count phy ≤ 1 := by
  have hinv := h.invariant
  refine ⟨List.nodup_iff_count_le_one.1 hinv.nodup phy, ?_, ?_⟩
  · intro k1 k2 h1 h2
    obtain ⟨i1, hf1, hp1⟩ := mem_bucket s k1 phy h1
    obtain ⟨i2, hf2, hp2⟩ := mem_bucket s k2 phy h2
    exact bucket_key_unique _ hinv.nodup phy k1 k2 i1 i2 hf1 hf2 hp1 hp2
  · intro k
    exact List.nodup_iff_count_le_one.1 (hinv.nodup.sublist (bucket_sublist_allRxPhys s k)) phy

theorem at_most_one_binding_witness :
    Reachable exampleIsOrthogonal exampleChannel
      ∧ (allRxPhys exampleChannel).count 10 ≤ 1
      ∧ (∀ k1 k2, 10 ∈ bucket exampleChannel k1 → 10 ∈ bucket exampleChannel k2 → k1 = k2)
      ∧ ∀ k, (bucket exampleChannel k).count 10 ≤ 1 :=
  ⟨exampleChannel_reachable,
    at_most_one_binding exampleIsOrthogonal exampleChannel exampleChannel_reachable 10⟩

/-- C3. In every reachable state (reached by `AddRx`, `RemoveRx`,
`FindAndEventuallyAddTxSpectrumModel` and `StartRx`), a key `r` of the converter map of a
Transmit-Model entry differs from the uid of the model of the entry and from the key of
the entry, the receive registry has an entry keyed `r`, and the transmit model of the
entry is not orthogonal to the model of any receive entry keyed `r`. -/
theorem no_converter_for_identical_or_orthogonal
    (isOrthogonal : SpectrumModel → SpectrumModel → Bool)
    (s : MultiModelSpectrumChannel) (h : Reachable isOrthogonal s)
    (k : Nat) (info : TxSpectrumModelInfo) (hk : (k, info) ∈ s.m_txSpectrumModelInfoMap)
    (r : Nat) (c : SpectrumConverter) (hc : (r, c) ∈ info.m_spectrumConverterMap) :
    r ≠ info.m_txSpectrumModel.uid ∧ r ≠ k
      ∧ (∃ rxInfo, UidMap.find r s.m_rxSpectrumModelInfoMap = some rxInfo)
      ∧ ∀ rxInfo, (r, rxInfo) ∈ s.m_rxSpectrumModelInfoMap →
          rxInfo.m_rxSpectrumModel.uid = r
            ∧ isOrthogonal info.m_txSpectrumModel rxInfo.m_rxSpectrumModel = false := by
  have hinv := h.invariant
  obtain ⟨hne, r0, hr0, horth, _⟩ := hinv.convs (k, info) hk (r, c) hc
  have hkey : info.m_txSpectrumModel.uid = k := hinv.txKey (k, info) hk
  have hsorted : (UidMap.keys (rxModels s)).Pairwise (· < ·) := by
    rw [rxModels, UidMap.keys_mapVal]; exact hinv.rxSorted
  have hfind : UidMap.find r (rxModels s) = some r0 := UidMap.find_of_mem r r0 _ hsorted hr0
  refine ⟨hkey ▸ hne, hne, ?_, ?_⟩
  · rw [rxModels, UidMap.find_mapVal] at hfind
    cases hf : UidMap.find r s.m_rxSpectrumModelInfoMap with
    | none => simp [hf] at hfind
    | some rxInfo => exact ⟨rxInfo, rfl⟩
  · intro rxInfo hmem
    have hmem' : (r, rxInfo.m_rxSpectrumModel) ∈ rxModels s :=
      List.mem_map.2 ⟨(r, rxInfo), hmem, rfl⟩
    have hfind' := UidMap.find_of_mem r _ _ hsorted hmem'
    rw [hfind] at hfind'
    have heq : r0 = rxInfo.m_rxSpectrumModel := Option.some.inj hfind'
    exact ⟨hinv.rxKey (r, rxInfo) hmem, heq ▸ horth⟩

theorem no_converter_for_identical_or_orthogonal_witness :
    Reachable exampleIsOrthogonal exampleChannel
      ∧ (2, TxSpectrumModelInfo.mk ⟨2⟩ [(1, ⟨⟨2⟩, ⟨1⟩⟩), (3, ⟨⟨2⟩, ⟨3⟩⟩)])
          ∈ exampleChannel.m_txSpectrumModelInfoMap
      ∧ (3 ≠ 2 ∧ 3 ≠ 2
        ∧ (∃ rxInfo, UidMap.find 3 exampleChannel.m_rxSpectrumModelInfoMap = some rxInfo)
        ∧ ∀ rxInfo, (3, rxInfo) ∈ exampleChannel.m_rxSpectrumModelInfoMap →
            rxInfo.m_rxSpectrumModel.uid = 3
              ∧ exampleIsOrthogonal ⟨2⟩ rxInfo.m_rxSpectrumModel = false) :=
  ⟨exampleChannel_reachable, by decide,
    no_converter_for_identical_or_orthogonal exampleIsOrthogonal exampleChannel
      exampleChannel_reachable 2 (TxSpectrumModelInfo.mk ⟨2⟩ [(1, ⟨⟨2⟩, ⟨1⟩⟩), (3, ⟨⟨2⟩, ⟨3⟩⟩)])
      (by decide) 3 ⟨⟨2⟩, ⟨3⟩⟩ (by decide)⟩

/-! ## Order of registration (C4) -/

theorem FindAndEventuallyAddTxSpectrumModel_frame
    (isOrthogonal : SpectrumModel → SpectrumModel → Bool)
    (s : MultiModelSpectrumChannel) (t : SpectrumModel) :
    (FindAndEventuallyAddTxSpectrumModel isOrthogonal s t).1.m_rxSpectrumModelInfoMap
        = s.m_rxSpectrumModelInfoMap
      ∧ (FindAndEventuallyAddTxSpectrumModel isOrthogonal s t).1.m_numDevices
        = s.m_numDevices := by
  cases hf : UidMap.find t.uid s.m_txSpectrumModelInfoMap with
  | some info => simp only [FindAndEventuallyAddTxSpectrumModel, hf, and_self]
  | none =>
    simp only [FindAndEventuallyAddTxSpectrumModel, hf]
    by_cases hflag : (UidMap.insert t.uid (TxSpectrumModelInfo.mk t [])
        s.m_txSpectrumModelInfoMap).2 = true
    · simp only [hflag, if_true]
      cases (FindAndEventuallyAddTxSpectrumModel.createConverters isOrthogonal t
        s.m_rxSpectrumModelInfoMap []).2 <;> exact ⟨rfl, rfl⟩
    · simp only [hflag]
      exact ⟨rfl, rfl⟩

theorem RemoveRx_congr (s s' : MultiModelSpectrumChannel) (phy : Nat)
    (hrx : s'.m_rxSpectrumModelInfoMap = s.m_rxSpectrumModelInfoMap)
    (hn : s'.m_numDevices = s.m_numDevices) :
    (RemoveRx s' phy).m_rxSpectrumModelInfoMap = (RemoveRx s phy).m_rxSpectrumModelInfoMap
      ∧ (RemoveRx s' phy).m_numDevices = (RemoveRx s phy).m_numDevices := by
  unfold RemoveRx
  rw [hrx]
  cases RemoveRx.scan phy s.m_rxSpectrumModelInfoMap with
  | none => exact ⟨hrx, hn⟩
  | some m => simp [hn]

theorem UidMap.insert_head {α : Type} (k : Nat) (v : α) (m : UidMap α)
    (h : ∀ c ∈ m, k < c.1) : (UidMap.insert k v m).1 = (k, v) :: m := by
  cases m with
  | nil => rfl
  | cons e rest =>
    obtain ⟨k', v'⟩ := e
    have : k < k' := h (k', v') (List.mem_cons_self _ _)
    simp [UidMap.insert, this]

theorem convertersFor_cons (isOrthogonal : SpectrumModel → SpectrumModel → Bool)
    (t : SpectrumModel) (x : Nat × SpectrumModel) (m : UidMap SpectrumModel) :
    convertersFor isOrthogonal t (x :: m)
      = if x.2.uid ≠ t.uid ∧ isOrthogonal t x.2 = false then
          (x.2.uid, SpectrumConverter.mk t x.2) :: convertersFor isOrthogonal t m
        else convertersFor isOrthogonal t m := by
  simp only [convertersFor, List.filterMap_cons, converterFor]
  split_ifs <;> rfl

/-- Registering one more receive model `r` changes the converters needed by a transmit
model `t` by at most the converter towards `r`, placed in key order. -/
theorem convertersFor_insert (isOrthogonal : SpectrumModel → SpectrumModel → Bool)
    (t r : SpectrumModel) (m : UidMap SpectrumModel)
    (hs : (UidMap.keys m).Pairwise (· < ·)) (hk : ∀ x ∈ m, x.2.uid = x.1)
    (hr : r.uid ∉ UidMap.keys m) :
    convertersFor isOrthogonal t (UidMap.insert r.uid r m).1
      = if r.uid ≠ t.uid ∧ isOrthogonal t r = false then
          (UidMap.insert r.uid (SpectrumConverter.mk t r) (convertersFor isOrthogonal t m)).1
        else convertersFor isOrthogonal t m := by
  induction m with
  | nil =>
    simp only [UidMap.insert, convertersFor_cons]
    split_ifs <;> simp [convertersFor, UidMap.insert]
  | cons x rest ih =>
    obtain ⟨k, mdl⟩ := x
    simp only [UidMap.keys, List.map_cons, List.pairwise_cons, List.mem_cons, not_or] at hs hr
    have hkx : mdl.uid = k := hk (k, mdl) (List.mem_cons_self _ _)
    have hk' : ∀ x ∈ rest, x.2.uid = x.1 := fun x hx => hk x (List.mem_cons_of_mem _ hx)
    have ih' := ih hs.2 hk' hr.2
    simp only [UidMap.insert]
    by_cases h1 : r.uid < k
    · simp only [h1, if_true]
      rw [convertersFor_cons]
      have hall : ∀ c ∈ convertersFor isOrthogonal t ((k, mdl) :: rest), r.uid < c.1 := by
        intro c hc
        obtain ⟨x, hx, _, _, rfl⟩ := mem_convertersFor isOrthogonal t _ c hc
        rcases List.mem_cons.1 hx with hx | hx
        · rw [hx]; simp only; omega
        · have := hs.1 x.1 (List.mem_map.2 ⟨x, hx, rfl⟩)
          rw [hk' x hx]; simp only; omega
      split_ifs with hc
      · rw [UidMap.insert_head _ _ _ hall]
      · rfl
    · have h2 : ¬ r.uid = k := hr.1
      simp only [h1, h2, if_false]
      rw [convertersFor_cons, convertersFor_cons, ih']
      by_cases hc : r.uid ≠ t.uid ∧ isOrthogonal t r = false
      · simp only [if_pos hc]
        split_ifs with hc2
        · have h3 : ¬ r.uid < mdl.uid := by omega
          have h4 : ¬ r.uid = mdl.uid := by omega
          simp [UidMap.insert, h3, h4]
        · rfl
      · simp only [if_neg hc]

theorem addConverter_new_entry (isOrthogonal : SpectrumModel → SpectrumModel → Bool)
    (t r : SpectrumModel) (m : UidMap SpectrumModel)
    (hs : (UidMap.keys m).Pairwise (· < ·)) (hk : ∀ x ∈ m, x.2.uid = x.1)
    (hr : r.uid ∉ UidMap.keys m) :
    addConverter isOrthogonal r (TxSpectrumModelInfo.mk t (convertersFor isOrthogonal t m))
      = TxSpectrumModelInfo.mk t (convertersFor isOrthogonal t (UidMap.insert r.uid r m).1) := by
  rw [convertersFor_insert isOrthogonal t r m hs hk hr]
  simp only [addConverter]
  split_ifs <;> rfl

theorem rxModels_insert_of_mem (r : SpectrumModel) (m : UidMap SpectrumModel)
    (hs : (UidMap.keys m).Pairwise (· < ·)) (h : r.uid ∈ UidMap.keys m) :
    (UidMap.insert r.uid r m).1 = m :=
  UidMap.insert_of_flag_false _ _ _ (UidMap.insert_flag_of_mem _ _ _ hs h)

theorem Invariant.rxModels_sorted {isOrthogonal : SpectrumModel → SpectrumModel → Bool}
    {s : MultiModelSpectrumChannel} (h : Invariant isOrthogonal s) :
    (UidMap.keys (rxModels s)).Pairwise (· < ·) := by
  rw [rxModels, UidMap.keys_mapVal]; exact h.rxSorted

theorem keys_rxModels (s : MultiModelSpectrumChannel) :
    UidMap.keys (rxModels s) = UidMap.keys s.m_rxSpectrumModelInfoMap :=
  UidMap.keys_mapVal _ _

/-- The state after `FindAndEventuallyAddTxSpectrumModel (t)` followed by `AddRx (phy)`
equals the state after the two calls in the opposite order. -/
theorem AddRx_FindAndEventuallyAddTxSpectrumModel_comm
    (isOrthogonal : SpectrumModel → SpectrumModel → Bool)
    (s : MultiModelSpectrumChannel) (hinv : Invariant isOrthogonal s)
    (t : SpectrumModel) (phy : SpectrumPhy) (r : SpectrumModel)
    (hr : phy.rxSpectrumModel = some r) :
    (AddRx isOrthogonal (FindAndEventuallyAddTxSpectrumModel isOrthogonal s t).1 phy).1
      = (FindAndEventuallyAddTxSpectrumModel isOrthogonal (AddRx isOrthogonal s phy).1 t).1 := by
  have hA1 := FindAndEventuallyAddTxSpectrumModel_invariant isOrthogonal s t hinv
  have hB1 := AddRx_invariant isOrthogonal s phy r hr hinv
  obtain ⟨hfr, hfn⟩ := FindAndEventuallyAddTxSpectrumModel_frame isOrthogonal s t
  obtain ⟨hrr, hrn⟩ := RemoveRx_congr s _ phy.ptr hfr hfn
  have hmodelsB := AddRx_rxModels isOrthogonal s phy r hr hinv
  have hBeq := AddRx_eq isOrthogonal s phy r hr hinv
  have hBtx : (AddRx isOrthogonal s phy).1.m_txSpectrumModelInfoMap
      = if r.uid ∈ UidMap.keys s.m_rxSpectrumModelInfoMap then s.m_txSpectrumModelInfoMap
        else UidMap.mapVal (addConverter isOrthogonal r) s.m_txSpectrumModelInfoMap := by
    rw [hBeq]
  rw [AddRx_eq isOrthogonal _ phy r hr hA1, hrr, hrn, hfr]
  cases hf : UidMap.find t.uid s.m_txSpectrumModelInfoMap with
  | some info =>
    have hfB : UidMap.find t.uid (AddRx isOrthogonal s phy).1.m_txSpectrumModelInfoMap
        = some (if r.uid ∈ UidMap.keys s.m_rxSpectrumModelInfoMap then info
            else addConverter isOrthogonal r info) := by
      rw [hBtx]
      split_ifs
      · exact hf
      · rw [UidMap.find_mapVal, hf]; rfl
    rw [FindAndEventuallyAddTxSpectrumModel_eq_of_some isOrthogonal _ t _ hfB,
      FindAndEventuallyAddTxSpectrumModel_eq_of_some isOrthogonal s t info hf, hBeq]
  | none =>
    have hfB : UidMap.find t.uid (AddRx isOrthogonal s phy).1.m_txSpectrumModelInfoMap
        = none := by
      rw [hBtx]
      split_ifs
      · exact hf
      · rw [UidMap.find_mapVal, hf]; rfl
    rw [FindAndEventuallyAddTxSpectrumModel_eq_of_none isOrthogonal _ t hB1 hfB,
      FindAndEventuallyAddTxSpectrumModel_eq_of_none isOrthogonal s t hinv hf, hmodelsB, hBeq]
    simp only
    by_cases hmem : r.uid ∈ UidMap.keys s.m_rxSpectrumModelInfoMap
    · simp only [if_pos hmem]
      rw [rxModels_insert_of_mem r _ hinv.rxModels_sorted (keys_rxModels s ▸ hmem)]
    · simp only [if_neg hmem]
      rw [(UidMap.mapVal_insert _ _ _ _).1,
        addConverter_new_entry isOrthogonal t r (rxModels s) hinv.rxModels_sorted
          ((rxKey_iff_rxModels _).1 hinv.rxKey) (keys_rxModels s ▸ hmem)]

/-- C4. Converter symmetry-of-creation: in every reachable state, for every transmit
model `t` and every endpoint `phy` with a receive model, the calls
`FindAndEventuallyAddTxSpectrumModel (t)` then `AddRx (phy)` and the calls `AddRx (phy)`
then `FindAndEventuallyAddTxSpectrumModel (t)` all complete, and both orders leave the
same transmit-model map (same entries, same converter keys and converters); the whole
channel state is the same. -/
theorem converter_symmetry_of_creation (isOrthogonal : SpectrumModel → SpectrumModel → Bool)
    (s : MultiModelSpectrumChannel) (h : Reachable isOrthogonal s)
    (t : SpectrumModel) (phy : SpectrumPhy) (r : SpectrumModel)
    (hr : phy.rxSpectrumModel = some r) :
    (∃ entry, (FindAndEventuallyAddTxSpectrumModel isOrthogonal s t).2 = .ok entry)
      ∧ (AddRx isOrthogonal (FindAndEventuallyAddTxSpectrumModel isOrthogonal s t).1 phy).2 = none
      ∧ (AddRx isOrthogonal s phy).2 = none
      ∧ (∃ entry, (FindAndEventuallyAddTxSpectrumModel isOrthogonal
            (AddRx isOrthogonal s phy).1 t).2 = .ok entry)
      ∧ (AddRx isOrthogonal (FindAndEventuallyAddTxSpectrumModel isOrthogonal s t).1
            phy).1.m_txSpectrumModelInfoMap
          = (FindAndEventuallyAddTxSpectrumModel isOrthogonal (AddRx isOrthogonal s phy).1
              t).1.m_txSpectrumModelInfoMap
      ∧ (AddRx isOrthogonal (FindAndEventuallyAddTxSpectrumModel isOrthogonal s t).1 phy).1
          = (FindAndEventuallyAddTxSpectrumModel isOrthogonal (AddRx isOrthogonal s phy).1 t).1 := by
  have hinv := h.invariant
  have hcomm := AddRx_FindAndEventuallyAddTxSpectrumModel_comm isOrthogonal s hinv t phy r hr
  exact ⟨FindAndEventuallyAddTxSpectrumModel_ok isOrthogonal s t hinv,
    AddRx_ok isOrthogonal _ phy r hr
      (FindAndEventuallyAddTxSpectrumModel_invariant isOrthogonal s t hinv),
    AddRx_ok isOrthogonal s phy r hr hinv,
    FindAndEventuallyAddTxSpectrumModel_ok isOrthogonal _ t
      (AddRx_invariant isOrthogonal s phy r hr hinv),
    congrArg MultiModelSpectrumChannel.m_txSpectrumModelInfoMap hcomm, hcomm⟩

theorem converter_symmetry_of_creation_witness :
    Reachable exampleIsOrthogonal exampleChannel
      ∧ (AddRx exampleIsOrthogonal
            (FindAndEventuallyAddTxSpectrumModel exampleIsOrthogonal exampleChannel ⟨5⟩).1
            (examplePhy 12 4)).1.m_txSpectrumModelInfoMap
          = (FindAndEventuallyAddTxSpectrumModel exampleIsOrthogonal
              (AddRx exampleIsOrthogonal exampleChannel (examplePhy 12 4)).1
              ⟨5⟩).1.m_txSpectrumModelInfoMap :=
  ⟨exampleChannel_reachable,
    (converter_symmetry_of_creation exampleIsOrthogonal exampleChannel exampleChannel_reachable
      ⟨5⟩ (examplePhy 12 4) ⟨4⟩ rfl).2.2.2.2.1⟩

/-! ## Effect of `AddRx` and `RemoveRx` on the buckets (C5, C6, C7) -/

theorem UidMap.find_of_mem_nodup {α : Type} (m : UidMap α) (e : Nat × α)
    (hnd : (UidMap.keys m).Nodup) (he : e ∈ m) : UidMap.find e.1 m = some e.2 := by
  induction m with
  | nil => simp at he
  | cons e' rest ih =>
    simp only [UidMap.keys, List.map_cons, List.nodup_cons] at hnd
    rcases List.mem_cons.1 he with h1 | h1
    · subst h1
      simp [UidMap.find]
    · have hne : e.1 ≠ e'.1 := by
        intro heq
        exact hnd.1 (heq ▸ List.mem_map.2 ⟨e, h1, rfl⟩)
      simp only [UidMap.find, hne, if_false]
      exact ih hnd.2 h1

theorem filter_ne_erase (phy : Nat) (l : List Nat) :
    (l.erase phy).filter (· ≠ phy) = l.filter (· ≠ phy) := by
  induction l with
  | nil => rfl
  | cons a rest ih =>
    by_cases h : a = phy
    · subst h
      simp
    · have h' : (a == phy) = false := by simpa using h
      rw [List.erase_cons, h']
      have h2 : decide (a ≠ phy) = true := by simpa using h
      simp only [Bool.false_eq_true, if_false, List.filter_cons, h2, if_true, ih]

theorem bucket_RemoveRx (isOrthogonal : SpectrumModel → SpectrumModel → Bool)
    (s : MultiModelSpectrumChannel) (hinv : Invariant isOrthogonal s) (phy k : Nat) :
    bucket (RemoveRx s phy) k = (bucket s k).erase phy := by
  unfold RemoveRx
  cases hscan : RemoveRx.scan phy s.m_rxSpectrumModelInfoMap with
  | none =>
    have hnot : phy ∉ allRxPhys s := (RemoveRx.scan_eq_none_iff phy _).1 hscan
    have : phy ∉ bucket s k := fun hx => hnot ((bucket_sublist_allRxPhys s k).subset hx)
    exact (List.erase_of_not_mem this).symm
  | some m =>
    have := RemoveRx.scan_find phy _ m hinv.nodup hscan k
    simp only [bucket]
    cases hf : UidMap.find k s.m_rxSpectrumModelInfoMap with
    | none =>
      rw [hf] at this
      cases hf' : UidMap.find k m with
      | none => rfl
      | some i => rw [hf'] at this; simp at this
    | some i =>
      rw [hf] at this
      cases hf' : UidMap.find k m with
      | none => rw [hf'] at this; simp at this
      | some i' =>
        rw [hf'] at this
        simpa using this

theorem bucket_AddRx (isOrthogonal : SpectrumModel → SpectrumModel → Bool)
    (s : MultiModelSpectrumChannel) (hinv : Invariant isOrthogonal s) (phy : SpectrumPhy)
    (r : SpectrumModel) (hr : phy.rxSpectrumModel = some r) (k : Nat) :
    bucket (AddRx isOrthogonal s phy).1 k
      = if k = r.uid then (bucket s k).erase phy.ptr ++ [phy.ptr]
        else (bucket s k).erase phy.ptr := by
  rw [← bucket_RemoveRx isOrthogonal s hinv phy.ptr k, AddRx_eq isOrthogonal s phy r hr hinv]
  have h1 := RemoveRx_invariant isOrthogonal s phy.ptr hinv
  simp only [bucket, UidMap.find_modify]
  cases hflag : (UidMap.insert r.uid (RxSpectrumModelInfo.mk r [])
      (RemoveRx s phy.ptr).m_rxSpectrumModelInfoMap).2 with
  | true =>
    rw [UidMap.find_insert _ _ _ _ hflag]
    have hnone : UidMap.find r.uid (RemoveRx s phy.ptr).m_rxSpectrumModelInfoMap = none := by
      rw [UidMap.find_eq_none_iff]
      intro hmem
      rw [UidMap.insert_flag_of_mem _ _ _ h1.rxSorted hmem] at hflag
      cases hflag
    by_cases hk : k = r.uid
    · subst hk
      simp [hnone]
    · simp [hk]
  | false =>
    rw [UidMap.insert_of_flag_false _ _ _ hflag]
    by_cases hk : k = r.uid
    · subst hk
      cases hf : UidMap.find r.uid (RemoveRx s phy.ptr).m_rxSpectrumModelInfoMap with
      | none =>
        rw [UidMap.insert_flag _ _ _ ((UidMap.find_eq_none_iff _ _).1 hf)] at hflag
        cases hflag
      | some i => simp
    · simp [hk]

theorem Invariant.not_mem_bucket_erase {isOrthogonal : SpectrumModel → SpectrumModel → Bool}
    {s : MultiModelSpectrumChannel} (hinv : Invariant isOrthogonal s) (phy k : Nat) :
    phy ∉ (bucket s k).erase phy := by
  intro hx
  exact ((List.Nodup.mem_erase_iff (hinv.nodup.sublist (bucket_sublist_allRxPhys s k))).1 hx).1 rfl

theorem Invariant.decrement_count {isOrthogonal : SpectrumModel → SpectrumModel → Bool}
    {s : MultiModelSpectrumChannel} (hinv : Invariant isOrthogonal s) (phy : Nat)
    (hp : phy ∈ allRxPhys s) : decrement s.m_numDevices + 1 = s.m_numDevices := by
  have hl : 0 < (allRxPhys s).length := List.length_pos_of_mem hp
  have hne : s.m_numDevices ≠ 0 := by rw [hinv.count]; omega
  simp only [decrement, hne, if_false]
  omega

/-- C5. Postcondition of `AddRx`: in every reachable state, for an endpoint `phy` whose
receive model has uid `u`, the call completes; afterwards `phy` is the last element of
the bucket keyed `u` and occurs in no other bucket; `GetNDevices ()` is the old count
plus one if `phy` was not registered and the old count if it was; every bucket holds the
same other endpoints in the same order as before. -/
theorem AddRx_postcondition (isOrthogonal : SpectrumModel → SpectrumModel → Bool)
    (s : MultiModelSpectrumChannel) (h : Reachable isOrthogonal s) (phy : SpectrumPhy)
    (r : SpectrumModel) (hr : phy.rxSpectrumModel = some r) :
    (AddRx isOrthogonal s phy).2 = none
      ∧ (bucket (AddRx isOrthogonal s phy).1 r.uid).getLast? = some phy.ptr
      ∧ (bucket (AddRx isOrthogonal s phy).1 r.uid).count phy.ptr = 1
      ∧ (∀ k, k ≠ r.uid → phy.ptr ∉ bucket (AddRx isOrthogonal s phy).1 k)
      ∧ (phy.ptr ∉ allRxPhys s →
          GetNDevices (AddRx isOrthogonal s phy).1 = GetNDevices s + 1)
      ∧ (phy.ptr ∈ allRxPhys s → GetNDevices (AddRx isOrthogonal s phy).1 = GetNDevices s)
      ∧ ∀ k, (bucket (AddRx isOrthogonal s phy).1 k).filter (· ≠ phy.ptr)
          = (bucket s k).filter (· ≠ phy.ptr) := by
  have hinv := h.invariant
  have hb := bucket_AddRx isOrthogonal s hinv phy r hr
  have hnum : (AddRx isOrthogonal s phy).1.m_numDevices
      = (RemoveRx s phy.ptr).m_numDevices + 1 := by
    rw [AddRx_eq isOrthogonal s phy r hr hinv]
  refine ⟨AddRx_ok isOrthogonal s phy r hr hinv, ?_, ?_, ?_, ?_, ?_, ?_⟩
  · rw [hb, if_pos rfl]; simp
  · rw [hb, if_pos rfl]
    simp [List.count_eq_zero_of_not_mem (hinv.not_mem_bucket_erase phy.ptr r.uid)]
  · intro k hk
    rw [hb, if_neg hk]
    exact hinv.not_mem_bucket_erase phy.ptr k
  · intro hp
    rw [GetNDevices, GetNDevices, hnum, RemoveRx_numDevices, if_neg hp]
  · intro hp
    rw [GetNDevices, GetNDevices, hnum, RemoveRx_numDevices, if_pos hp]
    exact hinv.decrement_count phy.ptr hp
  · intro k
    rw [hb]
    split_ifs
    · rw [List.filter_append, filter_ne_erase]; simp
    · rw [filter_ne_erase]

theorem AddRx_postcondition_witness :
    Reachable exampleIsOrthogonal exampleChannel
      ∧ (bucket (AddRx exampleIsOrthogonal exampleChannel (examplePhy 11 20)).1 20).getLast?
          = some 11
      ∧ GetNDevices (AddRx exampleIsOrthogonal exampleChannel (examplePhy 11 20)).1
          = GetNDevices exampleChannel :=
  ⟨exampleChannel_reachable,
    (AddRx_postcondition exampleIsOrthogonal exampleChannel exampleChannel_reachable
      (examplePhy 11 20) ⟨20⟩ rfl).2.1,
    (AddRx_postcondition exampleIsOrthogonal exampleChannel exampleChannel_reachable
      (examplePhy 11 20) ⟨20⟩ rfl).2.2.2.2.2.1 (by decide)⟩

/-- C6. `RemoveRx` on a registered endpoint: in every reachable state in which `phy` is
registered, after `RemoveRx (phy)` the endpoint occurs in no bucket, `GetNDevices ()` has
decreased by exactly one, every bucket is the bucket before the call with `phy` erased
(so every other endpoint stays in its bucket, in the same relative order), the
Receive-Model entries (keys and model handles) are the same, and the transmit-model map
with its converter maps is unchanged. -/
theorem RemoveRx_registered (isOrthogonal : SpectrumModel → SpectrumModel → Bool)
    (s : MultiModelSpectrumChannel) (h : Reachable isOrthogonal s) (phy : Nat)
    (hp : phy ∈ allRxPhys s) :
    phy ∉ allRxPhys (RemoveRx s phy)
      ∧ (∀ k, phy ∉ bucket (RemoveRx s phy) k)
      ∧ GetNDevices (RemoveRx s phy) + 1 = GetNDevices s
      ∧ (∀ k, bucket (RemoveRx s phy) k = (bucket s k).erase phy)
      ∧ (∀ k, (bucket (RemoveRx s phy) k).filter (· ≠ phy) = (bucket s k).filter (· ≠ phy))
      ∧ rxModels (RemoveRx s phy) = rxModels s
      ∧ (RemoveRx s phy).m_txSpectrumModelInfoMap = s.m_txSpectrumModelInfoMap := by
  have hinv := h.invariant
  have hb := bucket_RemoveRx isOrthogonal s hinv phy
  refine ⟨?_, ?_, ?_, hb, ?_, RemoveRx_rxModels s phy, RemoveRx_tx s phy⟩
  · rw [RemoveRx_allRxPhys]
    exact fun hx => ((List.Nodup.mem_erase_iff hinv.nodup).1 hx).1 rfl
  · intro k
    rw [hb]
    exact hinv.not_mem_bucket_erase phy k
  · rw [GetNDevices, GetNDevices, RemoveRx_numDevices, if_pos hp]
    exact hinv.decrement_count phy hp
  · intro k
    rw [hb, filter_ne_erase]

theorem RemoveRx_registered_witness :
    Reachable exampleIsOrthogonal exampleChannel ∧ 11 ∈ allRxPhys exampleChannel
      ∧ 11 ∉ allRxPhys (RemoveRx exampleChannel 11)
      ∧ GetNDevices (RemoveRx exampleChannel 11) + 1 = GetNDevices exampleChannel
      ∧ (RemoveRx exampleChannel 11).m_txSpectrumModelInfoMap
          = exampleChannel.m_txSpectrumModelInfoMap :=
  ⟨exampleChannel_reachable, by decide,
    (RemoveRx_registered exampleIsOrthogonal exampleChannel exampleChannel_reachable 11
      (by decide)).1,
    (RemoveRx_registered exampleIsOrthogonal exampleChannel exampleChannel_reachable 11
      (by decide)).2.2.1,
    (RemoveRx_registered exampleIsOrthogonal exampleChannel exampleChannel_reachable 11
      (by decide)).2.2.2.2.2.2⟩

/-- C7. `RemoveRx` is a no-op on an unregistered endpoint: in every channel state, if
`phy` occurs in no bucket then `RemoveRx (phy)` leaves the whole state unchanged (the
operation has no failing path); and in every reachable state two calls of
`RemoveRx (phy)` leave the same state as one. -/
theorem RemoveRx_unregistered_noop (isOrthogonal : SpectrumModel → SpectrumModel → Bool)
    (s : MultiModelSpectrumChannel) (phy : Nat) :
    (phy ∉ allRxPhys s → RemoveRx s phy = s)
      ∧ ((∀ k, phy ∉ bucket s k) → (UidMap.keys s.m_rxSpectrumModelInfoMap).Nodup →
          RemoveRx s phy = s)
      ∧ (Reachable isOrthogonal s → RemoveRx (RemoveRx s phy) phy = RemoveRx s phy) := by
  refine ⟨RemoveRx_of_not_mem s phy, ?_, ?_⟩
  · intro hb hnd
    apply RemoveRx_of_not_mem
    intro hx
    obtain ⟨l, hl, hpl⟩ := List.mem_flatten.1 hx
    obtain ⟨e, he, rfl⟩ := List.mem_map.1 hl
    have hfind := UidMap.find_of_mem_nodup s.m_rxSpectrumModelInfoMap e hnd he
    exact hb e.1 (by rw [bucket_eq_of_find s e.1 e.2 hfind]; exact hpl)
  · intro h
    apply RemoveRx_of_not_mem
    rw [RemoveRx_allRxPhys]
    exact fun hx => ((List.Nodup.mem_erase_iff h.invariant.nodup).1 hx).1 rfl

theorem RemoveRx_unregistered_noop_witness :
    (12 ∉ allRxPhys exampleChannel ∧ RemoveRx exampleChannel 12 = exampleChannel)
      ∧ (Reachable exampleIsOrthogonal exampleChannel
          ∧ RemoveRx (RemoveRx exampleChannel 10) 10 = RemoveRx exampleChannel 10) :=
  ⟨⟨by decide,
      (RemoveRx_unregistered_noop exampleIsOrthogonal exampleChannel 12).1 (by decide)⟩,
    ⟨exampleChannel_reachable,
      (RemoveRx_unregistered_noop exampleIsOrthogonal exampleChannel 10).2.2
        exampleChannel_reachable⟩⟩

/-! ## Failure of `AddRx`, idempotence of the transmit registry, `GetDevice` (C8, C9, C10) -/

/-- C8. `AddRx` fails fatally exactly when `GetRxSpectrumModel ()` of the endpoint is
null: with a null model the call aborts on the assertion and leaves the state as it was
(so a registered endpoint stays registered and the device count is not modified); in a
reachable state the call aborts in no other case. -/
theorem AddRx_fatal_iff (isOrthogonal : SpectrumModel → SpectrumModel → Bool)
    (s : MultiModelSpectrumChannel) (phy : SpectrumPhy) :
    (phy.rxSpectrumModel = none →
        AddRx isOrthogonal s phy = (s, some Fatal.rxSpectrumModelNotSet))
      ∧ (Reachable isOrthogonal s →
          ((AddRx isOrthogonal s phy).2 ≠ none ↔ phy.rxSpectrumModel = none)
            ∧ ((AddRx isOrthogonal s phy).2 ≠ none →
                (AddRx isOrthogonal s phy).1 = s
                  ∧ allRxPhys (AddRx isOrthogonal s phy).1 = allRxPhys s
                  ∧ GetNDevices (AddRx isOrthogonal s phy).1 = GetNDevices s)) := by
  refine ⟨AddRx_fatal_of_none isOrthogonal s phy, ?_⟩
  intro h
  have hiff : (AddRx isOrthogonal s phy).2 ≠ none ↔ phy.rxSpectrumModel = none := by
    cases hr : phy.rxSpectrumModel with
    | none => simp [AddRx_fatal_of_none isOrthogonal s phy hr]
    | some r => simp [AddRx_ok isOrthogonal s phy r hr h.invariant]
  refine ⟨hiff, ?_⟩
  intro hfail
  have hr := hiff.1 hfail
  rw [AddRx_fatal_of_none isOrthogonal s phy hr]
  exact ⟨rfl, rfl, rfl⟩

theorem AddRx_fatal_iff_witness :
    (AddRx exampleIsOrthogonal exampleChannel ⟨10, none, none, none, none⟩
        = (exampleChannel, some Fatal.rxSpectrumModelNotSet))
      ∧ (Reachable exampleIsOrthogonal exampleChannel
          ∧ ((AddRx exampleIsOrthogonal exampleChannel (examplePhy 10 7)).2 ≠ none
              ↔ (examplePhy 10 7).rxSpectrumModel = none)) :=
  ⟨(AddRx_fatal_iff exampleIsOrthogonal exampleChannel ⟨10, none, none, none, none⟩).1 rfl,
    exampleChannel_reachable,
    ((AddRx_fatal_iff exampleIsOrthogonal exampleChannel (examplePhy 10 7)).2
      exampleChannel_reachable).1⟩

/-- C9. `FindAndEventuallyAddTxSpectrumModel` is idempotent: in every channel state, if
a call with model `t` returns an entry, then a second call with `t` returns the same
entry and leaves the state of the first call unchanged; if an entry for the uid of `t`
exists, the call changes nothing and returns that entry; and in every reachable state
the call does return. -/
theorem FindAndEventuallyAddTxSpectrumModel_idempotent
    (isOrthogonal : SpectrumModel → SpectrumModel → Bool)
    (s : MultiModelSpectrumChannel) (t : SpectrumModel) :
    (∀ entry, (FindAndEventuallyAddTxSpectrumModel isOrthogonal s t).2 = .ok entry →
        FindAndEventuallyAddTxSpectrumModel isOrthogonal
            (FindAndEventuallyAddTxSpectrumModel isOrthogonal s t).1 t
          = ((FindAndEventuallyAddTxSpectrumModel isOrthogonal s t).1, .ok entry))
      ∧ (∀ info, UidMap.find t.uid s.m_txSpectrumModelInfoMap = some info →
          FindAndEventuallyAddTxSpectrumModel isOrthogonal s t = (s, .ok (t.uid, info)))
      ∧ (Reachable isOrthogonal s →
          ∃ entry, (FindAndEventuallyAddTxSpectrumModel isOrthogonal s t).2 = .ok entry) := by
  refine ⟨?_, FindAndEventuallyAddTxSpectrumModel_eq_of_some isOrthogonal s t,
    fun h => FindAndEventuallyAddTxSpectrumModel_ok isOrthogonal s t h.invariant⟩
  intro entry hok
  cases hf : UidMap.find t.uid s.m_txSpectrumModelInfoMap with
  | some info =>
    rw [FindAndEventuallyAddTxSpectrumModel_eq_of_some isOrthogonal s t info hf] at hok ⊢
    simp only [Except.ok.injEq] at hok
    rw [FindAndEventuallyAddTxSpectrumModel_eq_of_some isOrthogonal s t info hf, hok]
  | none =>
    have hflag := UidMap.insert_flag t.uid (TxSpectrumModelInfo.mk t [])
      s.m_txSpectrumModelInfoMap ((UidMap.find_eq_none_iff _ _).1 hf)
    have hstep : FindAndEventuallyAddTxSpectrumModel isOrthogonal s t
        = ({ s with m_txSpectrumModelInfoMap :=
              (UidMap.insert t.uid (TxSpectrumModelInfo.mk t
                (FindAndEventuallyAddTxSpectrumModel.createConverters isOrthogonal t
                  s.m_rxSpectrumModelInfoMap []).1) s.m_txSpectrumModelInfoMap).1 },
            match (FindAndEventuallyAddTxSpectrumModel.createConverters isOrthogonal t
                s.m_rxSpectrumModelInfoMap []).2 with
            | some e => .error e
            | none => .ok (t.uid, TxSpectrumModelInfo.mk t
                (FindAndEventuallyAddTxSpectrumModel.createConverters isOrthogonal t
                  s.m_rxSpectrumModelInfoMap []).1)) := by
      simp only [FindAndEventuallyAddTxSpectrumModel, hf, hflag, if_true]
      rw [UidMap.modify_insert _ _ _ _ hflag]
      cases (FindAndEventuallyAddTxSpectrumModel.createConverters isOrthogonal t
        s.m_rxSpectrumModelInfoMap []).2 <;> rfl
    rw [hstep] at hok ⊢
    simp only at hok ⊢
    cases hc : (FindAndEventuallyAddTxSpectrumModel.createConverters isOrthogonal t
        s.m_rxSpectrumModelInfoMap []).2 with
    | some e => rw [hc] at hok; cases hok
    | none =>
      rw [hc] at hok
      simp only [Except.ok.injEq] at hok
      have hflag' : (UidMap.insert t.uid (TxSpectrumModelInfo.mk t
          (FindAndEventuallyAddTxSpectrumModel.createConverters isOrthogonal t
            s.m_rxSpectrumModelInfoMap []).1) s.m_txSpectrumModelInfoMap).2 = true := by
        rw [← hflag]; exact UidMap.insert_flag_congr _ _ _ _
      subst hok
      apply FindAndEventuallyAddTxSpectrumModel_eq_of_some
      simp only
      rw [UidMap.find_insert _ _ _ _ hflag', if_pos rfl]

theorem FindAndEventuallyAddTxSpectrumModel_idempotent_witness :
    (FindAndEventuallyAddTxSpectrumModel exampleIsOrthogonal
        (FindAndEventuallyAddTxSpectrumModel exampleIsOrthogonal exampleChannel ⟨5⟩).1 ⟨5⟩
      = ((FindAndEventuallyAddTxSpectrumModel exampleIsOrthogonal exampleChannel ⟨5⟩).1,
          .ok (5, TxSpectrumModelInfo.mk ⟨5⟩ [(1, ⟨⟨5⟩, ⟨1⟩⟩), (3, ⟨⟨5⟩, ⟨3⟩⟩)])))
      ∧ Reachable exampleIsOrthogonal exampleChannel :=
  ⟨(FindAndEventuallyAddTxSpectrumModel_idempotent exampleIsOrthogonal exampleChannel ⟨5⟩).1
      (5, TxSpectrumModelInfo.mk ⟨5⟩ [(1, ⟨⟨5⟩, ⟨1⟩⟩), (3, ⟨⟨5⟩, ⟨3⟩⟩)]) rfl,
    exampleChannel_reachable⟩

theorem GetDevice.scanPhys_eq (i : Nat) (l : List Nat) (j : Nat) (hj : j ≤ i) :
    GetDevice.scanPhys i l j
      = match l[i - j]? with
        | some phy => .inl phy
        | none => .inr (j + l.length) := by
  induction l generalizing j with
  | nil => simp [GetDevice.scanPhys]
  | cons a rest ih =>
    simp only [GetDevice.scanPhys]
    by_cases h : j = i
    · subst h
      simp
    · have h1 : j + 1 ≤ i := by omega
      have h2 : i - j = (i - (j + 1)) + 1 := by omega
      rw [if_neg h, ih (j + 1) h1, h2, List.getElem?_cons_succ]
      cases rest[i - (j + 1)]? with
      | some p => rfl
      | none => simp only [List.length_cons]; congr 1; omega

theorem GetDevice.scan_eq (i : Nat) (m : RxSpectrumModelInfoMap_t) (j : Nat) (hj : j ≤ i) :
    GetDevice.scan i m j = ((m.map (fun e => e.2.m_rxPhys)).flatten)[i - j]? := by
  induction m generalizing j with
  | nil => simp [GetDevice.scan]
  | cons e rest ih =>
    obtain ⟨k, info⟩ := e
    simp only [GetDevice.scan, List.map_cons, List.flatten_cons]
    rw [GetDevice.scanPhys_eq i _ j hj]
    cases hget : info.m_rxPhys[i - j]? with
    | some p =>
      simp only
      have hlt : i - j < info.m_rxPhys.length := by
        by_contra hc
        rw [List.getElem?_eq_none (by omega)] at hget
        cases hget
      rw [List.getElem?_append_left hlt, hget]
    | none =>
      simp only
      have hge : info.m_rxPhys.length ≤ i - j := by
        by_contra hc
        rw [List.getElem?_eq_getElem (by omega)] at hget
        cases hget
      rw [ih _ (by omega), List.getElem?_append_right hge]
      congr 1
      omega

theorem GetDevice_eq (deviceOf : Nat → Option NetDevice) (s : MultiModelSpectrumChannel)
    (i : Nat) :
    GetDevice deviceOf s i
      = if i < s.m_numDevices then
          match (allRxPhys s)[i]? with
          | some phy => .ok (deviceOf phy)
          | none => .error Fatal.numDevicesTooLarge
        else .error Fatal.indexOutOfRange := by
  simp only [GetDevice, GetDevice.scan_eq i _ 0 (Nat.zero_le i), Nat.sub_zero, allRxPhys]

/-- C10. `GetDevice (i)` in every reachable state: it returns a device exactly when
`i < GetNDevices ()`; it then returns the device of the `i`-th endpoint (counting from
zero) of the concatenation of the buckets, which are iterated in ascending order of the
receive-model uid; and the fatal branch "m_numDevices > actual number of devices" is
never reached. -/
theorem GetDevice_spec (isOrthogonal : SpectrumModel → SpectrumModel → Bool)
    (s : MultiModelSpectrumChannel) (h : Reachable isOrthogonal s)
    (deviceOf : Nat → Option NetDevice) (i : Nat) :
    ((∃ d, GetDevice deviceOf s i = .ok d) ↔ i < GetNDevices s)
      ∧ (i < GetNDevices s →
          ∃ phy, (allRxPhys s)[i]? = some phy ∧ GetDevice deviceOf s i = .ok (deviceOf phy))
      ∧ GetDevice deviceOf s i ≠ .error Fatal.numDevicesTooLarge
      ∧ (UidMap.keys s.m_rxSpectrumModelInfoMap).Pairwise (· < ·) := by
  have hinv := h.invariant
  have hsome : i < GetNDevices s →
      ∃ phy, (allRxPhys s)[i]? = some phy ∧ GetDevice deviceOf s i = .ok (deviceOf phy) := by
    intro hi
    have hi' : i < (allRxPhys s).length := by rw [← hinv.count]; exact hi
    refine ⟨(allRxPhys s)[i], List.getElem?_eq_getElem hi', ?_⟩
    rw [GetDevice_eq, if_pos (show i < s.m_numDevices from hi), List.getElem?_eq_getElem hi']
  refine ⟨⟨?_, fun hi => ?_⟩, hsome, ?_, hinv.rxSorted⟩
  · rintro ⟨d, hd⟩
    by_contra hc
    rw [GetDevice_eq, if_neg (show ¬ i < s.m_numDevices from hc)] at hd
    cases hd
  · obtain ⟨phy, _, hg⟩ := hsome hi
    exact ⟨_, hg⟩
  · by_cases hi : i < GetNDevices s
    · obtain ⟨phy, _, hg⟩ := hsome hi
      rw [hg]
      exact fun hx => by cases hx
    · rw [GetDevice_eq, if_neg (show ¬ i < s.m_numDevices from hi)]
      exact fun hx => by cases hx

theorem GetDevice_spec_witness :
    Reachable exampleIsOrthogonal exampleChannel
      ∧ ((∃ d, GetDevice (fun phy => some ⟨phy + 100, phy⟩) exampleChannel 1 = .ok d)
          ↔ 1 < GetNDevices exampleChannel)
      ∧ (1 < GetNDevices exampleChannel →
          ∃ phy, (allRxPhys exampleChannel)[1]? = some phy
            ∧ GetDevice (fun phy => some ⟨phy + 100, phy⟩) exampleChannel 1
                = .ok ((fun phy => some ⟨phy + 100, phy⟩) phy))
      ∧ GetDevice (fun phy => some ⟨phy + 100, phy⟩) exampleChannel 1
          ≠ .error Fatal.numDevicesTooLarge
      ∧ (UidMap.keys exampleChannel.m_rxSpectrumModelInfoMap).Pairwise (· < ·) :=
  ⟨exampleChannel_reachable,
    GetDevice_spec exampleIsOrthogonal exampleChannel exampleChannel_reachable
      (fun phy => some ⟨phy + 100, phy⟩) 1⟩

/-! ## The link computation of `StartTx` (C14) -/

theorem StartTx.linkGains_eq (env : Environment) (base : SpectrumChannelLinkModels)
    (rxParams : SpectrumSignalParameters) (txMobility receiverMobility : Nat)
    (rxAntennaObject : Option AntennaObject) :
    StartTx.linkGains env base rxParams txMobility receiverMobility rxAntennaObject
      = { txAntennaGain := specTxAntennaGain env rxParams.txAntenna txMobility receiverMobility,
          rxAntennaGain := specRxAntennaGain env rxAntennaObject txMobility receiverMobility,
          propagationGainDb := specPropagationGain env base txMobility receiverMobility,
          pathLossDb := specPathLoss env base rxParams.txAntenna rxAntennaObject
            txMobility receiverMobility } := by
  unfold StartTx.linkGains specPathLoss specTxAntennaGain specRxAntennaGain
    specPropagationGain
  cases rxParams.txAntenna <;> cases dynamicCastAntennaModel rxAntennaObject <;>
    cases base.m_propagationLoss <;> simp

theorem scheduledCalls_append (a b : List Effect) :
    scheduledCalls (a ++ b) = scheduledCalls a ++ scheduledCalls b := by
  simp [scheduledCalls, List.filterMap_append]

theorem inRangeReceiver_eq_true_iff (env : Environment) (base : SpectrumChannelLinkModels)
    (txParams : SpectrumSignalParameters) (txPhy : SpectrumPhy) (rxPhy : Nat) :
    inRangeReceiver env base txParams txPhy rxPhy = true
      ↔ rxPhy ≠ txPhy.ptr
        ∧ StartTx.sameNode (env.phy rxPhy).device txPhy.device = false
        ∧ StartTx.vetoed base txParams rxPhy = false
        ∧ outOfRange env base txParams txPhy rxPhy = false := by
  unfold inRangeReceiver StartTx.sameNode StartTx.vetoed
  cases (env.phy rxPhy).device <;> cases txPhy.device <;> cases base.m_filter <;>
    simp [and_assoc]

/-- The body of the inner loop of `StartTx` in closed form. -/
theorem StartTx.rxPhy_eq (env : Environment) (base : SpectrumChannelLinkModels)
    (txParams : SpectrumSignalParameters) (txPhy : SpectrumPhy) (psd : SpectrumValue)
    (uid rxPhy : Nat) (m : SpectrumModel) (hm : (env.phy rxPhy).rxSpectrumModel = some m)
    (hu : m.uid = uid) :
    StartTx.rxPhy env base txParams txPhy psd uid rxPhy
      = if rxPhy = txPhy.ptr ∨ StartTx.sameNode (env.phy rxPhy).device txPhy.device = true
            ∨ StartTx.vetoed base txParams rxPhy = true then ([], none)
        else
          match txPhy.mobility, (env.phy rxPhy).mobility with
          | some txMobility, some receiverMobility =>
            ([Effect.gainTrace txMobility receiverMobility
                (specTxAntennaGain env txParams.txAntenna txMobility receiverMobility)
                (specRxAntennaGain env (env.phy rxPhy).antenna txMobility receiverMobility)
                (specPropagationGain env base txMobility receiverMobility)
                (specPathLoss env base txParams.txAntenna (env.phy rxPhy).antenna
                  txMobility receiverMobility),
              Effect.pathLossTrace txPhy.ptr rxPhy
                (specPathLoss env base txParams.txAntenna (env.phy rxPhy).antenna
                  txMobility receiverMobility)]
              ++ (if specPathLoss env base txParams.txAntenna (env.phy rxPhy).antenna
                    txMobility receiverMobility > base.m_maxLossDb then []
                  else [Effect.schedule ((env.phy rxPhy).device.map NetDevice.nodeId)
                    (match base.m_propagationDelay with
                      | some getDelay => getDelay txMobility receiverMobility
                      | none => 0)
                    { txParams with psd := some (env.scale psd (env.pow 10
                        ((-(specPathLoss env base txParams.txAntenna (env.phy rxPhy).antenna
                          txMobility receiverMobility)) / 10))) } rxPhy]), none)
          | _, _ =>
            ([Effect.schedule ((env.phy rxPhy).device.map NetDevice.nodeId) 0
              { txParams with psd := some psd } rxPhy], none) := by
  unfold StartTx.rxPhy
  simp only [hm, hu, ne_eq, not_true_eq_false, if_false]
  by_cases h1 : rxPhy = txPhy.ptr
  · simp [h1]
  · by_cases h2 : StartTx.sameNode (env.phy rxPhy).device txPhy.device = true
    · simp [h1, h2]
    · by_cases h3 : StartTx.vetoed base txParams rxPhy = true
      · simp [h1, h2, h3]
      · have h2' : StartTx.sameNode (env.phy rxPhy).device txPhy.device = false := by
          simpa using h2
        have h3' : StartTx.vetoed base txParams rxPhy = false := by simpa using h3
        simp only [h1, h2', h3', Bool.false_eq_true, or_self, if_false]
        cases txPhy.mobility with
        | none => rfl
        | some txMobility =>
          cases (env.phy rxPhy).mobility with
          | none => rfl
          | some receiverMobility =>
            simp only [StartTx.linkGains_eq]
            split_ifs <;> rfl

theorem outOfRange_of_mobility (env : Environment) (base : SpectrumChannelLinkModels)
    (txParams : SpectrumSignalParameters) (txPhy : SpectrumPhy) (rxPhy : Nat)
    (txMobility receiverMobility : Nat) (ht : txPhy.mobility = some txMobility)
    (hr : (env.phy rxPhy).mobility = some receiverMobility) :
    outOfRange env base txParams txPhy rxPhy
      = decide (specPathLoss env base txParams.txAntenna (env.phy rxPhy).antenna
          txMobility receiverMobility > base.m_maxLossDb) := by
  simp only [outOfRange, ht, hr]

theorem outOfRange_of_no_mobility (env : Environment) (base : SpectrumChannelLinkModels)
    (txParams : SpectrumSignalParameters) (txPhy : SpectrumPhy) (rxPhy : Nat)
    (h : txPhy.mobility = none ∨ (env.phy rxPhy).mobility = none) :
    outOfRange env base txParams txPhy rxPhy = false := by
  unfold outOfRange
  rcases h with h | h
  · rw [h]
  · rw [h]; cases txPhy.mobility <;> rfl

/-- What one pass through the body of the inner loop of `StartTx` schedules: nothing, or
exactly one call, for the endpoint at hand, which is then a receiver the spec asks a call
for; without mobility on either side the call has delay 0 and the PSD of the signal. -/
theorem StartTx.rxPhy_scheduled (env : Environment) (base : SpectrumChannelLinkModels)
    (txParams : SpectrumSignalParameters) (txPhy : SpectrumPhy) (psd : SpectrumValue)
    (uid rxPhy : Nat) :
    scheduledCalls (StartTx.rxPhy env base txParams txPhy psd uid rxPhy).1 = []
      ∨ (inRangeReceiver env base txParams txPhy rxPhy = true
          ∧ (env.phy rxPhy).rxSpectrumModel.map SpectrumModel.uid = some uid
          ∧ ∃ c, scheduledCalls (StartTx.rxPhy env base txParams txPhy psd uid rxPhy).1 = [c]
              ∧ c.receiver = rxPhy
              ∧ c.context = (env.phy rxPhy).device.map NetDevice.nodeId
              ∧ c.rxParams.txPhy = txParams.txPhy
              ∧ c.rxParams.txAntenna = txParams.txAntenna
              ∧ ((txPhy.mobility = none ∨ (env.phy rxPhy).mobility = none) →
                  c.delay = 0 ∧ c.rxParams.psd = some psd)) := by
  cases hm : (env.phy rxPhy).rxSpectrumModel with
  | none => left; simp [StartTx.rxPhy, hm, scheduledCalls]
  | some m =>
    by_cases hu : m.uid = uid
    · rw [StartTx.rxPhy_eq env base txParams txPhy psd uid rxPhy m hm hu]
      by_cases hskip : rxPhy = txPhy.ptr
          ∨ StartTx.sameNode (env.phy rxPhy).device txPhy.device = true
          ∨ StartTx.vetoed base txParams rxPhy = true
      · left; simp [hskip, scheduledCalls]
      · rw [if_neg hskip]
        simp only [not_or, Bool.not_eq_true] at hskip
        cases ht : txPhy.mobility with
        | none =>
          right
          refine ⟨?_, by simp [hu], _, rfl, rfl, rfl, rfl, rfl, fun _ => ⟨rfl, rfl⟩⟩
          rw [inRangeReceiver_eq_true_iff]
          exact ⟨hskip.1, hskip.2.1, hskip.2.2,
            outOfRange_of_no_mobility env base txParams txPhy rxPhy (Or.inl ht)⟩
        | some txMobility =>
          cases hr : (env.phy rxPhy).mobility with
          | none =>
            right
            refine ⟨?_, by simp [hu], _, rfl, rfl, rfl, rfl, rfl, fun _ => ⟨rfl, rfl⟩⟩
            rw [inRangeReceiver_eq_true_iff]
            exact ⟨hskip.1, hskip.2.1, hskip.2.2,
              outOfRange_of_no_mobility env base txParams txPhy rxPhy (Or.inr hr)⟩
          | some receiverMobility =>
            simp only
            by_cases hout : specPathLoss env base txParams.txAntenna (env.phy rxPhy).antenna
                txMobility receiverMobility > base.m_maxLossDb
            · left; simp [hout, scheduledCalls, Effect.scheduled]
            · right
              refine ⟨?_, by simp [hu], ?_⟩
              · rw [inRangeReceiver_eq_true_iff]
                refine ⟨hskip.1, hskip.2.1, hskip.2.2, ?_⟩
                rw [outOfRange_of_mobility env base txParams txPhy rxPhy _ _ ht hr]
                simpa using hout
              · rw [if_neg hout]
                refine ⟨_, rfl, rfl, rfl, rfl, rfl, ?_⟩
                rintro (h | h)
                · cases h
                · cases h
    · left
      simp [StartTx.rxPhy, hm, hu, scheduledCalls]

/-- For an endpoint that reports the uid of its bucket the body of the inner loop does
not abort, and it schedules one call exactly when the spec asks for one. -/
theorem StartTx.rxPhy_notified (env : Environment) (base : SpectrumChannelLinkModels)
    (txParams : SpectrumSignalParameters) (txPhy : SpectrumPhy) (psd : SpectrumValue)
    (uid rxPhy : Nat)
    (hn : (env.phy rxPhy).rxSpectrumModel.map SpectrumModel.uid = some uid) :
    (StartTx.rxPhy env base txParams txPhy psd uid rxPhy).2 = none
      ∧ (scheduledCalls (StartTx.rxPhy env base txParams txPhy psd uid rxPhy).1).map
          ScheduledRx.receiver
        = if inRangeReceiver env base txParams txPhy rxPhy = true then [rxPhy] else [] := by
  cases hm : (env.phy rxPhy).rxSpectrumModel with
  | none => simp [hm] at hn
  | some m =>
    have hu : m.uid = uid := by simpa [hm] using hn
    rw [StartTx.rxPhy_eq env base txParams txPhy psd uid rxPhy m hm hu]
    by_cases hskip : rxPhy = txPhy.ptr
        ∨ StartTx.sameNode (env.phy rxPhy).device txPhy.device = true
        ∨ StartTx.vetoed base txParams rxPhy = true
    · have hin : inRangeReceiver env base txParams txPhy rxPhy ≠ true := by
        rw [Ne, inRangeReceiver_eq_true_iff]
        rintro ⟨h1, h2, h3, _⟩
        rcases hskip with h | h | h
        · exact h1 h
        · rw [h2] at h; cases h
        · rw [h3] at h; cases h
      simp [hskip, hin, scheduledCalls]
    · rw [if_neg hskip]
      simp only [not_or, Bool.not_eq_true] at hskip
      have hin : inRangeReceiver env base txParams txPhy rxPhy = true
          ↔ outOfRange env base txParams txPhy rxPhy = false := by
        rw [inRangeReceiver_eq_true_iff]
        exact ⟨fun h => h.2.2.2, fun h => ⟨hskip.1, hskip.2.1, hskip.2.2, h⟩⟩
      cases ht : txPhy.mobility with
      | none =>
        have := outOfRange_of_no_mobility env base txParams txPhy rxPhy (Or.inl ht)
        simp [hin.2 this, scheduledCalls, Effect.scheduled]
      | some txMobility =>
        cases hr : (env.phy rxPhy).mobility with
        | none =>
          have := outOfRange_of_no_mobility env base txParams txPhy rxPhy (Or.inr hr)
          simp [hin.2 this, scheduledCalls, Effect.scheduled]
        | some receiverMobility =>
          have ho := outOfRange_of_mobility env base txParams txPhy rxPhy _ _ ht hr
          by_cases hout : specPathLoss env base txParams.txAntenna (env.phy rxPhy).antenna
              txMobility receiverMobility > base.m_maxLossDb
          · have hin' : inRangeReceiver env base txParams txPhy rxPhy ≠ true := by
              rw [Ne, hin, ho]; simpa using hout
            simp [hout, hin', scheduledCalls, Effect.scheduled]
          · have hin' : inRangeReceiver env base txParams txPhy rxPhy = true := by
              rw [hin, ho]; simpa using hout
            simp [hout, hin', scheduledCalls, Effect.scheduled]

/-! ## The loops of `StartTx` -/

theorem StartTx.rxPhys_cons (env : Environment) (base : SpectrumChannelLinkModels)
    (txParams : SpectrumSignalParameters) (txPhy : SpectrumPhy) (psd : SpectrumValue)
    (uid rxPhy : Nat) (rest : List Nat) :
    StartTx.rxPhys env base txParams txPhy psd uid (rxPhy :: rest)
      = match (StartTx.rxPhy env base txParams txPhy psd uid rxPhy).2 with
        | some e => ((StartTx.rxPhy env base txParams txPhy psd uid rxPhy).1, some e)
        | none =>
          ((StartTx.rxPhy env base txParams txPhy psd uid rxPhy).1
              ++ (StartTx.rxPhys env base txParams txPhy psd uid rest).1,
            (StartTx.rxPhys env base txParams txPhy psd uid rest).2) := by
  rcases hstep : StartTx.rxPhy env base txParams txPhy psd uid rxPhy with ⟨effs, _ | e⟩ <;>
    simp only [StartTx.rxPhys, hstep]

theorem StartTx.rxInfos_cons (env : Environment) (base : SpectrumChannelLinkModels)
    (txParams : SpectrumSignalParameters) (txPhy : SpectrumPhy) (psd : SpectrumValue)
    (e : Nat × RxSpectrumModelInfo) (rest : RxSpectrumModelInfoMap_t) :
    StartTx.rxInfos env base txParams txPhy psd (e :: rest)
      = match (StartTx.rxPhys env base txParams txPhy psd e.2.m_rxSpectrumModel.uid
            e.2.m_rxPhys).2 with
        | some f =>
          ((StartTx.rxPhys env base txParams txPhy psd e.2.m_rxSpectrumModel.uid
            e.2.m_rxPhys).1, some f)
        | none =>
          ((StartTx.rxPhys env base txParams txPhy psd e.2.m_rxSpectrumModel.uid
              e.2.m_rxPhys).1 ++ (StartTx.rxInfos env base txParams txPhy psd rest).1,
            (StartTx.rxInfos env base txParams txPhy psd rest).2) := by
  obtain ⟨k, info⟩ := e
  rcases hstep : StartTx.rxPhys env base txParams txPhy psd info.m_rxSpectrumModel.uid
    info.m_rxPhys with ⟨effs, _ | f⟩ <;> simp only [StartTx.rxInfos, hstep]

/-- A call scheduled by the inner loop is scheduled by one pass through its body. -/
theorem StartTx.rxPhys_mem (env : Environment) (base : SpectrumChannelLinkModels)
    (txParams : SpectrumSignalParameters) (txPhy : SpectrumPhy) (psd : SpectrumValue)
    (uid : Nat) (l : List Nat) (c : ScheduledRx)
    (hc : c ∈ scheduledCalls (StartTx.rxPhys env base txParams txPhy psd uid l).1) :
    ∃ rxPhy ∈ l, c ∈ scheduledCalls (StartTx.rxPhy env base txParams txPhy psd uid rxPhy).1 := by
  induction l with
  | nil => simp [StartTx.rxPhys, scheduledCalls] at hc
  | cons p rest ih =>
    rw [StartTx.rxPhys_cons] at hc
    cases hf : (StartTx.rxPhy env base txParams txPhy psd uid p).2 with
    | some e =>
      rw [hf] at hc
      exact ⟨p, List.mem_cons_self _ _, hc⟩
    | none =>
      rw [hf] at hc
      simp only [scheduledCalls_append, List.mem_append] at hc
      rcases hc with h | h
      · exact ⟨p, List.mem_cons_self _ _, h⟩
      · obtain ⟨q, hq, hcq⟩ := ih h
        exact ⟨q, List.mem_cons_of_mem _ hq, hcq⟩

theorem StartTx.rxInfos_mem (env : Environment) (base : SpectrumChannelLinkModels)
    (txParams : SpectrumSignalParameters) (txPhy : SpectrumPhy) (psd : SpectrumValue)
    (m : RxSpectrumModelInfoMap_t) (c : ScheduledRx)
    (hc : c ∈ scheduledCalls (StartTx.rxInfos env base txParams txPhy psd m).1) :
    ∃ e ∈ m, ∃ rxPhy ∈ e.2.m_rxPhys,
      c ∈ scheduledCalls
        (StartTx.rxPhy env base txParams txPhy psd e.2.m_rxSpectrumModel.uid rxPhy).1 := by
  induction m with
  | nil => simp [StartTx.rxInfos, scheduledCalls] at hc
  | cons e rest ih =>
    rw [StartTx.rxInfos_cons] at hc
    cases hf : (StartTx.rxPhys env base txParams txPhy psd e.2.m_rxSpectrumModel.uid
        e.2.m_rxPhys).2 with
    | some f =>
      rw [hf] at hc
      obtain ⟨p, hp, hcp⟩ := StartTx.rxPhys_mem env base txParams txPhy psd _ _ c hc
      exact ⟨e, List.mem_cons_self _ _, p, hp, hcp⟩
    | none =>
      rw [hf] at hc
      simp only [scheduledCalls_append, List.mem_append] at hc
      rcases hc with h | h
      · obtain ⟨p, hp, hcp⟩ := StartTx.rxPhys_mem env base txParams txPhy psd _ _ c h
        exact ⟨e, List.mem_cons_self _ _, p, hp, hcp⟩
      · obtain ⟨e', he', p, hp, hcp⟩ := ih h
        exact ⟨e', List.mem_cons_of_mem _ he', p, hp, hcp⟩

theorem StartTx.rxPhy_receivers_sublist (env : Environment) (base : SpectrumChannelLinkModels)
    (txParams : SpectrumSignalParameters) (txPhy : SpectrumPhy) (psd : SpectrumValue)
    (uid rxPhy : Nat) :
    ((scheduledCalls (StartTx.rxPhy env base txParams txPhy psd uid rxPhy).1).map
      ScheduledRx.receiver).Sublist [rxPhy] := by
  rcases StartTx.rxPhy_scheduled env base txParams txPhy psd uid rxPhy with
    h | ⟨_, _, c, hc, hr, _⟩
  · rw [h]; exact List.nil_sublist _
  · rw [hc]; simp [hr]

/-- The receivers of the calls scheduled by the inner loop, in the order of the calls,
are picked from the bucket in its order. -/
theorem StartTx.rxPhys_receivers_sublist (env : Environment) (base : SpectrumChannelLinkModels)
    (txParams : SpectrumSignalParameters) (txPhy : SpectrumPhy) (psd : SpectrumValue)
    (uid : Nat) (l : List Nat) :
    ((scheduledCalls (StartTx.rxPhys env base txParams txPhy psd uid l).1).map
      ScheduledRx.receiver).Sublist l := by
  induction l with
  | nil => simp [StartTx.rxPhys, scheduledCalls]
  | cons p rest ih =>
    rw [StartTx.rxPhys_cons]
    have hstep := StartTx.rxPhy_receivers_sublist env base txParams txPhy psd uid p
    cases hf : (StartTx.rxPhy env base txParams txPhy psd uid p).2 with
    | some e =>
      simp only
      exact hstep.trans (by simp)
    | none =>
      simp only [scheduledCalls_append, List.map_append]
      exact List.Sublist.append hstep ih

theorem StartTx.rxInfos_receivers_sublist (env : Environment) (base : SpectrumChannelLinkModels)
    (txParams : SpectrumSignalParameters) (txPhy : SpectrumPhy) (psd : SpectrumValue)
    (m : RxSpectrumModelInfoMap_t) :
    ((scheduledCalls (StartTx.rxInfos env base txParams txPhy psd m).1).map
      ScheduledRx.receiver).Sublist ((m.map (fun e => e.2.m_rxPhys)).flatten) := by
  induction m with
  | nil => simp [StartTx.rxInfos, scheduledCalls]
  | cons e rest ih =>
    rw [StartTx.rxInfos_cons]
    have hstep := StartTx.rxPhys_receivers_sublist env base txParams txPhy psd
      e.2.m_rxSpectrumModel.uid e.2.m_rxPhys
    simp only [List.map_cons, List.flatten_cons]
    cases hf : (StartTx.rxPhys env base txParams txPhy psd e.2.m_rxSpectrumModel.uid
        e.2.m_rxPhys).2 with
    | some f =>
      simp only
      exact hstep.trans (List.sublist_append_left _ _)
    | none =>
      simp only [scheduledCalls_append, List.map_append]
      exact List.Sublist.append hstep ih

/-- When every endpoint of the bucket reports the uid of the bucket, the inner loop does
not abort and schedules one call for each endpoint the spec asks a call for. -/
theorem StartTx.rxPhys_notified (env : Environment) (base : SpectrumChannelLinkModels)
    (txParams : SpectrumSignalParameters) (txPhy : SpectrumPhy) (psd : SpectrumValue)
    (uid : Nat) (l : List Nat)
    (hn : ∀ phy ∈ l, (env.phy phy).rxSpectrumModel.map SpectrumModel.uid = some uid) :
    (StartTx.rxPhys env base txParams txPhy psd uid l).2 = none
      ∧ (scheduledCalls (StartTx.rxPhys env base txParams txPhy psd uid l).1).map
          ScheduledRx.receiver
        = l.filter (fun phy => inRangeReceiver env base txParams txPhy phy) := by
  induction l with
  | nil => simp [StartTx.rxPhys, scheduledCalls]
  | cons p rest ih =>
    obtain ⟨h1, h2⟩ := StartTx.rxPhy_notified env base txParams txPhy psd uid p
      (hn p (List.mem_cons_self _ _))
    obtain ⟨h3, h4⟩ := ih (fun q hq => hn q (List.mem_cons_of_mem _ hq))
    rw [StartTx.rxPhys_cons, h1]
    simp only [scheduledCalls_append, List.map_append, h2, h3, h4, List.filter_cons, true_and]
    split_ifs <;> simp

theorem StartTx.rxInfos_notified (env : Environment) (base : SpectrumChannelLinkModels)
    (txParams : SpectrumSignalParameters) (txPhy : SpectrumPhy) (psd : SpectrumValue)
    (m : RxSpectrumModelInfoMap_t)
    (hn : ∀ e ∈ m, ∀ phy ∈ e.2.m_rxPhys,
      (env.phy phy).rxSpectrumModel.map SpectrumModel.uid = some e.2.m_rxSpectrumModel.uid) :
    (StartTx.rxInfos env base txParams txPhy psd m).2 = none
      ∧ (scheduledCalls (StartTx.rxInfos env base txParams txPhy psd m).1).map
          ScheduledRx.receiver
        = ((m.map (fun e => e.2.m_rxPhys)).flatten).filter
            (fun phy => inRangeReceiver env base txParams txPhy phy) := by
  induction m with
  | nil => simp [StartTx.rxInfos, scheduledCalls]
  | cons e rest ih =>
    obtain ⟨h1, h2⟩ := StartTx.rxPhys_notified env base txParams txPhy psd
      e.2.m_rxSpectrumModel.uid e.2.m_rxPhys (hn e (List.mem_cons_self _ _))
    obtain ⟨h3, h4⟩ := ih (fun e' he' => hn e' (List.mem_cons_of_mem _ he'))
    rw [StartTx.rxInfos_cons, h1]
    simp only [scheduledCalls_append, List.map_append, h2, h3, h4, List.map_cons,
      List.flatten_cons, List.filter_append, true_and]

/-! ## Scheduling calls of `StartTx` (C11, C12, C13) -/

theorem StartTx_eq (env : Environment) (base : SpectrumChannelLinkModels)
    (s : MultiModelSpectrumChannel) (txParams : SpectrumSignalParameters)
    (txPhy : SpectrumPhy) (psd : SpectrumValue) (ht : txParams.txPhy = some txPhy)
    (hp : txParams.psd = some psd) :
    StartTx env base s txParams
      = (s, Effect.txSigParamsTrace txParams
            :: (StartTx.rxInfos env base txParams txPhy psd s.m_rxSpectrumModelInfoMap).1,
          (StartTx.rxInfos env base txParams txPhy psd s.m_rxSpectrumModelInfoMap).2) := by
  simp only [StartTx, ht, hp]

theorem StartTx_scheduledCalls (env : Environment) (base : SpectrumChannelLinkModels)
    (s : MultiModelSpectrumChannel) (txParams : SpectrumSignalParameters)
    (txPhy : SpectrumPhy) (psd : SpectrumValue) (ht : txParams.txPhy = some txPhy)
    (hp : txParams.psd = some psd) :
    scheduledCalls (StartTx env base s txParams).2.1
      = scheduledCalls
          (StartTx.rxInfos env base txParams txPhy psd s.m_rxSpectrumModelInfoMap).1 := by
  rw [StartTx_eq env base s txParams txPhy psd ht hp]
  simp [scheduledCalls, Effect.scheduled]

theorem StartTx_scheduledCalls_of_none (env : Environment) (base : SpectrumChannelLinkModels)
    (s : MultiModelSpectrumChannel) (txParams : SpectrumSignalParameters)
    (h : txParams.txPhy = none ∨ txParams.psd = none) :
    scheduledCalls (StartTx env base s txParams).2.1 = [] := by
  unfold StartTx
  rcases h with h | h
  · simp [h, scheduledCalls]
  · cases txParams.txPhy <;> simp [h, scheduledCalls]

/-- Every scheduling call of `StartTx` comes from one pass through the body of the inner
loop, for an endpoint stored in a bucket. -/
theorem StartTx_scheduled_mem (env : Environment) (base : SpectrumChannelLinkModels)
    (s : MultiModelSpectrumChannel) (txParams : SpectrumSignalParameters) (c : ScheduledRx)
    (hc : c ∈ scheduledCalls (StartTx env base s txParams).2.1) :
    ∃ txPhy psd, txParams.txPhy = some txPhy ∧ txParams.psd = some psd
      ∧ ∃ e ∈ s.m_rxSpectrumModelInfoMap, ∃ rxPhy ∈ e.2.m_rxPhys,
          scheduledCalls (StartTx.rxPhy env base txParams txPhy psd
            e.2.m_rxSpectrumModel.uid rxPhy).1 = [c]
          ∧ inRangeReceiver env base txParams txPhy rxPhy = true
          ∧ c.receiver = rxPhy
          ∧ c.context = (env.phy rxPhy).device.map NetDevice.nodeId
          ∧ c.rxParams.txPhy = txParams.txPhy
          ∧ c.rxParams.txAntenna = txParams.txAntenna
          ∧ ((txPhy.mobility = none ∨ (env.phy rxPhy).mobility = none) →
              c.delay = 0 ∧ c.rxParams.psd = some psd) := by
  cases ht : txParams.txPhy with
  | none =>
    rw [StartTx_scheduledCalls_of_none env base s txParams (Or.inl ht)] at hc
    cases hc
  | some txPhy =>
    cases hp : txParams.psd with
    | none =>
      rw [StartTx_scheduledCalls_of_none env base s txParams (Or.inr hp)] at hc
      cases hc
    | some psd =>
      rw [StartTx_scheduledCalls env base s txParams txPhy psd ht hp] at hc
      obtain ⟨e, he, p, hp', hcp⟩ := StartTx.rxInfos_mem env base txParams txPhy psd _ c hc
      refine ⟨txPhy, psd, rfl, rfl, e, he, p, hp', ?_⟩
      rcases StartTx.rxPhy_scheduled env base txParams txPhy psd e.2.m_rxSpectrumModel.uid p
        with h | ⟨hin, _, c', hc', h1, h2, h3, h4, h5⟩
      · rw [h] at hcp; cases hcp
      · rw [hc'] at hcp
        have hcc : c = c' := by simpa using hcp
        subst hcc
        exact ⟨hc', hin, h1, h2, ht ▸ h3, h4, h5⟩

theorem mem_allRxPhys_iff (s : MultiModelSpectrumChannel) (phy : Nat) :
    phy ∈ allRxPhys s ↔ ∃ e ∈ s.m_rxSpectrumModelInfoMap, phy ∈ e.2.m_rxPhys := by
  simp only [allRxPhys, List.mem_flatten, List.mem_map]
  constructor
  · rintro ⟨l, ⟨e, he, rfl⟩, hp⟩
    exact ⟨e, he, hp⟩
  · rintro ⟨e, he, hp⟩
    exact ⟨_, ⟨e, he, rfl⟩, hp⟩

theorem Notified.model_uid {isOrthogonal : SpectrumModel → SpectrumModel → Bool}
    {env : Environment} {s : MultiModelSpectrumChannel} (hn : Notified env s)
    (hinv : Invariant isOrthogonal s) :
    ∀ e ∈ s.m_rxSpectrumModelInfoMap, ∀ phy ∈ e.2.m_rxPhys,
      (env.phy phy).rxSpectrumModel.map SpectrumModel.uid = some e.2.m_rxSpectrumModel.uid := by
  intro e he p hp
  rw [hinv.rxKey e he]
  exact hn e he p hp

/-- In a reachable state whose endpoints all report the uid of their bucket, `StartTx`
does not abort and the receivers of its scheduling calls are, in order, the stored
endpoints the spec asks a call for. -/
theorem StartTx_receivers (isOrthogonal : SpectrumModel → SpectrumModel → Bool)
    (env : Environment) (base : SpectrumChannelLinkModels) (s : MultiModelSpectrumChannel)
    (txParams : SpectrumSignalParameters) (txPhy : SpectrumPhy) (psd : SpectrumValue)
    (hinv : Invariant isOrthogonal s) (hn : Notified env s)
    (ht : txParams.txPhy = some txPhy) (hp : txParams.psd = some psd) :
    (StartTx env base s txParams).2.2 = none
      ∧ (scheduledCalls (StartTx env base s txParams).2.1).map ScheduledRx.receiver
        = (allRxPhys s).filter (fun phy => inRangeReceiver env base txParams txPhy phy) := by
  obtain ⟨h1, h2⟩ := StartTx.rxInfos_notified env base txParams txPhy psd
    s.m_rxSpectrumModelInfoMap (hn.model_uid hinv)
  rw [StartTx_scheduledCalls env base s txParams txPhy psd ht hp, h2,
    StartTx_eq env base s txParams txPhy psd ht hp]
  exact ⟨h1, rfl⟩

theorem count_filter_nodup (l : List Nat) (q : Nat → Bool) (hl : l.Nodup) (phy : Nat) :
    (l.filter q).count phy = if phy ∈ l ∧ q phy = true then 1 else 0 := by
  split_ifs with h
  · exact List.count_eq_one_of_mem (hl.filter q) (List.mem_filter.2 h)
  · exact List.count_eq_zero_of_not_mem (fun hx => h (List.mem_filter.1 hx))

/-- The calls of `StartTx` counted per endpoint, in a state that satisfies the invariant
and whose endpoints all report the uid of their bucket. -/
theorem StartTx_calls_per_receiver
    (isOrthogonal : SpectrumModel → SpectrumModel → Bool)
    (env : Environment) (base : SpectrumChannelLinkModels) (s : MultiModelSpectrumChannel)
    (txParams : SpectrumSignalParameters) (txPhy : SpectrumPhy) (psd : SpectrumValue)
    (hinv : Invariant isOrthogonal s) (hn : Notified env s)
    (ht : txParams.txPhy = some txPhy) (hp : txParams.psd = some psd) :
    (StartTx env base s txParams).2.2 = none
      ∧ (scheduledCalls (StartTx env base s txParams).2.1).map ScheduledRx.receiver
          = (allRxPhys s).filter (fun phy => inRangeReceiver env base txParams txPhy phy)
      ∧ (∀ phy, ((scheduledCalls (StartTx env base s txParams).2.1).map
            ScheduledRx.receiver).count phy
          = if phy ∈ allRxPhys s ∧ inRangeReceiver env base txParams txPhy phy = true then 1
            else 0)
      ∧ (scheduledCalls (StartTx env base s txParams).2.1).length
          = ((allRxPhys s).filter
              (fun phy => inRangeReceiver env base txParams txPhy phy)).length := by
  obtain ⟨h1, h2⟩ := StartTx_receivers isOrthogonal env base s txParams txPhy psd hinv hn ht hp
  refine ⟨h1, h2, ?_, ?_⟩
  · intro phy
    rw [h2]
    exact count_filter_nodup _ _ hinv.nodup phy
  · rw [← h2, List.length_map]

/-- C11. No self-delivery: in every channel state, for every signal whose transmitting
endpoint is `txPhy`, no scheduling call of `StartTx` has `txPhy` as its receiver, whether
or not `txPhy` is stored in a bucket and whatever filter, mobility, loss and delay models
are configured. -/
theorem no_self_delivery (env : Environment) (base : SpectrumChannelLinkModels)
    (s : MultiModelSpectrumChannel) (txParams : SpectrumSignalParameters)
    (txPhy : SpectrumPhy) (ht : txParams.txPhy = some txPhy) :
    ∀ c ∈ scheduledCalls (StartTx env base s txParams).2.1, c.receiver ≠ txPhy.ptr := by
  intro c hc
  obtain ⟨txPhy', psd, ht', _, e, _, p, _, _, hin, hr, _⟩ :=
    StartTx_scheduled_mem env base s txParams c hc
  rw [ht] at ht'
  cases ht'
  rw [hr]
  exact ((inRangeReceiver_eq_true_iff env base txParams txPhy p).1 hin).1

theorem no_self_delivery_witness :
    11 ∈ allRxPhys exampleChannel
      ∧ ∀ c ∈ scheduledCalls (StartTx exampleEnvironment exampleLinkModels exampleChannel
          { psd := some ⟨⟨1⟩, [1, 1]⟩, txPhy := some (exampleEnvironment.phy 11),
            txAntenna := none }).2.1,
        c.receiver ≠ (exampleEnvironment.phy 11).ptr :=
  ⟨by decide,
    no_self_delivery exampleEnvironment exampleLinkModels exampleChannel
      { psd := some ⟨⟨1⟩, [1, 1]⟩, txPhy := some (exampleEnvironment.phy 11),
        txAntenna := none } (exampleEnvironment.phy 11) rfl⟩

/-- C12. Exactly one scheduling call per in-range receiver: in every reachable state in
which each stored endpoint reports the uid of its bucket, `StartTx` completes; the
receivers of its scheduling calls are, in order, the stored endpoints that are not the
transmitter, not on the node of the transmitter (when both have devices), not vetoed by
the filter and not out of range; each of them gets exactly one call, no other endpoint
gets one, and the number of calls is the number of such endpoints. -/
theorem one_call_per_in_range_receiver (isOrthogonal : SpectrumModel → SpectrumModel → Bool)
    (env : Environment) (base : SpectrumChannelLinkModels) (s : MultiModelSpectrumChannel)
    (txParams : SpectrumSignalParameters) (txPhy : SpectrumPhy) (psd : SpectrumValue)
    (h : Reachable isOrthogonal s) (hn : Notified env s)
    (ht : txParams.txPhy = some txPhy) (hp : txParams.psd = some psd) :
    (StartTx env base s txParams).2.2 = none
      ∧ (scheduledCalls (StartTx env base s txParams).2.1).map ScheduledRx.receiver
          = (allRxPhys s).filter (fun phy => inRangeReceiver env base txParams txPhy phy)
      ∧ (∀ phy, ((scheduledCalls (StartTx env base s txParams).2.1).map
            ScheduledRx.receiver).count phy
          = if phy ∈ allRxPhys s ∧ inRangeReceiver env base txParams txPhy phy = true then 1
            else 0)
      ∧ (scheduledCalls (StartTx env base s txParams).2.1).length
          = ((allRxPhys s).filter
              (fun phy => inRangeReceiver env base txParams txPhy phy)).length := by
  exact StartTx_calls_per_receiver isOrthogonal env base s txParams txPhy psd
    h.invariant hn ht hp

theorem one_call_per_in_range_receiver_witness :
    Reachable exampleIsOrthogonal exampleChannel ∧ Notified exampleEnvironment exampleChannel
      ∧ (StartTx exampleEnvironment exampleLinkModels exampleChannel exampleTxParams).2.2 = none
      ∧ (scheduledCalls (StartTx exampleEnvironment exampleLinkModels exampleChannel
            exampleTxParams).2.1).map ScheduledRx.receiver
          = (allRxPhys exampleChannel).filter
              (fun phy => inRangeReceiver exampleEnvironment exampleLinkModels exampleTxParams
                exampleTxPhy phy) :=
  ⟨exampleChannel_reachable, by unfold Notified; decide,
    (one_call_per_in_range_receiver exampleIsOrthogonal exampleEnvironment exampleLinkModels
      exampleChannel exampleTxParams exampleTxPhy ⟨⟨2⟩, [1, 1]⟩ exampleChannel_reachable
      (by unfold Notified; decide) rfl rfl).1,
    (one_call_per_in_range_receiver exampleIsOrthogonal exampleEnvironment exampleLinkModels
      exampleChannel exampleTxParams exampleTxPhy ⟨⟨2⟩, [1, 1]⟩ exampleChannel_reachable
      (by unfold Notified; decide) rfl rfl).2.1⟩

/-! ## Range, path loss, order of the calls, links without mobility (C13 to C16) -/

theorem StartTx.rxPhys_effects (env : Environment) (base : SpectrumChannelLinkModels)
    (txParams : SpectrumSignalParameters) (txPhy : SpectrumPhy) (psd : SpectrumValue)
    (uid : Nat) (l : List Nat)
    (hn : ∀ phy ∈ l, (env.phy phy).rxSpectrumModel.map SpectrumModel.uid = some uid) :
    (StartTx.rxPhys env base txParams txPhy psd uid l).1
      = (l.map (fun phy => (StartTx.rxPhy env base txParams txPhy psd uid phy).1)).flatten := by
  induction l with
  | nil => rfl
  | cons p rest ih =>
    rw [StartTx.rxPhys_cons,
      (StartTx.rxPhy_notified env base txParams txPhy psd uid p
        (hn p (List.mem_cons_self _ _))).1,
      ih (fun q hq => hn q (List.mem_cons_of_mem _ hq))]
    simp

theorem StartTx.rxInfos_effects (env : Environment) (base : SpectrumChannelLinkModels)
    (txParams : SpectrumSignalParameters) (txPhy : SpectrumPhy) (psd : SpectrumValue)
    (m : RxSpectrumModelInfoMap_t)
    (hn : ∀ e ∈ m, ∀ phy ∈ e.2.m_rxPhys,
      (env.phy phy).rxSpectrumModel.map SpectrumModel.uid = some e.2.m_rxSpectrumModel.uid)
    (e : Nat × RxSpectrumModelInfo) (he : e ∈ m) (phy : Nat) (hp : phy ∈ e.2.m_rxPhys)
    (x : Effect)
    (hx : x ∈ (StartTx.rxPhy env base txParams txPhy psd e.2.m_rxSpectrumModel.uid phy).1) :
    x ∈ (StartTx.rxInfos env base txParams txPhy psd m).1 := by
  induction m with
  | nil => cases he
  | cons e' rest ih =>
    have h1 := StartTx.rxPhys_notified env base txParams txPhy psd
      e'.2.m_rxSpectrumModel.uid e'.2.m_rxPhys (hn e' (List.mem_cons_self _ _))
    rw [StartTx.rxInfos_cons, h1.1]
    simp only [List.mem_append]
    rcases List.mem_cons.1 he with h | h
    · left
      subst h
      rw [StartTx.rxPhys_effects env base txParams txPhy psd _ _
        (hn e (List.mem_cons_self _ _))]
      exact List.mem_flatten.2 ⟨_, List.mem_map.2 ⟨phy, hp, rfl⟩, hx⟩
    · right
      exact ih (fun e'' he'' => hn e'' (List.mem_cons_of_mem _ he'')) h

theorem scheduled_iff_inRange (isOrthogonal : SpectrumModel → SpectrumModel → Bool)
    (env : Environment) (base : SpectrumChannelLinkModels) (s : MultiModelSpectrumChannel)
    (txParams : SpectrumSignalParameters) (txPhy : SpectrumPhy) (psd : SpectrumValue)
    (hinv : Invariant isOrthogonal s) (hn : Notified env s)
    (ht : txParams.txPhy = some txPhy) (hp : txParams.psd = some psd) (rxPhy : Nat) :
    (∃ c ∈ scheduledCalls (StartTx env base s txParams).2.1, c.receiver = rxPhy)
      ↔ rxPhy ∈ allRxPhys s ∧ inRangeReceiver env base txParams txPhy rxPhy = true := by
  have h2 := (StartTx_receivers isOrthogonal env base s txParams txPhy psd hinv hn ht hp).2
  rw [← List.mem_filter (p := fun phy => inRangeReceiver env base txParams txPhy phy), ← h2,
    List.mem_map]

/-- C13. Range filtering: if the transmitter and the endpoint `rxPhy` both have a
mobility model, then (1) in every state, when the computed path loss is strictly greater
than the maximum loss, `StartTx` schedules no call for `rxPhy`; (2) when the path loss
equals the maximum loss exactly and `rxPhy` is stored in a bucket of a reachable state in
which each endpoint reports the uid of its bucket, is not the transmitter, not on its
node and not vetoed, `StartTx` completes and schedules exactly one call for `rxPhy`. -/
theorem range_filtering (isOrthogonal : SpectrumModel → SpectrumModel → Bool)
    (env : Environment) (base : SpectrumChannelLinkModels) (s : MultiModelSpectrumChannel)
    (txParams : SpectrumSignalParameters) (txPhy : SpectrumPhy) (psd : SpectrumValue)
    (rxPhy txMobility receiverMobility : Nat)
    (ht : txParams.txPhy = some txPhy) (hp : txParams.psd = some psd)
    (htm : txPhy.mobility = some txMobility)
    (hrm : (env.phy rxPhy).mobility = some receiverMobility) :
    ((StartTx.linkGains env base { txParams with psd := some psd } txMobility
          receiverMobility (env.phy rxPhy).antenna).pathLossDb > base.m_maxLossDb →
        ∀ c ∈ scheduledCalls (StartTx env base s txParams).2.1, c.receiver ≠ rxPhy)
      ∧ ((StartTx.linkGains env base { txParams with psd := some psd } txMobility
            receiverMobility (env.phy rxPhy).antenna).pathLossDb = base.m_maxLossDb →
          Reachable isOrthogonal s → Notified env s → rxPhy ∈ allRxPhys s →
          rxPhy ≠ txPhy.ptr → StartTx.sameNode (env.phy rxPhy).device txPhy.device = false →
          StartTx.vetoed base txParams rxPhy = false →
          (StartTx env base s txParams).2.2 = none
            ∧ ((scheduledCalls (StartTx env base s txParams).2.1).map
                ScheduledRx.receiver).count rxPhy = 1) := by
  rw [StartTx.linkGains_eq]
  simp only
  have ho := outOfRange_of_mobility env base txParams txPhy rxPhy _ _ htm hrm
  constructor
  · intro hgt c hc hr
    obtain ⟨txPhy', _, ht', _, e, _, p, _, _, hin, hr', _⟩ :=
      StartTx_scheduled_mem env base s txParams c hc
    rw [ht] at ht'
    cases ht'
    rw [hr'] at hr
    subst hr
    have := ((inRangeReceiver_eq_true_iff env base txParams txPhy p).1 hin).2.2.2
    rw [ho] at this
    simp only [decide_eq_false_iff_not] at this
    exact this hgt
  · intro heq hreach hn hreg h1 h2 h3
    obtain ⟨hok, _, hcount, _⟩ := StartTx_calls_per_receiver isOrthogonal env base s
      txParams txPhy psd hreach.invariant hn ht hp
    refine ⟨hok, ?_⟩
    rw [hcount rxPhy, if_pos]
    refine ⟨hreg, (inRangeReceiver_eq_true_iff env base txParams txPhy rxPhy).2
      ⟨h1, h2, h3, ?_⟩⟩
    rw [ho, heq]
    simp

theorem range_filtering_witness :
    ((StartTx.linkGains exampleEnvironment
          { exampleLinkModels with m_maxLossDb := -1 }
          { exampleTxParams with psd := some ⟨⟨2⟩, [1, 1]⟩ } 3 1
          (exampleEnvironment.phy 10).antenna).pathLossDb > -1
        ∧ ∀ c ∈ scheduledCalls (StartTx exampleEnvironment
            { exampleLinkModels with m_maxLossDb := -1 } exampleChannel exampleTxParams).2.1,
          c.receiver ≠ 10)
      ∧ ((StartTx.linkGains exampleEnvironment
            { exampleLinkModels with m_maxLossDb := 0 }
            { exampleTxParams with psd := some ⟨⟨2⟩, [1, 1]⟩ } 3 1
            (exampleEnvironment.phy 10).antenna).pathLossDb = 0
          ∧ Reachable exampleIsOrthogonal exampleChannel
          ∧ ((scheduledCalls (StartTx exampleEnvironment
                { exampleLinkModels with m_maxLossDb := 0 } exampleChannel
                exampleTxParams).2.1).map ScheduledRx.receiver).count 10 = 1) :=
  ⟨⟨by decide,
      (range_filtering exampleIsOrthogonal exampleEnvironment
        { exampleLinkModels with m_maxLossDb := -1 } exampleChannel exampleTxParams
        exampleTxPhy ⟨⟨2⟩, [1, 1]⟩ 10 3 1 rfl rfl rfl rfl).1 (by decide)⟩,
    ⟨by decide, exampleChannel_reachable,
      ((range_filtering exampleIsOrthogonal exampleEnvironment
        { exampleLinkModels with m_maxLossDb := 0 } exampleChannel exampleTxParams
        exampleTxPhy ⟨⟨2⟩, [1, 1]⟩ 10 3 1 rfl rfl rfl rfl).2 (by decide)
        exampleChannel_reachable (by unfold Notified; decide) (by decide) (by decide)
        (by decide) (by decide)).2⟩⟩

/-- C14. Path-loss composition: for a stored endpoint that is not skipped, in a reachable
state in which each endpoint reports the uid of its bucket, when both ends have a
mobility model `StartTx` emits the gain trace and the path-loss trace with the values of
its link computation, and schedules a call for the endpoint exactly when the path loss is
not greater than the maximum loss.  The traced and compared path loss is
`-(txAntennaGain) - (rxAntennaGain) - (propagationGain)`, where each gain is `0` when its
model is absent and the propagation gain is `0` when the two positions are identical; for
identical positions the path loss is `-(txAntennaGain + rxAntennaGain)`. -/
theorem path_loss_composition (isOrthogonal : SpectrumModel → SpectrumModel → Bool)
    (env : Environment) (base : SpectrumChannelLinkModels) (s : MultiModelSpectrumChannel)
    (txParams : SpectrumSignalParameters) (txPhy : SpectrumPhy) (psd : SpectrumValue)
    (rxPhy txMobility receiverMobility : Nat)
    (h : Reachable isOrthogonal s) (hn : Notified env s)
    (ht : txParams.txPhy = some txPhy) (hp : txParams.psd = some psd)
    (hreg : rxPhy ∈ allRxPhys s) (h1 : rxPhy ≠ txPhy.ptr)
    (h2 : StartTx.sameNode (env.phy rxPhy).device txPhy.device = false)
    (h3 : StartTx.vetoed base txParams rxPhy = false)
    (htm : txPhy.mobility = some txMobility)
    (hrm : (env.phy rxPhy).mobility = some receiverMobility) :
    StartTx.linkGains env base { txParams with psd := some psd } txMobility receiverMobility
        (env.phy rxPhy).antenna
      = { txAntennaGain := specTxAntennaGain env txParams.txAntenna txMobility receiverMobility,
          rxAntennaGain :=
            specRxAntennaGain env (env.phy rxPhy).antenna txMobility receiverMobility,
          propagationGainDb := specPropagationGain env base txMobility receiverMobility,
          pathLossDb := specPathLoss env base txParams.txAntenna (env.phy rxPhy).antenna
            txMobility receiverMobility }
      ∧ Effect.gainTrace txMobility receiverMobility
          (specTxAntennaGain env txParams.txAntenna txMobility receiverMobility)
          (specRxAntennaGain env (env.phy rxPhy).antenna txMobility receiverMobility)
          (specPropagationGain env base txMobility receiverMobility)
          (specPathLoss env base txParams.txAntenna (env.phy rxPhy).antenna
            txMobility receiverMobility) ∈ (StartTx env base s txParams).2.1
      ∧ Effect.pathLossTrace txPhy.ptr rxPhy
          (specPathLoss env base txParams.txAntenna (env.phy rxPhy).antenna
            txMobility receiverMobility) ∈ (StartTx env base s txParams).2.1
      ∧ ((∃ c ∈ scheduledCalls (StartTx env base s txParams).2.1, c.receiver = rxPhy)
          ↔ ¬ specPathLoss env base txParams.txAntenna (env.phy rxPhy).antenna
              txMobility receiverMobility > base.m_maxLossDb)
      ∧ (env.position txMobility = env.position receiverMobility →
          specPropagationGain env base txMobility receiverMobility = 0
            ∧ specPathLoss env base txParams.txAntenna (env.phy rxPhy).antenna
                txMobility receiverMobility
              = -(specTxAntennaGain env txParams.txAntenna txMobility receiverMobility
                  + specRxAntennaGain env (env.phy rxPhy).antenna txMobility
                      receiverMobility)) := by
  have hinv := h.invariant
  obtain ⟨e, he, hpe⟩ := (mem_allRxPhys_iff s rxPhy).1 hreg
  have hnm := hn.model_uid hinv
  have hmodel := hnm e he rxPhy hpe
  cases hm : (env.phy rxPhy).rxSpectrumModel with
  | none => simp [hm] at hmodel
  | some m =>
    have hu : m.uid = e.2.m_rxSpectrumModel.uid := by simpa [hm] using hmodel
    have hstep := StartTx.rxPhy_eq env base txParams txPhy psd _ rxPhy m hm hu
    have hskip : ¬ (rxPhy = txPhy.ptr
        ∨ StartTx.sameNode (env.phy rxPhy).device txPhy.device = true
        ∨ StartTx.vetoed base txParams rxPhy = true) := by
      simp [h1, h2, h3]
    rw [if_neg hskip] at hstep
    simp only [htm, hrm] at hstep
    have hmemEff : ∀ x ∈ (StartTx.rxPhy env base txParams txPhy psd
        e.2.m_rxSpectrumModel.uid rxPhy).1, x ∈ (StartTx env base s txParams).2.1 := by
      intro x hx
      rw [StartTx_eq env base s txParams txPhy psd ht hp]
      exact List.mem_cons_of_mem _
        (StartTx.rxInfos_effects env base txParams txPhy psd _ hnm e he rxPhy hpe x hx)
    refine ⟨StartTx.linkGains_eq _ _ _ _ _ _, ?_, ?_, ?_, ?_⟩
    · apply hmemEff
      rw [hstep]
      simp
    · apply hmemEff
      rw [hstep]
      simp
    · rw [scheduled_iff_inRange isOrthogonal env base s txParams txPhy psd hinv hn ht hp,
        inRangeReceiver_eq_true_iff, outOfRange_of_mobility env base txParams txPhy rxPhy _ _
          htm hrm]
      simp [hreg, h1, h2, h3]
    · intro hpos
      have hprop : specPropagationGain env base txMobility receiverMobility = 0 := by
        unfold specPropagationGain
        cases base.m_propagationLoss <;> simp [hpos]
      refine ⟨hprop, ?_⟩
      rw [specPathLoss, hprop]
      ring

theorem examplePathLoss :
    specPathLoss exampleGainEnvironment exampleLossLinkModels (some 9)
      (exampleGainEnvironment.phy 11).antenna 3 2 = -9 := by
  norm_num [specPathLoss, specTxAntennaGain, specRxAntennaGain, specPropagationGain,
    exampleGainEnvironment, exampleEnvironment, exampleLossLinkModels, exampleLinkModels,
    dynamicCastAntennaModel]

theorem path_loss_composition_witness :
    Reachable exampleIsOrthogonal exampleChannel
      ∧ Notified exampleGainEnvironment exampleChannel
      ∧ Effect.pathLossTrace 12 11
          (specPathLoss exampleGainEnvironment exampleLossLinkModels
            exampleAntennaTxParams.txAntenna (exampleGainEnvironment.phy 11).antenna 3 2)
          ∈ (StartTx exampleGainEnvironment exampleLossLinkModels exampleChannel
              exampleAntennaTxParams).2.1 :=
  ⟨exampleChannel_reachable, by unfold Notified; decide,
    (path_loss_composition exampleIsOrthogonal exampleGainEnvironment exampleLossLinkModels
      exampleChannel exampleAntennaTxParams exampleTxPhy ⟨⟨2⟩, [1, 1]⟩ 11 3 2
      exampleChannel_reachable (by unfold Notified; decide) rfl rfl (by decide) (by decide)
      (by decide) (by decide) rfl rfl).2.2.1⟩

/-- C15, as the code has it.  In every state, the receivers of the scheduling calls of
`StartTx`, taken in the order in which the calls are issued, form a subsequence of the
stored endpoints in registry iteration order, whatever the delays of the calls. -/
theorem scheduling_calls_in_registry_order (env : Environment)
    (base : SpectrumChannelLinkModels) (s : MultiModelSpectrumChannel)
    (txParams : SpectrumSignalParameters) :
    ((scheduledCalls (StartTx env base s txParams).2.1).map ScheduledRx.receiver).Sublist
      (allRxPhys s) := by
  cases ht : txParams.txPhy with
  | none =>
    rw [StartTx_scheduledCalls_of_none env base s txParams (Or.inl ht)]
    exact List.nil_sublist _
  | some txPhy =>
    cases hp : txParams.psd with
    | none =>
      rw [StartTx_scheduledCalls_of_none env base s txParams (Or.inr hp)]
      exact List.nil_sublist _
    | some psd =>
      rw [StartTx_scheduledCalls env base s txParams txPhy psd ht hp]
      exact StartTx.rxInfos_receivers_sublist env base txParams txPhy psd _

/-- C15 fails as stated: in the scenario, a reachable state in which each endpoint
reports the uid of its bucket, `StartTx` issues the call for endpoint 11 with delay 5
before the call for endpoint 10 with delay 1, so the sequence of calls is not in
non-decreasing order of the delay. -/
theorem scheduling_calls_not_sorted_by_delay :
    Reachable exampleIsOrthogonal exampleChannel ∧ Notified exampleEnvironment exampleChannel
      ∧ (StartTx exampleEnvironment exampleLinkModels exampleChannel exampleTxParams).2.2 = none
      ∧ (scheduledCalls (StartTx exampleEnvironment exampleLinkModels exampleChannel
          exampleTxParams).2.1).map (fun c => (c.receiver, c.delay)) = [(11, 5), (10, 1)]
      ∧ ¬ ((scheduledCalls (StartTx exampleEnvironment exampleLinkModels exampleChannel
          exampleTxParams).2.1).map ScheduledRx.delay).Pairwise (· ≤ ·) :=
  ⟨exampleChannel_reachable, by unfold Notified; decide, by decide, by decide, by decide⟩

/-- C16. No-mobility path: (1) in every state, a scheduling call of `StartTx` for a
receiver such that the transmitter or the receiver has no mobility model has delay 0 and
carries the signal with its PSD unchanged, whatever maximum loss, antenna, loss and delay
models are configured; (2) in a reachable state in which each endpoint reports the uid of
its bucket, a stored endpoint without mobility on either side that is not the
transmitter, not on its node and not vetoed gets exactly one such call. -/
theorem no_mobility_path (isOrthogonal : SpectrumModel → SpectrumModel → Bool)
    (env : Environment) (base : SpectrumChannelLinkModels) (s : MultiModelSpectrumChannel)
    (txParams : SpectrumSignalParameters) (txPhy : SpectrumPhy) (rxPhy : Nat)
    (ht : txParams.txPhy = some txPhy)
    (hmob : txPhy.mobility = none ∨ (env.phy rxPhy).mobility = none) :
    (∀ c ∈ scheduledCalls (StartTx env base s txParams).2.1, c.receiver = rxPhy →
        c.delay = 0 ∧ c.rxParams.psd = txParams.psd ∧ c.rxParams = txParams)
      ∧ (Reachable isOrthogonal s → Notified env s → txParams.psd ≠ none →
          rxPhy ∈ allRxPhys s → rxPhy ≠ txPhy.ptr →
          StartTx.sameNode (env.phy rxPhy).device txPhy.device = false →
          StartTx.vetoed base txParams rxPhy = false →
          (StartTx env base s txParams).2.2 = none
            ∧ ((scheduledCalls (StartTx env base s txParams).2.1).map
                ScheduledRx.receiver).count rxPhy = 1) := by
  constructor
  · intro c hc hr
    obtain ⟨txPhy', psd, ht', hp, e, _, p, _, _, _, hr', _, h3, h4, h5⟩ :=
      StartTx_scheduled_mem env base s txParams c hc
    rw [ht] at ht'
    cases ht'
    rw [hr'] at hr
    subst hr
    obtain ⟨hd, hpsd⟩ := h5 hmob
    refine ⟨hd, hpsd.trans hp.symm, ?_⟩
    obtain ⟨ctx, d, rp, r⟩ := c
    obtain ⟨p1, p2, p3⟩ := rp
    obtain ⟨q1, q2, q3⟩ := txParams
    simp only at h3 h4 hpsd hp
    simp only [SpectrumSignalParameters.mk.injEq]
    exact ⟨hpsd.trans hp.symm, h3, h4⟩
  · intro hreach hn hpsd hreg h1 h2 h3
    cases hp : txParams.psd with
    | none => exact absurd hp hpsd
    | some psd =>
      obtain ⟨hok, _, hcount, _⟩ := StartTx_calls_per_receiver isOrthogonal env base s
        txParams txPhy psd hreach.invariant hn ht hp
      refine ⟨hok, ?_⟩
      rw [hcount rxPhy, if_pos]
      exact ⟨hreg, (inRangeReceiver_eq_true_iff env base txParams txPhy rxPhy).2
        ⟨h1, h2, h3, outOfRange_of_no_mobility env base txParams txPhy rxPhy hmob⟩⟩

theorem no_mobility_path_witness :
    (∀ c ∈ scheduledCalls (StartTx exampleEnvironment exampleLinkModels exampleChannel
          { exampleTxParams with txPhy := some { exampleTxPhy with mobility := none } }).2.1,
        c.receiver = 10 →
          c.delay = 0 ∧ c.rxParams.psd = some ⟨⟨2⟩, [1, 1]⟩
            ∧ c.rxParams
              = { exampleTxParams with txPhy := some { exampleTxPhy with mobility := none } })
      ∧ (Reachable exampleIsOrthogonal exampleChannel
          ∧ ((scheduledCalls (StartTx exampleEnvironment exampleLinkModels exampleChannel
                { exampleTxParams with
                  txPhy := some { exampleTxPhy with mobility := none } }).2.1).map
              ScheduledRx.receiver).count 10 = 1) :=
  ⟨(no_mobility_path exampleIsOrthogonal exampleEnvironment exampleLinkModels exampleChannel
      { exampleTxParams with txPhy := some { exampleTxPhy with mobility := none } }
      { exampleTxPhy with mobility := none } 10 rfl (Or.inl rfl)).1,
    exampleChannel_reachable,
    ((no_mobility_path exampleIsOrthogonal exampleEnvironment exampleLinkModels exampleChannel
      { exampleTxParams with txPhy := some { exampleTxPhy with mobility := none } }
      { exampleTxPhy with mobility := none } 10 rfl (Or.inl rfl)).2
      exampleChannel_reachable (by unfold Notified; decide) (by decide) (by decide)
      (by decide) (by decide) (by decide)).2⟩

/-! ## Receive processing (C17, C18) -/

theorem StartRx.applyLoss_of_none (base : SpectrumChannel) (params : SpectrumSignalParameters)
    (convertedPsd : SpectrumValue) (receiver : SpectrumPhy)
    (h1 : base.m_spectrumPropagationLoss = none)
    (h2 : base.m_phasedArraySpectrumPropagationLoss = none) :
    StartRx.applyLoss base params convertedPsd receiver
      = .ok (.delivered { params with psd := some convertedPsd }) := by
  simp only [StartRx.applyLoss, h1, h2]

theorem StartRx_eq_of_ok (isOrthogonal : SpectrumModel → SpectrumModel → Bool)
    (convert : SpectrumConverter → SpectrumValue → SpectrumValue) (base : SpectrumChannel)
    (s : MultiModelSpectrumChannel) (params : SpectrumSignalParameters) (receiver : SpectrumPhy)
    (psd : SpectrumValue) (m : SpectrumModel) (entry : Nat × TxSpectrumModelInfo)
    (hpsd : params.psd = some psd) (hrx : receiver.rxSpectrumModel = some m)
    (hfind : (FindAndEventuallyAddTxSpectrumModel isOrthogonal s psd.spectrumModel).2
      = .ok entry) :
    (StartRx isOrthogonal convert base s params receiver).2
      = if psd.spectrumModel.uid = m.uid then StartRx.applyLoss base params psd receiver
        else
          match UidMap.find m.uid entry.2.m_spectrumConverterMap with
          | none => .ok .dropped
          | some converter => StartRx.applyLoss base params (convert converter psd) receiver := by
  unfold StartRx
  simp only [hpsd, hrx]
  rcases hres : FindAndEventuallyAddTxSpectrumModel isOrthogonal s psd.spectrumModel with
    ⟨s1, res⟩
  rw [hres] at hfind
  simp only at hfind
  subst hfind
  obtain ⟨k, txInfo⟩ := entry
  simp only
  split_ifs
  · rfl
  · cases UidMap.find m.uid txInfo.m_spectrumConverterMap <;> rfl

/-- C17. Identical-model shortcut: when the uid of the model of the signal equals the uid
of the current model of the receiver and neither a spectrum-aware nor a phased-array loss
model is configured, `StartRx` calls the delivery entry point of the receiver once, with
the signal as it came in (same PSD); this holds in every state in which the lookup of the
transmit model returns, whatever the converter cache holds, and the lookup returns in
every reachable state. -/
theorem identical_model_shortcut (isOrthogonal : SpectrumModel → SpectrumModel → Bool)
    (convert : SpectrumConverter → SpectrumValue → SpectrumValue) (base : SpectrumChannel)
    (s : MultiModelSpectrumChannel) (params : SpectrumSignalParameters) (receiver : SpectrumPhy)
    (psd : SpectrumValue) (m : SpectrumModel)
    (hpsd : params.psd = some psd) (hrx : receiver.rxSpectrumModel = some m)
    (huid : psd.spectrumModel.uid = m.uid)
    (h1 : base.m_spectrumPropagationLoss = none)
    (h2 : base.m_phasedArraySpectrumPropagationLoss = none) :
    (∀ entry, (FindAndEventuallyAddTxSpectrumModel isOrthogonal s psd.spectrumModel).2
          = .ok entry →
        (StartRx isOrthogonal convert base s params receiver).2 = .ok (.delivered params))
      ∧ (Reachable isOrthogonal s →
          (StartRx isOrthogonal convert base s params receiver).2 = .ok (.delivered params)
            ∧ ∀ p, (StartRx isOrthogonal convert base s params receiver).2
                  = .ok (.delivered p) → p.psd = some psd) := by
  have hparams : ({ params with psd := some psd } : SpectrumSignalParameters) = params := by
    obtain ⟨p1, p2, p3⟩ := params
    simp only at hpsd
    subst hpsd
    rfl
  have hmain : ∀ entry,
      (FindAndEventuallyAddTxSpectrumModel isOrthogonal s psd.spectrumModel).2 = .ok entry →
      (StartRx isOrthogonal convert base s params receiver).2 = .ok (.delivered params) := by
    intro entry hfind
    rw [StartRx_eq_of_ok isOrthogonal convert base s params receiver psd m entry hpsd hrx hfind,
      if_pos huid, StartRx.applyLoss_of_none base params psd receiver h1 h2, hparams]
  refine ⟨hmain, fun hreach => ?_⟩
  obtain ⟨entry, hfind⟩ :=
    FindAndEventuallyAddTxSpectrumModel_ok isOrthogonal s psd.spectrumModel hreach.invariant
  refine ⟨hmain entry hfind, ?_⟩
  intro p hp
  rw [hmain entry hfind] at hp
  simp only [Except.ok.injEq, Delivery.delivered.injEq] at hp
  rw [← hp, hpsd]

theorem identical_model_shortcut_witness :
    Reachable exampleIsOrthogonal exampleChannel
      ∧ (StartRx exampleIsOrthogonal (fun _ v => v) ⟨none, none⟩ exampleChannel
            { psd := some ⟨⟨20⟩, [1, 1]⟩, txPhy := some exampleTxPhy, txAntenna := none }
            (exampleEnvironment.phy 10)).2
          = .ok (.delivered
              { psd := some ⟨⟨20⟩, [1, 1]⟩, txPhy := some exampleTxPhy, txAntenna := none }) :=
  ⟨exampleChannel_reachable,
    ((identical_model_shortcut exampleIsOrthogonal (fun _ v => v) ⟨none, none⟩ exampleChannel
      { psd := some ⟨⟨20⟩, [1, 1]⟩, txPhy := some exampleTxPhy, txAntenna := none }
      (exampleEnvironment.phy 10) ⟨⟨20⟩, [1, 1]⟩ ⟨20⟩ rfl rfl rfl rfl rfl).2
      exampleChannel_reachable).1⟩

theorem SpectrumModel.eq_of_uid_eq {a b : SpectrumModel} (h : a.uid = b.uid) : a = b := by
  cases a
  cases b
  simp only at h
  rw [h]

theorem FindAndEventuallyAddTxSpectrumModel_entry_mem
    (isOrthogonal : SpectrumModel → SpectrumModel → Bool)
    (s : MultiModelSpectrumChannel) (t : SpectrumModel) (h : Invariant isOrthogonal s)
    (entry : Nat × TxSpectrumModelInfo)
    (hfind : (FindAndEventuallyAddTxSpectrumModel isOrthogonal s t).2 = .ok entry) :
    entry ∈ (FindAndEventuallyAddTxSpectrumModel isOrthogonal s t).1.m_txSpectrumModelInfoMap
      ∧ entry.1 = t.uid := by
  cases hf : UidMap.find t.uid s.m_txSpectrumModelInfoMap with
  | some info =>
    rw [FindAndEventuallyAddTxSpectrumModel_eq_of_some isOrthogonal s t info hf] at hfind ⊢
    simp only [Except.ok.injEq] at hfind
    subst hfind
    exact ⟨UidMap.mem_of_find _ _ _ hf, rfl⟩
  | none =>
    rw [FindAndEventuallyAddTxSpectrumModel_eq_of_none isOrthogonal s t h hf] at hfind ⊢
    simp only [Except.ok.injEq] at hfind
    subst hfind
    refine ⟨(UidMap.mem_insert _ _ _ _).2 (Or.inr ⟨?_, rfl⟩), rfl⟩
    exact UidMap.insert_flag _ _ _ ((UidMap.find_eq_none_iff _ _).1 hf)

/-- C18. Orthogonal drop: in every reachable state, for a receiver whose current model is
`m2` and a signal whose model is distinct from and orthogonal to `m2`, `StartRx` returns
without calling the delivery entry point of the receiver and without error. -/
theorem orthogonal_drop (isOrthogonal : SpectrumModel → SpectrumModel → Bool)
    (convert : SpectrumConverter → SpectrumValue → SpectrumValue) (base : SpectrumChannel)
    (s : MultiModelSpectrumChannel) (h : Reachable isOrthogonal s)
    (params : SpectrumSignalParameters) (receiver : SpectrumPhy)
    (psd : SpectrumValue) (m2 : SpectrumModel)
    (hpsd : params.psd = some psd) (hrx : receiver.rxSpectrumModel = some m2)
    (hne : psd.spectrumModel.uid ≠ m2.uid)
    (horth : isOrthogonal psd.spectrumModel m2 = true) :
    (StartRx isOrthogonal convert base s params receiver).2 = .ok .dropped := by
  have hinv := h.invariant
  obtain ⟨entry, hfind⟩ :=
    FindAndEventuallyAddTxSpectrumModel_ok isOrthogonal s psd.spectrumModel hinv
  have hinv' := FindAndEventuallyAddTxSpectrumModel_invariant isOrthogonal s psd.spectrumModel hinv
  obtain ⟨hmem, hkey⟩ := FindAndEventuallyAddTxSpectrumModel_entry_mem isOrthogonal s
    psd.spectrumModel hinv entry hfind
  rw [StartRx_eq_of_ok isOrthogonal convert base s params receiver psd m2 entry hpsd hrx hfind,
    if_neg hne]
  have hnone : UidMap.find m2.uid entry.2.m_spectrumConverterMap = none := by
    rw [UidMap.find_eq_none_iff]
    intro hk
    obtain ⟨c, hc, hc1⟩ := List.mem_map.1 hk
    obtain ⟨_, r, hr, hno, _⟩ := hinv'.convs entry hmem c hc
    have hruid : r.uid = c.1 := (rxKey_iff_rxModels _).1 hinv'.rxKey (c.1, r) hr
    have hr2 : r = m2 := SpectrumModel.eq_of_uid_eq (hruid.trans hc1)
    have ht : entry.2.m_txSpectrumModel = psd.spectrumModel :=
      SpectrumModel.eq_of_uid_eq ((hinv'.txKey entry hmem).trans hkey)
    rw [hr2, ht, horth] at hno
    cases hno
  rw [hnone]

theorem orthogonal_drop_witness :
    Reachable exampleIsOrthogonal exampleChannel
      ∧ (StartRx exampleIsOrthogonal (fun _ v => v) ⟨none, none⟩ exampleChannel
            exampleTxParams (exampleEnvironment.phy 10)).2 = .ok .dropped :=
  ⟨exampleChannel_reachable,
    orthogonal_drop exampleIsOrthogonal (fun _ v => v) ⟨none, none⟩ exampleChannel
      exampleChannel_reachable exampleTxParams (exampleEnvironment.phy 10) ⟨⟨2⟩, [1, 1]⟩ ⟨20⟩
      rfl rfl (by decide) (by decide)⟩

/-! ## Detection of a model change that was not notified (C19) -/

theorem StartTx.visitAll_append (env : Environment) (base : SpectrumChannelLinkModels)
    (txParams : SpectrumSignalParameters) (txPhy : SpectrumPhy) (psd : SpectrumValue)
    (a b : List (Nat × Nat)) :
    StartTx.visitAll env base txParams txPhy psd (a ++ b)
      = match (StartTx.visitAll env base txParams txPhy psd a).2 with
        | some e => ((StartTx.visitAll env base txParams txPhy psd a).1, some e)
        | none =>
          ((StartTx.visitAll env base txParams txPhy psd a).1
              ++ (StartTx.visitAll env base txParams txPhy psd b).1,
            (StartTx.visitAll env base txParams txPhy psd b).2) := by
  induction a with
  | nil => simp [StartTx.visitAll]
  | cons x rest ih =>
    obtain ⟨uid, p⟩ := x
    have hcons : ∀ l, StartTx.visitAll env base txParams txPhy psd ((uid, p) :: l)
        = match (StartTx.rxPhy env base txParams txPhy psd uid p).2 with
          | some e => ((StartTx.rxPhy env base txParams txPhy psd uid p).1, some e)
          | none =>
            ((StartTx.rxPhy env base txParams txPhy psd uid p).1
                ++ (StartTx.visitAll env base txParams txPhy psd l).1,
              (StartTx.visitAll env base txParams txPhy psd l).2) := fun _ => rfl
    rw [List.cons_append, hcons, hcons, ih]
    cases (StartTx.rxPhy env base txParams txPhy psd uid p).2 <;>
      cases (StartTx.visitAll env base txParams txPhy psd rest).2 <;> simp

theorem StartTx.rxPhys_eq_visitAll (env : Environment) (base : SpectrumChannelLinkModels)
    (txParams : SpectrumSignalParameters) (txPhy : SpectrumPhy) (psd : SpectrumValue)
    (uid : Nat) (l : List Nat) :
    StartTx.rxPhys env base txParams txPhy psd uid l
      = StartTx.visitAll env base txParams txPhy psd (l.map (fun phy => (uid, phy))) := by
  induction l with
  | nil => rfl
  | cons p rest ih =>
    rw [StartTx.rxPhys_cons, ih]
    rfl

theorem StartTx.rxInfos_eq_visitAll (env : Environment) (base : SpectrumChannelLinkModels)
    (txParams : SpectrumSignalParameters) (txPhy : SpectrumPhy) (psd : SpectrumValue)
    (m : RxSpectrumModelInfoMap_t) :
    StartTx.rxInfos env base txParams txPhy psd m
      = StartTx.visitAll env base txParams txPhy psd (StartTx.visits m) := by
  induction m with
  | nil => rfl
  | cons e rest ih =>
    rw [StartTx.rxInfos_cons, ih, StartTx.rxPhys_eq_visitAll]
    simp only [StartTx.visits, List.map_cons, List.flatten_cons]
    rw [StartTx.visitAll_append]

theorem StartTx.visitAll_notified (env : Environment) (base : SpectrumChannelLinkModels)
    (txParams : SpectrumSignalParameters) (txPhy : SpectrumPhy) (psd : SpectrumValue)
    (l : List (Nat × Nat))
    (hn : ∀ x ∈ l, (env.phy x.2).rxSpectrumModel.map SpectrumModel.uid = some x.1) :
    (StartTx.visitAll env base txParams txPhy psd l).2 = none := by
  induction l with
  | nil => rfl
  | cons x rest ih =>
    obtain ⟨uid, p⟩ := x
    simp only [StartTx.visitAll]
    rw [(StartTx.rxPhy_notified env base txParams txPhy psd uid p
      (hn (uid, p) (List.mem_cons_self _ _))).1]
    exact ih (fun y hy => hn y (List.mem_cons_of_mem _ hy))

theorem StartTx.rxPhy_mismatch (env : Environment) (base : SpectrumChannelLinkModels)
    (txParams : SpectrumSignalParameters) (txPhy : SpectrumPhy) (psd : SpectrumValue)
    (uid rxPhy : Nat) (m : SpectrumModel) (hm : (env.phy rxPhy).rxSpectrumModel = some m)
    (hu : m.uid ≠ uid) :
    StartTx.rxPhy env base txParams txPhy psd uid rxPhy
      = ([], some Fatal.spectrumModelChangeNotNotified) := by
  simp only [StartTx.rxPhy, hm, ne_eq, hu, not_false_eq_true, if_true]

theorem StartTx.rxPhy_ok (env : Environment) (base : SpectrumChannelLinkModels)
    (txParams : SpectrumSignalParameters) (txPhy : SpectrumPhy) (psd : SpectrumValue)
    (uid rxPhy : Nat)
    (h : (StartTx.rxPhy env base txParams txPhy psd uid rxPhy).2 = none) :
    (env.phy rxPhy).rxSpectrumModel.map SpectrumModel.uid = some uid := by
  cases hm : (env.phy rxPhy).rxSpectrumModel with
  | none => simp [StartTx.rxPhy, hm] at h
  | some m =>
    by_cases hu : m.uid = uid
    · simp [hu]
    · rw [StartTx.rxPhy_mismatch env base txParams txPhy psd uid rxPhy m hm hu] at h
      cases h

theorem StartTx.visitAll_ok (env : Environment) (base : SpectrumChannelLinkModels)
    (txParams : SpectrumSignalParameters) (txPhy : SpectrumPhy) (psd : SpectrumValue)
    (l : List (Nat × Nat))
    (h : (StartTx.visitAll env base txParams txPhy psd l).2 = none) :
    ∀ x ∈ l, (env.phy x.2).rxSpectrumModel.map SpectrumModel.uid = some x.1 := by
  induction l with
  | nil => intro x hx; cases hx
  | cons y rest ih =>
    obtain ⟨uid, p⟩ := y
    simp only [StartTx.visitAll] at h
    cases hstep : (StartTx.rxPhy env base txParams txPhy psd uid p).2 with
    | some e => rw [hstep] at h; cases h
    | none =>
      rw [hstep] at h
      intro x hx
      rcases List.mem_cons.1 hx with hx | hx
      · subst hx
        exact StartTx.rxPhy_ok env base txParams txPhy psd uid p hstep
      · exact ih h x hx

theorem mem_visits (m : RxSpectrumModelInfoMap_t) (e : Nat × RxSpectrumModelInfo) (he : e ∈ m)
    (phy : Nat) (hp : phy ∈ e.2.m_rxPhys) :
    (e.2.m_rxSpectrumModel.uid, phy) ∈ StartTx.visits m := by
  simp only [StartTx.visits, List.mem_flatten, List.mem_map]
  exact ⟨_, ⟨e, he, rfl⟩, List.mem_map.2 ⟨phy, hp, rfl⟩⟩

theorem RegistryRun.reachable {isOrthogonal : SpectrumModel → SpectrumModel → Bool}
    {heap : Nat → SpectrumPhy} {changed : Nat → Bool} {s : MultiModelSpectrumChannel}
    (h : RegistryRun isOrthogonal heap changed s) : Reachable isOrthogonal s := by
  induction h with
  | new heap => exact Reachable.new
  | addRx phy _ hok ih => exact Reachable.addRx _ ih hok
  | removeRx phy _ ih => exact Reachable.removeRx phy ih
  | setRxSpectrumModel phy model _ ih => exact ih

/-- Along a run, an endpoint stored in the bucket keyed `k` that has not changed its model
after the last call of `AddRx` on it reports a model with uid `k`. -/
theorem RegistryRun.bucket_model {isOrthogonal : SpectrumModel → SpectrumModel → Bool}
    {heap : Nat → SpectrumPhy} {changed : Nat → Bool} {s : MultiModelSpectrumChannel}
    (h : RegistryRun isOrthogonal heap changed s) :
    ∀ k phy, phy ∈ bucket s k → changed phy = false →
      (heap phy).rxSpectrumModel.map SpectrumModel.uid = some k := by
  induction h with
  | new heap =>
    intro k phy hp
    simp [bucket, MultiModelSpectrumChannel.new, UidMap.find] at hp
  | @addRx heap changed s p hrun hok ih =>
    intro k q hq hch
    have hinv := hrun.reachable.invariant
    cases hr : (heap p).rxSpectrumModel with
    | none =>
      rw [AddRx_fatal_of_none isOrthogonal s _ (by simpa using hr)] at hok
      cases hok
    | some r =>
      have hr' : ({ heap p with ptr := p } : SpectrumPhy).rxSpectrumModel = some r := hr
      rw [bucket_AddRx isOrthogonal s hinv _ r hr' k] at hq
      simp only at hq
      by_cases hqp : q = p
      · subst hqp
        by_cases hk : k = r.uid
        · rw [hr, hk]; rfl
        · rw [if_neg hk] at hq
          exact absurd hq (hinv.not_mem_bucket_erase q k)
      · have hq' : q ∈ bucket s k := by
          split_ifs at hq
          · rcases List.mem_append.1 hq with h1 | h1
            · exact List.mem_of_mem_erase h1
            · simp only [List.mem_singleton] at h1
              exact absurd h1 hqp
          · exact List.mem_of_mem_erase hq
        rw [Function.update_noteq hqp] at hch
        exact ih k q hq' hch
  | @removeRx heap changed s p hrun ih =>
    intro k q hq hch
    rw [bucket_RemoveRx isOrthogonal s hrun.reachable.invariant p k] at hq
    exact ih k q (List.mem_of_mem_erase hq) hch
  | @setRxSpectrumModel heap changed s p model hrun ih =>
    intro k q hq hch
    by_cases hqp : q = p
    · subst hqp
      simp at hch
    · rw [Function.update_noteq hqp] at hch ⊢
      exact ih k q hq hch

theorem RegistryRun.notified {isOrthogonal : SpectrumModel → SpectrumModel → Bool}
    {env : Environment} {changed : Nat → Bool} {s : MultiModelSpectrumChannel}
    (h : RegistryRun isOrthogonal env.phy changed s)
    (hch : ∀ phy ∈ allRxPhys s, changed phy = false) : Notified env s := by
  intro e he p hp
  have hinv := h.reachable.invariant
  have hfind := UidMap.find_of_mem e.1 e.2 _ hinv.rxSorted he
  have hb : p ∈ bucket s e.1 := by rw [bucket_eq_of_find s e.1 e.2 hfind]; exact hp
  exact h.bucket_model e.1 p hb (hch p ((mem_allRxPhys_iff s p).2 ⟨e, he, hp⟩))

/-- C19. Fatal detection of a model change that was not notified.  (1) If the loops of
`StartTx` reach an endpoint stored in a bucket (every endpoint visited before it reports
the uid of its bucket) and that endpoint reports a receive model whose uid differs from
the uid of the bucket, `StartTx` aborts on the assertion.  (2) If `StartTx` completes,
every stored endpoint reports the uid of its bucket.  (3) In every state reached by a run
of `AddRx` and `RemoveRx` calls and model changes in which no stored endpoint has changed
its model after the last `AddRx` on it, the assertion does not fail, and `StartTx`
completes for every signal with a transmitter and a PSD. -/
theorem unnotified_model_change_detected (isOrthogonal : SpectrumModel → SpectrumModel → Bool)
    (env : Environment) (base : SpectrumChannelLinkModels) (s : MultiModelSpectrumChannel)
    (txParams : SpectrumSignalParameters) :
    (∀ txPhy psd pre u phy post m, txParams.txPhy = some txPhy → txParams.psd = some psd →
        StartTx.visits s.m_rxSpectrumModelInfoMap = pre ++ (u, phy) :: post →
        (∀ x ∈ pre, (env.phy x.2).rxSpectrumModel.map SpectrumModel.uid = some x.1) →
        (env.phy phy).rxSpectrumModel = some m → m.uid ≠ u →
        (StartTx env base s txParams).2.2 = some Fatal.spectrumModelChangeNotNotified)
      ∧ (∀ txPhy psd, txParams.txPhy = some txPhy → txParams.psd = some psd →
          (StartTx env base s txParams).2.2 = none →
          ∀ e ∈ s.m_rxSpectrumModelInfoMap, ∀ phy ∈ e.2.m_rxPhys,
            (env.phy phy).rxSpectrumModel.map SpectrumModel.uid
              = some e.2.m_rxSpectrumModel.uid)
      ∧ (∀ changed, RegistryRun isOrthogonal env.phy changed s →
          (∀ phy ∈ allRxPhys s, changed phy = false) →
          (StartTx env base s txParams).2.2 ≠ some Fatal.spectrumModelChangeNotNotified
            ∧ (txParams.txPhy ≠ none → txParams.psd ≠ none →
                (StartTx env base s txParams).2.2 = none)) := by
  refine ⟨?_, ?_, ?_⟩
  · intro txPhy psd pre u phy post m ht hp hv hpre hm hu
    rw [StartTx_eq env base s txParams txPhy psd ht hp]
    simp only
    rw [StartTx.rxInfos_eq_visitAll, hv, StartTx.visitAll_append,
      StartTx.visitAll_notified env base txParams txPhy psd pre hpre]
    simp only [StartTx.visitAll,
      StartTx.rxPhy_mismatch env base txParams txPhy psd u phy m hm hu]
  · intro txPhy psd ht hp hok e he phy hphy
    rw [StartTx_eq env base s txParams txPhy psd ht hp] at hok
    simp only at hok
    rw [StartTx.rxInfos_eq_visitAll] at hok
    exact StartTx.visitAll_ok env base txParams txPhy psd _ hok _ (mem_visits _ e he phy hphy)
  · intro changed hrun hch
    have hn : Notified env s := hrun.notified hch
    have hinv := hrun.reachable.invariant
    have hok : ∀ txPhy psd, txParams.txPhy = some txPhy → txParams.psd = some psd →
        (StartTx env base s txParams).2.2 = none := fun txPhy psd ht hp =>
      (StartTx_receivers isOrthogonal env base s txParams txPhy psd hinv hn ht hp).1
    constructor
    · cases ht : txParams.txPhy with
      | none => simp [StartTx, ht]
      | some txPhy =>
        cases hp : txParams.psd with
        | none => simp [StartTx, ht, hp]
        | some psd => rw [hok txPhy psd ht hp]; exact fun hx => by cases hx
    · intro ht hp
      cases ht' : txParams.txPhy with
      | none => exact absurd ht' ht
      | some txPhy =>
        cases hp' : txParams.psd with
        | none => exact absurd hp' hp
        | some psd => exact hok txPhy psd ht' hp'

theorem unnotified_model_change_detected_witness :
    (StartTx
        { exampleEnvironment with
          phy := fun p =>
            if p = 10 then { exampleEnvironment.phy 10 with rxSpectrumModel := some ⟨3⟩ }
            else exampleEnvironment.phy p }
        exampleLinkModels exampleChannel exampleTxParams).2.2
        = some Fatal.spectrumModelChangeNotNotified
      ∧ (RegistryRun exampleIsOrthogonal
            (Function.update exampleEnvironment.phy 10
              { exampleEnvironment.phy 10 with rxSpectrumModel := some ⟨3⟩ })
            (Function.update
              (Function.update (Function.update (fun _ => false) 10 false) 10 true) 10 false)
            (AddRx exampleIsOrthogonal
              (AddRx exampleIsOrthogonal MultiModelSpectrumChannel.new
                { exampleEnvironment.phy 10 with ptr := 10 }).1
              { Function.update exampleEnvironment.phy 10
                  { exampleEnvironment.phy 10 with rxSpectrumModel := some ⟨3⟩ } 10 with
                ptr := 10 }).1
          ∧ (StartTx
              { exampleEnvironment with
                phy := Function.update exampleEnvironment.phy 10
                  { exampleEnvironment.phy 10 with rxSpectrumModel := some ⟨3⟩ } }
              exampleLinkModels
              (AddRx exampleIsOrthogonal
                (AddRx exampleIsOrthogonal MultiModelSpectrumChannel.new
                  { exampleEnvironment.phy 10 with ptr := 10 }).1
                { Function.update exampleEnvironment.phy 10
                    { exampleEnvironment.phy 10 with rxSpectrumModel := some ⟨3⟩ } 10 with
                  ptr := 10 }).1 exampleTxParams).2.2 = none) :=
  ⟨(unnotified_model_change_detected exampleIsOrthogonal
      { exampleEnvironment with
        phy := fun p =>
          if p = 10 then { exampleEnvironment.phy 10 with rxSpectrumModel := some ⟨3⟩ }
          else exampleEnvironment.phy p }
      exampleLinkModels exampleChannel exampleTxParams).1 exampleTxPhy ⟨⟨2⟩, [1, 1]⟩
      [(1, 11)] 20 10 [] ⟨3⟩ rfl rfl (by decide) (by decide) rfl (by decide),
    RegistryRun.addRx 10
      (RegistryRun.setRxSpectrumModel 10 (some ⟨3⟩)
        (RegistryRun.addRx 10 (RegistryRun.new _) (by decide))) (by decide),
    ((unnotified_model_change_detected exampleIsOrthogonal
      { exampleEnvironment with
        phy := Function.update exampleEnvironment.phy 10
          { exampleEnvironment.phy 10 with rxSpectrumModel := some ⟨3⟩ } }
      exampleLinkModels _ exampleTxParams).2.2 _
      (RegistryRun.addRx 10
        (RegistryRun.setRxSpectrumModel 10 (some ⟨3⟩)
          (RegistryRun.addRx 10 (RegistryRun.new _) (by decide))) (by decide))
      (by decide)).2 (by decide) (by decide)⟩

/-! ## Entries and converters only grow (C20) -/

theorem RegistryGrows.refl (s : MultiModelSpectrumChannel) : RegistryGrows s s :=
  ⟨fun _ hk => hk, fun _ hk => hk, fun e he => ⟨e, he, rfl, rfl, fun _ hr => hr⟩⟩

theorem RegistryGrows.of_entries (s t : MultiModelSpectrumChannel)
    (hrx : ∀ k ∈ UidMap.keys s.m_rxSpectrumModelInfoMap,
      k ∈ UidMap.keys t.m_rxSpectrumModelInfoMap)
    (htx : ∀ e ∈ s.m_txSpectrumModelInfoMap, ∃ e' ∈ t.m_txSpectrumModelInfoMap,
        e'.1 = e.1 ∧ e'.2.m_txSpectrumModel = e.2.m_txSpectrumModel
          ∧ ∀ r ∈ UidMap.keys e.2.m_spectrumConverterMap,
              r ∈ UidMap.keys e'.2.m_spectrumConverterMap) :
    RegistryGrows s t := by
  refine ⟨hrx, ?_, htx⟩
  intro k hk
  obtain ⟨e, he, rfl⟩ := List.mem_map.1 hk
  obtain ⟨e', he', hk', _⟩ := htx e he
  exact List.mem_map.2 ⟨e', he', hk'⟩

theorem UidMap.keys_subset_insert {α : Type} (k : Nat) (v : α) (m : UidMap α) :
    ∀ r ∈ UidMap.keys m, r ∈ UidMap.keys (UidMap.insert k v m).1 := by
  intro r hr
  obtain ⟨e, he, rfl⟩ := List.mem_map.1 hr
  exact List.mem_map.2 ⟨e, (UidMap.mem_insert k v m e).2 (Or.inl he), rfl⟩

/-- The loop of `AddRx` over the transmit-model entries keeps every entry, with its model
and at least its converter keys, whether or not it aborts. -/
theorem AddRx_createConverters_grows (isOrthogonal : SpectrumModel → SpectrumModel → Bool)
    (r : SpectrumModel) (tx : TxSpectrumModelInfoMap_t) :
    ∀ e ∈ tx, ∃ e' ∈ (AddRx.createConverters isOrthogonal r tx).1,
      e'.1 = e.1 ∧ e'.2.m_txSpectrumModel = e.2.m_txSpectrumModel
        ∧ ∀ k ∈ UidMap.keys e.2.m_spectrumConverterMap,
            k ∈ UidMap.keys e'.2.m_spectrumConverterMap := by
  induction tx with
  | nil => intro e he; cases he
  | cons x rest ih =>
    obtain ⟨k, info⟩ := x
    intro e he
    simp only [AddRx.createConverters]
    by_cases hc : r.uid ≠ info.m_txSpectrumModel.uid
        ∧ isOrthogonal info.m_txSpectrumModel r = false
    · rw [if_pos hc]
      rcases hins : UidMap.insert r.uid (SpectrumConverter.mk info.m_txSpectrumModel r)
        info.m_spectrumConverterMap with ⟨convs, flag⟩
      have hsub : ∀ q ∈ UidMap.keys info.m_spectrumConverterMap, q ∈ UidMap.keys convs := by
        have := UidMap.keys_subset_insert r.uid (SpectrumConverter.mk info.m_txSpectrumModel r)
          info.m_spectrumConverterMap
        rw [hins] at this
        exact this
      cases flag with
      | true =>
        simp only
        rcases List.mem_cons.1 he with h | h
        · subst h
          exact ⟨_, List.mem_cons_self _ _, rfl, rfl, hsub⟩
        · obtain ⟨e', he', h1, h2, h3⟩ := ih e h
          exact ⟨e', List.mem_cons_of_mem _ he', h1, h2, h3⟩
      | false =>
        simp only
        rcases List.mem_cons.1 he with h | h
        · subst h
          exact ⟨_, List.mem_cons_self _ _, rfl, rfl, hsub⟩
        · exact ⟨e, List.mem_cons_of_mem _ h, rfl, rfl, fun _ hq => hq⟩
    · rw [if_neg hc]
      rcases List.mem_cons.1 he with h | h
      · subst h
        exact ⟨_, List.mem_cons_self _ _, rfl, rfl, fun _ hq => hq⟩
      · obtain ⟨e', he', h1, h2, h3⟩ := ih e h
        exact ⟨e', List.mem_cons_of_mem _ he', h1, h2, h3⟩

theorem RemoveRx_grows (s : MultiModelSpectrumChannel) (phy : Nat) :
    RegistryGrows s (RemoveRx s phy)
      ∧ UidMap.keys (RemoveRx s phy).m_rxSpectrumModelInfoMap
          = UidMap.keys s.m_rxSpectrumModelInfoMap := by
  have hk : UidMap.keys (RemoveRx s phy).m_rxSpectrumModelInfoMap
      = UidMap.keys s.m_rxSpectrumModelInfoMap :=
    keys_eq_of_mapVal_eq _ _ _ (RemoveRx_rxModels s phy)
  refine ⟨RegistryGrows.of_entries _ _ (fun k h => hk ▸ h) ?_, hk⟩
  intro e he
  exact ⟨e, (RemoveRx_tx s phy) ▸ he, rfl, rfl, fun _ hr => hr⟩

theorem AddRx_grows (isOrthogonal : SpectrumModel → SpectrumModel → Bool)
    (s : MultiModelSpectrumChannel) (phy : SpectrumPhy) :
    RegistryGrows s (AddRx isOrthogonal s phy).1 := by
  cases hr : phy.rxSpectrumModel with
  | none =>
    rw [AddRx_fatal_of_none isOrthogonal s phy hr]
    exact RegistryGrows.refl s
  | some r =>
    have hk := (RemoveRx_grows s phy.ptr).2
    have hrx : ∀ k ∈ UidMap.keys s.m_rxSpectrumModelInfoMap,
        k ∈ UidMap.keys (UidMap.modify r.uid
          (fun info => { info with m_rxPhys := info.m_rxPhys ++ [phy.ptr] })
          (UidMap.insert r.uid (RxSpectrumModelInfo.mk r [])
            (RemoveRx s phy.ptr).m_rxSpectrumModelInfoMap).1) := by
      intro k hmem
      rw [UidMap.keys_modify]
      exact UidMap.keys_subset_insert _ _ _ k (hk ▸ hmem)
    simp only [AddRx, hr, RemoveRx_tx]
    split_ifs
    · exact RegistryGrows.of_entries _ _ hrx
        (AddRx_createConverters_grows isOrthogonal r s.m_txSpectrumModelInfoMap)
    · exact RegistryGrows.of_entries _ _ hrx
        (fun e he => ⟨e, (RemoveRx_tx s phy.ptr).symm ▸ he, rfl, rfl, fun _ hq => hq⟩)

theorem UidMap.mem_modify_of_ne {α : Type} (k : Nat) (f : α → α) (m : UidMap α)
    (e : Nat × α) (he : e ∈ m) (hk : e.1 ≠ k) : e ∈ UidMap.modify k f m := by
  induction m with
  | nil => cases he
  | cons x rest ih =>
    obtain ⟨k', v⟩ := x
    simp only [UidMap.modify]
    by_cases h : k = k'
    · rw [if_pos h]
      rcases List.mem_cons.1 he with h1 | h1
      · subst h1
        exact absurd h.symm hk
      · exact List.mem_cons_of_mem _ h1
    · rw [if_neg h]
      rcases List.mem_cons.1 he with h1 | h1
      · subst h1
        exact List.mem_cons_self _ _
      · exact List.mem_cons_of_mem _ (ih h1)

theorem FindAndEventuallyAddTxSpectrumModel_grows
    (isOrthogonal : SpectrumModel → SpectrumModel → Bool)
    (s : MultiModelSpectrumChannel) (t : SpectrumModel) :
    RegistryGrows s (FindAndEventuallyAddTxSpectrumModel isOrthogonal s t).1 := by
  obtain ⟨hfr, _⟩ := FindAndEventuallyAddTxSpectrumModel_frame isOrthogonal s t
  refine RegistryGrows.of_entries _ _ (fun k hk => hfr.symm ▸ hk) ?_
  intro e he
  refine ⟨e, ?_, rfl, rfl, fun _ hr => hr⟩
  cases hf : UidMap.find t.uid s.m_txSpectrumModelInfoMap with
  | some info =>
    rw [FindAndEventuallyAddTxSpectrumModel_eq_of_some isOrthogonal s t info hf]
    exact he
  | none =>
    have hne : e.1 ≠ t.uid := by
      intro heq
      exact (UidMap.find_eq_none_iff _ _).1 hf (heq ▸ List.mem_map.2 ⟨e, he, rfl⟩)
    simp only [FindAndEventuallyAddTxSpectrumModel, hf]
    split_ifs
    · have hmem : e ∈ UidMap.modify t.uid
          (fun info => { info with m_spectrumConverterMap :=
            (FindAndEventuallyAddTxSpectrumModel.createConverters isOrthogonal t
              s.m_rxSpectrumModelInfoMap []).1 })
          (UidMap.insert t.uid (TxSpectrumModelInfo.mk t []) s.m_txSpectrumModelInfoMap).1 :=
        UidMap.mem_modify_of_ne _ _ _ e ((UidMap.mem_insert _ _ _ e).2 (Or.inl he)) hne
      cases (FindAndEventuallyAddTxSpectrumModel.createConverters isOrthogonal t
        s.m_rxSpectrumModelInfoMap []).2 <;> exact hmem
    · exact (UidMap.mem_insert _ _ _ e).2 (Or.inl he)

theorem StartTx_state (env : Environment) (base : SpectrumChannelLinkModels)
    (s : MultiModelSpectrumChannel) (txParams : SpectrumSignalParameters) :
    (StartTx env base s txParams).1 = s := by
  unfold StartTx
  cases txParams.txPhy with
  | none => rfl
  | some txPhy => cases txParams.psd <;> rfl

/-- C20. Model entries and converters only grow: in every channel state, after each of
`AddRx`, `RemoveRx`, `FindAndEventuallyAddTxSpectrumModel`, `StartTx` and `StartRx`
(completed or aborted), every key of the receive-model map and of the transmit-model map
is still a key, and every Transmit-Model entry is still there under its key with its
model and with at least the converter keys it had; `RemoveRx` keeps all the keys of the
receive-model map, so a bucket that has become empty stays. -/
theorem registry_only_grows (isOrthogonal : SpectrumModel → SpectrumModel → Bool)
    (convert : SpectrumConverter → SpectrumValue → SpectrumValue) (rxBase : SpectrumChannel)
    (env : Environment) (txBase : SpectrumChannelLinkModels) (s : MultiModelSpectrumChannel) :
    (∀ phy, RegistryGrows s (AddRx isOrthogonal s phy).1)
      ∧ (∀ phy, RegistryGrows s (RemoveRx s phy))
      ∧ (∀ phy, UidMap.keys (RemoveRx s phy).m_rxSpectrumModelInfoMap
          = UidMap.keys s.m_rxSpectrumModelInfoMap)
      ∧ (∀ t, RegistryGrows s (FindAndEventuallyAddTxSpectrumModel isOrthogonal s t).1)
      ∧ (∀ txParams, RegistryGrows s (StartTx env txBase s txParams).1)
      ∧ (∀ params receiver,
          RegistryGrows s (StartRx isOrthogonal convert rxBase s params receiver).1) := by
  refine ⟨AddRx_grows isOrthogonal s, fun phy => (RemoveRx_grows s phy).1,
    fun phy => (RemoveRx_grows s phy).2,
    FindAndEventuallyAddTxSpectrumModel_grows isOrthogonal s, ?_, ?_⟩
  · intro txParams
    rw [StartTx_state]
    exact RegistryGrows.refl s
  · intro params receiver
    rcases StartRx_state isOrthogonal convert rxBase s params receiver with h | ⟨psd, _, h⟩
    · rw [h]; exact RegistryGrows.refl s
    · rw [h]; exact FindAndEventuallyAddTxSpectrumModel_grows isOrthogonal s _

/-! ## Completeness of the converter cache (C21) -/

theorem convertersFor_keys_sublist (isOrthogonal : SpectrumModel → SpectrumModel → Bool)
    (t : SpectrumModel) (m : UidMap SpectrumModel) (hk : ∀ x ∈ m, x.2.uid = x.1) :
    (UidMap.keys (convertersFor isOrthogonal t m)).Sublist (UidMap.keys m) := by
  induction m with
  | nil => simp [convertersFor, UidMap.keys]
  | cons x rest ih =>
    have ih' := ih (fun y hy => hk y (List.mem_cons_of_mem _ hy))
    have hx : x.2.uid = x.1 := hk x (List.mem_cons_self _ _)
    rw [convertersFor_cons]
    simp only [UidMap.keys] at ih' ⊢
    split_ifs
    · simp only [List.map_cons, hx]
      exact ih'.cons₂ _
    · simp only [List.map_cons]
      exact ih'.cons _

theorem find_convertersFor (isOrthogonal : SpectrumModel → SpectrumModel → Bool)
    (t : SpectrumModel) (m : UidMap SpectrumModel)
    (hs : (UidMap.keys m).Pairwise (· < ·)) (hk : ∀ x ∈ m, x.2.uid = x.1)
    (x : Nat × SpectrumModel) (hx : x ∈ m) (hne : x.2.uid ≠ t.uid)
    (hno : isOrthogonal t x.2 = false) :
    UidMap.find x.1 (convertersFor isOrthogonal t m) = some (SpectrumConverter.mk t x.2) := by
  have hsorted : (UidMap.keys (convertersFor isOrthogonal t m)).Pairwise (· < ·) :=
    hs.sublist (convertersFor_keys_sublist isOrthogonal t m hk)
  apply UidMap.find_of_mem _ _ _ hsorted
  simp only [convertersFor, List.mem_filterMap]
  refine ⟨x, hx, ?_⟩
  simp only [converterFor, hk x hx ▸ hne, ne_eq, not_false_eq_true, hno, and_self, if_true,
    hk x hx]

theorem ConvertersComplete_new (isOrthogonal : SpectrumModel → SpectrumModel → Bool) :
    ConvertersComplete isOrthogonal MultiModelSpectrumChannel.new := by
  intro e he
  simp [MultiModelSpectrumChannel.new] at he

theorem RemoveRx_complete (isOrthogonal : SpectrumModel → SpectrumModel → Bool)
    (s : MultiModelSpectrumChannel) (phy : Nat) (hc : ConvertersComplete isOrthogonal s) :
    ConvertersComplete isOrthogonal (RemoveRx s phy) := by
  intro e he x hx
  rw [RemoveRx_tx] at he
  rw [RemoveRx_rxModels] at hx
  exact hc e he x hx

theorem FindAndEventuallyAddTxSpectrumModel_complete
    (isOrthogonal : SpectrumModel → SpectrumModel → Bool)
    (s : MultiModelSpectrumChannel) (t : SpectrumModel) (h : Invariant isOrthogonal s)
    (hc : ConvertersComplete isOrthogonal s) :
    ConvertersComplete isOrthogonal (FindAndEventuallyAddTxSpectrumModel isOrthogonal s t).1 := by
  cases hf : UidMap.find t.uid s.m_txSpectrumModelInfoMap with
  | some info =>
    rw [FindAndEventuallyAddTxSpectrumModel_eq_of_some isOrthogonal s t info hf]
    exact hc
  | none =>
    rw [FindAndEventuallyAddTxSpectrumModel_eq_of_none isOrthogonal s t h hf]
    intro e he x hx hne hno
    have hx' : x ∈ rxModels s := hx
    rcases (UidMap.mem_insert _ _ _ e).1 he with h1 | ⟨_, h1⟩
    · exact hc e h1 x hx' hne hno
    · subst h1
      exact find_convertersFor isOrthogonal t (rxModels s) h.rxModels_sorted
        ((rxKey_iff_rxModels _).1 h.rxKey) x hx' hne hno

theorem addConverter_model (isOrthogonal : SpectrumModel → SpectrumModel → Bool)
    (r : SpectrumModel) (info : TxSpectrumModelInfo) :
    (addConverter isOrthogonal r info).m_txSpectrumModel = info.m_txSpectrumModel := by
  simp only [addConverter]
  split_ifs <;> rfl

theorem AddRx_complete (isOrthogonal : SpectrumModel → SpectrumModel → Bool)
    (s : MultiModelSpectrumChannel) (phy : SpectrumPhy) (r : SpectrumModel)
    (hr : phy.rxSpectrumModel = some r) (h : Invariant isOrthogonal s)
    (hc : ConvertersComplete isOrthogonal s) :
    ConvertersComplete isOrthogonal (AddRx isOrthogonal s phy).1 := by
  have hmodels := AddRx_rxModels isOrthogonal s phy r hr h
  intro e he x hx hne hno
  rw [hmodels] at hx
  rw [AddRx_eq isOrthogonal s phy r hr h] at he
  simp only at he
  by_cases hmem : r.uid ∈ UidMap.keys s.m_rxSpectrumModelInfoMap
  · rw [if_pos hmem] at he
    rw [rxModels_insert_of_mem r _ h.rxModels_sorted (keys_rxModels s ▸ hmem)] at hx
    exact hc e he x hx hne hno
  · rw [if_neg hmem] at he
    obtain ⟨e0, he0, rfl⟩ := List.mem_map.1 he
    simp only [addConverter_model] at hne hno ⊢
    have hflag : (UidMap.insert r.uid (SpectrumConverter.mk e0.2.m_txSpectrumModel r)
        e0.2.m_spectrumConverterMap).2 = true :=
      UidMap.insert_flag _ _ _ (h.not_mem_conv_keys r.uid hmem e0 he0)
    rcases (UidMap.mem_insert _ _ _ x).1 hx with hold | ⟨_, hnew⟩
    · have hxk : x.1 ≠ r.uid := by
        intro heq
        exact hmem (heq ▸ mem_keys_of_mem_rxModels s x.1 x.2 hold)
      have hIH := hc e0 he0 x hold hne hno
      simp only [addConverter]
      split_ifs
      · simp only
        rw [UidMap.find_insert _ _ _ _ hflag, if_neg hxk]
        exact hIH
      · exact hIH
    · subst hnew
      simp only at hne hno ⊢
      simp only [addConverter, ne_eq, hne, not_false_eq_true, hno, and_self, if_true]
      rw [UidMap.find_insert _ _ _ _ hflag, if_pos rfl]

theorem StartRx_complete (isOrthogonal : SpectrumModel → SpectrumModel → Bool)
    (convert : SpectrumConverter → SpectrumValue → SpectrumValue) (base : SpectrumChannel)
    (s : MultiModelSpectrumChannel) (params : SpectrumSignalParameters) (receiver : SpectrumPhy)
    (h : Invariant isOrthogonal s) (hc : ConvertersComplete isOrthogonal s) :
    ConvertersComplete isOrthogonal (StartRx isOrthogonal convert base s params receiver).1 := by
  rcases StartRx_state isOrthogonal convert base s params receiver with h1 | ⟨psd, _, h1⟩
  · rw [h1]; exact hc
  · rw [h1]; exact FindAndEventuallyAddTxSpectrumModel_complete isOrthogonal s _ h hc

/-- Every reachable state has a complete converter cache. -/
theorem Reachable.complete {isOrthogonal : SpectrumModel → SpectrumModel → Bool}
    {s : MultiModelSpectrumChannel} (h : Reachable isOrthogonal s) :
    ConvertersComplete isOrthogonal s := by
  induction h with
  | new => exact ConvertersComplete_new isOrthogonal
  | @addRx s phy hs hok ih =>
    cases hr : phy.rxSpectrumModel with
    | none =>
      rw [AddRx_fatal_of_none isOrthogonal s phy hr] at hok
      cases hok
    | some r => exact AddRx_complete isOrthogonal s phy r hr hs.invariant ih
  | removeRx phy _ ih => exact RemoveRx_complete isOrthogonal _ phy ih
  | @findTx s t entry hs _ ih =>
    exact FindAndEventuallyAddTxSpectrumModel_complete isOrthogonal s t hs.invariant ih
  | @startRx s convert base params receiver d hs _ ih =>
    exact StartRx_complete isOrthogonal convert base s params receiver hs.invariant ih

/-- C21. Converter cache completeness: in every reachable state, for every
Transmit-Model entry with model `T` and every Receive-Model entry with model `R` (its
bucket may be empty) such that the uids differ and `T` is not orthogonal to `R`, the
converter map of the entry of `T` holds, under the uid of `R` (which is the key of the
receive entry), the converter built from `T` and `R`; the order in which the two entries
were created plays no part. -/
theorem converter_cache_complete (isOrthogonal : SpectrumModel → SpectrumModel → Bool)
    (s : MultiModelSpectrumChannel) (h : Reachable isOrthogonal s)
    (k : Nat) (txInfo : TxSpectrumModelInfo) (hk : (k, txInfo) ∈ s.m_txSpectrumModelInfoMap)
    (r : Nat) (rxInfo : RxSpectrumModelInfo) (hr : (r, rxInfo) ∈ s.m_rxSpectrumModelInfoMap)
    (hne : txInfo.m_txSpectrumModel.uid ≠ rxInfo.m_rxSpectrumModel.uid)
    (hno : isOrthogonal txInfo.m_txSpectrumModel rxInfo.m_rxSpectrumModel = false) :
    rxInfo.m_rxSpectrumModel.uid = r
      ∧ UidMap.find rxInfo.m_rxSpectrumModel.uid txInfo.m_spectrumConverterMap
          = some (SpectrumConverter.mk txInfo.m_txSpectrumModel rxInfo.m_rxSpectrumModel)
      ∧ rxInfo.m_rxSpectrumModel.uid ∈ UidMap.keys txInfo.m_spectrumConverterMap := by
  have hkey : rxInfo.m_rxSpectrumModel.uid = r := h.invariant.rxKey (r, rxInfo) hr
  have hx : (r, rxInfo.m_rxSpectrumModel) ∈ rxModels s := List.mem_map.2 ⟨(r, rxInfo), hr, rfl⟩
  have hfind := h.complete (k, txInfo) hk (r, rxInfo.m_rxSpectrumModel) hx
    (fun heq => hne heq.symm) hno
  simp only at hfind
  rw [← hkey] at hfind
  refine ⟨hkey, hfind, ?_⟩
  by_contra hnot
  rw [(UidMap.find_eq_none_iff _ _).2 hnot] at hfind
  cases hfind

theorem converter_cache_complete_witness :
    Reachable exampleIsOrthogonal exampleChannel
      ∧ (3 = 3
        ∧ UidMap.find 3 [(1, (⟨⟨2⟩, ⟨1⟩⟩ : SpectrumConverter)), (3, ⟨⟨2⟩, ⟨3⟩⟩)]
            = some ⟨⟨2⟩, ⟨3⟩⟩
        ∧ 3 ∈ UidMap.keys [(1, (⟨⟨2⟩, ⟨1⟩⟩ : SpectrumConverter)), (3, ⟨⟨2⟩, ⟨3⟩⟩)]) :=
  ⟨exampleChannel_reachable,
    converter_cache_complete exampleIsOrthogonal exampleChannel exampleChannel_reachable
      2 ⟨⟨2⟩, [(1, ⟨⟨2⟩, ⟨1⟩⟩), (3, ⟨⟨2⟩, ⟨3⟩⟩)]⟩ (by decide)
      3 ⟨⟨3⟩, []⟩ (by decide) (by decide) (by decide)⟩

/-! ## A missing converter means orthogonality (C22) -/

theorem StartRx.applyLoss_ne_dropped (base : SpectrumChannel) (params : SpectrumSignalParameters)
    (convertedPsd : SpectrumValue) (receiver : SpectrumPhy) :
    StartRx.applyLoss base params convertedPsd receiver ≠ .ok .dropped := by
  unfold StartRx.applyLoss
  cases base.m_spectrumPropagationLoss with
  | some loss =>
    simp only
    cases params.txPhy <;> simp
  | none =>
    cases base.m_phasedArraySpectrumPropagationLoss with
    | none => simp
    | some loss =>
      simp only
      cases params.txPhy with
      | none => simp
      | some txPhy =>
        simp only
        cases dynamicCastPhasedArrayModel txPhy.antenna <;>
          cases dynamicCastPhasedArrayModel receiver.antenna <;> simp

/-- In a reachable state, the entry that the lookup of the model of the signal returns
holds the converter towards every registered receive model that has another uid and is
not orthogonal to it. -/
theorem FindAndEventuallyAddTxSpectrumModel_converter
    (isOrthogonal : SpectrumModel → SpectrumModel → Bool)
    (s : MultiModelSpectrumChannel) (h : Reachable isOrthogonal s)
    (t m2 : SpectrumModel) (hreg : m2.uid ∈ UidMap.keys s.m_rxSpectrumModelInfoMap)
    (hne : t.uid ≠ m2.uid) (hno : isOrthogonal t m2 = false)
    (entry : Nat × TxSpectrumModelInfo)
    (hfind : (FindAndEventuallyAddTxSpectrumModel isOrthogonal s t).2 = .ok entry) :
    UidMap.find m2.uid entry.2.m_spectrumConverterMap = some (SpectrumConverter.mk t m2) := by
  have hinv := h.invariant
  have hinv' := FindAndEventuallyAddTxSpectrumModel_invariant isOrthogonal s t hinv
  have hc' := FindAndEventuallyAddTxSpectrumModel_complete isOrthogonal s t hinv h.complete
  obtain ⟨hmem, hkey⟩ := FindAndEventuallyAddTxSpectrumModel_entry_mem isOrthogonal s t hinv
    entry hfind
  have ht : entry.2.m_txSpectrumModel = t :=
    SpectrumModel.eq_of_uid_eq ((hinv'.txKey entry hmem).trans hkey)
  obtain ⟨x, hx, hx1⟩ := List.mem_map.1 hreg
  have hxuid : x.2.m_rxSpectrumModel.uid = x.1 := hinv.rxKey x hx
  have hxm : x.2.m_rxSpectrumModel = m2 := SpectrumModel.eq_of_uid_eq (hxuid.trans hx1)
  have hxr : (m2.uid, m2) ∈
      rxModels (FindAndEventuallyAddTxSpectrumModel isOrthogonal s t).1 := by
    unfold rxModels
    rw [(FindAndEventuallyAddTxSpectrumModel_frame isOrthogonal s t).1]
    refine List.mem_map.2 ⟨x, hx, ?_⟩
    rw [hxm, hx1]
  have hfound := hc' entry hmem (m2.uid, m2) hxr
  simp only [ht] at hfound
  exact hfound (fun heq => hne heq.symm) hno

/-- C22 (as amended). A missing converter means orthogonality: in every reachable state
in which the receiver is registered under its current model `m2`, for a signal whose
model has another uid, the lookup of the transmit model returns an entry, and when that
entry has no converter towards `m2`, or when `StartRx` drops the signal, the two models
are orthogonal.  For a non-orthogonal pair `StartRx` finds the converter built from
(signal model, receiver model), never drops the signal, and goes on to the loss-model
stage with the PSD produced by that converter; when neither a spectrum-aware nor a
phased-array loss model is configured it delivers exactly that PSD.  The signal model
need not have been seen by the channel before. -/
theorem missing_converter_means_orthogonal
    (isOrthogonal : SpectrumModel → SpectrumModel → Bool)
    (convert : SpectrumConverter → SpectrumValue → SpectrumValue) (base : SpectrumChannel)
    (s : MultiModelSpectrumChannel) (h : Reachable isOrthogonal s)
    (params : SpectrumSignalParameters) (receiver : SpectrumPhy)
    (psd : SpectrumValue) (m2 : SpectrumModel)
    (hpsd : params.psd = some psd) (hrx : receiver.rxSpectrumModel = some m2)
    (hreg : receiver.ptr ∈ bucket s m2.uid)
    (hne : psd.spectrumModel.uid ≠ m2.uid) :
    (∃ entry, (FindAndEventuallyAddTxSpectrumModel isOrthogonal s psd.spectrumModel).2
          = .ok entry
        ∧ (UidMap.find m2.uid entry.2.m_spectrumConverterMap = none →
            isOrthogonal psd.spectrumModel m2 = true))
      ∧ ((StartRx isOrthogonal convert base s params receiver).2 = .ok .dropped →
          isOrthogonal psd.spectrumModel m2 = true)
      ∧ (isOrthogonal psd.spectrumModel m2 = false →
          (StartRx isOrthogonal convert base s params receiver).2
              = StartRx.applyLoss base params
                  (convert (SpectrumConverter.mk psd.spectrumModel m2) psd) receiver
            ∧ (StartRx isOrthogonal convert base s params receiver).2 ≠ .ok .dropped
            ∧ (base.m_spectrumPropagationLoss = none →
                base.m_phasedArraySpectrumPropagationLoss = none →
                (StartRx isOrthogonal convert base s params receiver).2
                  = .ok (.delivered { params with
                      psd := some (convert (SpectrumConverter.mk psd.spectrumModel m2) psd) }))) := by
  obtain ⟨entry, hfind⟩ :=
    FindAndEventuallyAddTxSpectrumModel_ok isOrthogonal s psd.spectrumModel h.invariant
  obtain ⟨info, hinfo, _⟩ := mem_bucket s m2.uid receiver.ptr hreg
  have hkeys : m2.uid ∈ UidMap.keys s.m_rxSpectrumModelInfoMap :=
    List.mem_map.2 ⟨(m2.uid, info), UidMap.mem_of_find _ _ _ hinfo, rfl⟩
  have hconv : isOrthogonal psd.spectrumModel m2 = false →
      UidMap.find m2.uid entry.2.m_spectrumConverterMap
        = some (SpectrumConverter.mk psd.spectrumModel m2) := fun hno =>
    FindAndEventuallyAddTxSpectrumModel_converter isOrthogonal s h psd.spectrumModel m2 hkeys
      hne hno entry hfind
  have hres := StartRx_eq_of_ok isOrthogonal convert base s params receiver psd m2 entry hpsd
    hrx hfind
  rw [if_neg hne] at hres
  have happly : isOrthogonal psd.spectrumModel m2 = false →
      (StartRx isOrthogonal convert base s params receiver).2
        = StartRx.applyLoss base params
            (convert (SpectrumConverter.mk psd.spectrumModel m2) psd) receiver := by
    intro hno
    rw [hres, hconv hno]
  refine ⟨⟨entry, hfind, ?_⟩, ?_, ?_⟩
  · intro hnone
    cases horth : isOrthogonal psd.spectrumModel m2 with
    | true => rfl
    | false =>
      rw [hconv horth] at hnone
      cases hnone
  · intro hdrop
    cases horth : isOrthogonal psd.spectrumModel m2 with
    | true => rfl
    | false =>
      rw [happly horth] at hdrop
      exact absurd hdrop (StartRx.applyLoss_ne_dropped _ _ _ _)
  · intro hno
    refine ⟨happly hno, ?_, ?_⟩
    · rw [happly hno]
      exact StartRx.applyLoss_ne_dropped _ _ _ _
    · intro h1 h2
      rw [happly hno, StartRx.applyLoss_of_none base params _ receiver h1 h2]

theorem missing_converter_means_orthogonal_witness :
    Reachable exampleIsOrthogonal exampleChannel
      ∧ UidMap.find 15 exampleChannel.m_txSpectrumModelInfoMap = none
      ∧ exampleIsOrthogonal ⟨15⟩ ⟨20⟩ = false
      ∧ (StartRx exampleIsOrthogonal exampleConvert ⟨none, none⟩ exampleChannel
            { psd := some ⟨⟨15⟩, [1, 1]⟩, txPhy := some exampleTxPhy, txAntenna := none }
            (exampleEnvironment.phy 10)).2
          = .ok (.delivered
              { psd := some ⟨⟨20⟩, [1, 1]⟩, txPhy := some exampleTxPhy, txAntenna := none }) :=
  ⟨exampleChannel_reachable, by decide, by decide,
    ((missing_converter_means_orthogonal exampleIsOrthogonal exampleConvert ⟨none, none⟩
      exampleChannel exampleChannel_reachable
      { psd := some ⟨⟨15⟩, [1, 1]⟩, txPhy := some exampleTxPhy, txAntenna := none }
      (exampleEnvironment.phy 10) ⟨⟨15⟩, [1, 1]⟩ ⟨20⟩ rfl rfl (by decide) (by decide)).2.2
      (by decide)).2.2 rfl rfl⟩

/-- Counterexample to C22 as stated.  In the reachable state of the scenario endpoint 10
is registered under its current model 20, the signal comes over model 15, which has
another uid and is not orthogonal to model 20, and the converter produces the PSD
`[1, 1]` over model 20.  With a spectrum-aware loss model configured the receiver is
handed the PSD computed by that model (here `[0, 0]`), not the PSD produced by the
converter; with a phased-array loss model configured and endpoints without phased-array
antenna the call aborts and nothing is delivered. -/
theorem converted_psd_not_delivered_under_loss_model :
    Reachable exampleIsOrthogonal exampleChannel
      ∧ (exampleEnvironment.phy 10).rxSpectrumModel = some ⟨20⟩
      ∧ (exampleEnvironment.phy 10).ptr ∈ bucket exampleChannel 20
      ∧ (15 : Nat) ≠ 20
      ∧ exampleIsOrthogonal ⟨15⟩ ⟨20⟩ = false
      ∧ exampleConvert ⟨⟨15⟩, ⟨20⟩⟩ ⟨⟨15⟩, [1, 1]⟩ = ⟨⟨20⟩, [1, 1]⟩
      ∧ (StartRx exampleIsOrthogonal exampleConvert
            ⟨some (fun _ _ _ => ⟨⟨20⟩, [0, 0]⟩), none⟩ exampleChannel
            { psd := some ⟨⟨15⟩, [1, 1]⟩, txPhy := some exampleTxPhy, txAntenna := none }
            (exampleEnvironment.phy 10)).2
          = .ok (.delivered
              { psd := some ⟨⟨20⟩, [0, 0]⟩, txPhy := some exampleTxPhy, txAntenna := none })
      ∧ (StartRx exampleIsOrthogonal exampleConvert
            ⟨none, some (fun p _ _ _ _ => p)⟩ exampleChannel
            { psd := some ⟨⟨15⟩, [1, 1]⟩, txPhy := some exampleTxPhy, txAntenna := none }
            (exampleEnvironment.phy 10)).2
          = .error Fatal.phasedArrayModelMissing :=
  ⟨exampleChannel_reachable, rfl, by decide, by decide, by decide, rfl, rfl, rfl⟩

/-! ## Precedence of the loss models in `StartRx` (C23) -/

theorem StartRx.applyLoss_of_spectrum
    (f : SpectrumSignalParameters → Option Nat → Option Nat → SpectrumValue)
    (phased : Option (SpectrumSignalParameters → Option Nat → Option Nat → Nat → Nat →
      SpectrumSignalParameters))
    (params : SpectrumSignalParameters) (convertedPsd : SpectrumValue) (receiver : SpectrumPhy)
    (txPhy : SpectrumPhy) (htx : params.txPhy = some txPhy) :
    StartRx.applyLoss ⟨some f, phased⟩ params convertedPsd receiver
      = .ok (.delivered { params with
          psd := some (f { params with psd := some convertedPsd } txPhy.mobility
            receiver.mobility) }) := by
  simp only [StartRx.applyLoss, htx]

/-- C23. Loss-model precedence in `StartRx`: with the spectrum-aware loss model `f`
configured, whatever is configured as phased-array loss model (`phased`, possibly
nothing), the tail of `StartRx` that follows the conversion delivers the signal with the
PSD computed by `f` from the converted signal and the two mobility models, whatever the
antennas of the two endpoints are; the whole call has the same outcome and leaves the
same state as with no phased-array model configured, so that model plays no part and its
antenna precondition cannot fail the call: in a reachable state a call with a PSD and a
receiver model either drops the signal for orthogonality or delivers what `f` computed.
Without spectrum-aware model, a configured phased-array model `g` is the only one
applied, after the check of its antenna precondition; with neither configured the
converted PSD is delivered as it is. -/
theorem loss_model_precedence (isOrthogonal : SpectrumModel → SpectrumModel → Bool)
    (convert : SpectrumConverter → SpectrumValue → SpectrumValue)
    (f : SpectrumSignalParameters → Option Nat → Option Nat → SpectrumValue)
    (phased : Option (SpectrumSignalParameters → Option Nat → Option Nat → Nat → Nat →
      SpectrumSignalParameters))
    (s : MultiModelSpectrumChannel) (params : SpectrumSignalParameters) (receiver : SpectrumPhy)
    (txPhy : SpectrumPhy) (htx : params.txPhy = some txPhy) :
    (∀ convertedPsd, StartRx.applyLoss ⟨some f, phased⟩ params convertedPsd receiver
        = .ok (.delivered { params with
            psd := some (f { params with psd := some convertedPsd } txPhy.mobility
              receiver.mobility) }))
      ∧ StartRx isOrthogonal convert ⟨some f, phased⟩ s params receiver
          = StartRx isOrthogonal convert ⟨some f, none⟩ s params receiver
      ∧ (Reachable isOrthogonal s → params.psd ≠ none → receiver.rxSpectrumModel ≠ none →
          (StartRx isOrthogonal convert ⟨some f, phased⟩ s params receiver).2 = .ok .dropped
            ∨ ∃ convertedPsd,
              (StartRx isOrthogonal convert ⟨some f, phased⟩ s params receiver).2
                = .ok (.delivered { params with
                    psd := some (f { params with psd := some convertedPsd } txPhy.mobility
                      receiver.mobility) }))
      ∧ (∀ g convertedPsd, StartRx.applyLoss ⟨none, some g⟩ params convertedPsd receiver
          = match dynamicCastPhasedArrayModel txPhy.antenna,
                dynamicCastPhasedArrayModel receiver.antenna with
            | some txPhasedArrayModel, some rxPhasedArrayModel =>
              .ok (.delivered (g { params with psd := some convertedPsd } txPhy.mobility
                receiver.mobility txPhasedArrayModel rxPhasedArrayModel))
            | _, _ => .error Fatal.phasedArrayModelMissing)
      ∧ (∀ convertedPsd, StartRx.applyLoss ⟨none, none⟩ params convertedPsd receiver
          = .ok (.delivered { params with psd := some convertedPsd })) := by
  have happly := StartRx.applyLoss_of_spectrum f phased params
  refine ⟨fun c => happly c receiver txPhy htx, ?_, ?_, ?_, ?_⟩
  · have hsame : ∀ (p : SpectrumSignalParameters) (c : SpectrumValue) (r : SpectrumPhy),
        StartRx.applyLoss ⟨some f, phased⟩ p c r = StartRx.applyLoss ⟨some f, none⟩ p c r :=
      fun _ _ _ => rfl
    simp only [StartRx, hsame]
  · intro hreach hpsd hrx
    cases hp : params.psd with
    | none => exact absurd hp hpsd
    | some psd =>
      cases hr : receiver.rxSpectrumModel with
      | none => exact absurd hr hrx
      | some m =>
        obtain ⟨entry, hfind⟩ := FindAndEventuallyAddTxSpectrumModel_ok isOrthogonal s
          psd.spectrumModel hreach.invariant
        rw [StartRx_eq_of_ok isOrthogonal convert _ s params receiver psd m entry hp hr hfind]
        split_ifs
        · exact Or.inr ⟨psd, happly psd receiver txPhy htx⟩
        · cases UidMap.find m.uid entry.2.m_spectrumConverterMap with
          | none => exact Or.inl rfl
          | some c => exact Or.inr ⟨convert c psd, happly _ receiver txPhy htx⟩
  · intro g c
    simp only [StartRx.applyLoss, htx]
  · intro c
    exact StartRx.applyLoss_of_none _ params c receiver rfl rfl

theorem loss_model_precedence_witness :
    Reachable exampleIsOrthogonal exampleChannel
      ∧ dynamicCastPhasedArrayModel exampleTxPhy.antenna = none
      ∧ dynamicCastPhasedArrayModel (exampleEnvironment.phy 10).antenna = none
      ∧ StartRx exampleIsOrthogonal exampleConvert
            ⟨some (fun _ _ _ => ⟨⟨20⟩, [0, 0]⟩), some (fun p _ _ _ _ => p)⟩ exampleChannel
            { psd := some ⟨⟨15⟩, [1, 1]⟩, txPhy := some exampleTxPhy, txAntenna := none }
            (exampleEnvironment.phy 10)
          = StartRx exampleIsOrthogonal exampleConvert
            ⟨some (fun _ _ _ => ⟨⟨20⟩, [0, 0]⟩), none⟩ exampleChannel
            { psd := some ⟨⟨15⟩, [1, 1]⟩, txPhy := some exampleTxPhy, txAntenna := none }
            (exampleEnvironment.phy 10)
      ∧ (StartRx exampleIsOrthogonal exampleConvert
            ⟨some (fun _ _ _ => ⟨⟨20⟩, [0, 0]⟩), some (fun p _ _ _ _ => p)⟩ exampleChannel
            { psd := some ⟨⟨15⟩, [1, 1]⟩, txPhy := some exampleTxPhy, txAntenna := none }
            (exampleEnvironment.phy 10)).2
          = .ok (.delivered
              { psd := some ⟨⟨20⟩, [0, 0]⟩, txPhy := some exampleTxPhy, txAntenna := none }) :=
  ⟨exampleChannel_reachable, rfl, rfl,
    (loss_model_precedence exampleIsOrthogonal exampleConvert (fun _ _ _ => ⟨⟨20⟩, [0, 0]⟩)
      (some (fun p _ _ _ _ => p)) exampleChannel
      { psd := some ⟨⟨15⟩, [1, 1]⟩, txPhy := some exampleTxPhy, txAntenna := none }
      (exampleEnvironment.phy 10) exampleTxPhy rfl).2.1,
    rfl⟩

/-! ## Frame of the transmit and receive paths (C24) -/

theorem StartRx_state_of_some (isOrthogonal : SpectrumModel → SpectrumModel → Bool)
    (convert : SpectrumConverter → SpectrumValue → SpectrumValue) (base : SpectrumChannel)
    (s : MultiModelSpectrumChannel) (params : SpectrumSignalParameters) (receiver : SpectrumPhy)
    (psd : SpectrumValue) (m : SpectrumModel)
    (hpsd : params.psd = some psd) (hrx : receiver.rxSpectrumModel = some m) :
    (StartRx isOrthogonal convert base s params receiver).1
      = (FindAndEventuallyAddTxSpectrumModel isOrthogonal s psd.spectrumModel).1 := by
  unfold StartRx
  simp only [hpsd, hrx]
  generalize FindAndEventuallyAddTxSpectrumModel isOrthogonal s psd.spectrumModel = res
  obtain ⟨s1, res2⟩ := res
  cases res2 with
  | error e => rfl
  | ok entry =>
    obtain ⟨k, txInfo⟩ := entry
    simp only
    split_ifs
    · rfl
    · cases UidMap.find m.uid txInfo.m_spectrumConverterMap <;> rfl

/-- The receive path never touches the device count or the receive-model map, also when
the call aborts. -/
theorem StartRx_frame (isOrthogonal : SpectrumModel → SpectrumModel → Bool)
    (convert : SpectrumConverter → SpectrumValue → SpectrumValue) (base : SpectrumChannel)
    (s : MultiModelSpectrumChannel) (params : SpectrumSignalParameters) (receiver : SpectrumPhy) :
    (StartRx isOrthogonal convert base s params receiver).1.m_rxSpectrumModelInfoMap
        = s.m_rxSpectrumModelInfoMap
      ∧ (StartRx isOrthogonal convert base s params receiver).1.m_numDevices
        = s.m_numDevices := by
  rcases StartRx_state isOrthogonal convert base s params receiver with h1 | ⟨psd, _, h1⟩
  · rw [h1]
    exact ⟨rfl, rfl⟩
  · rw [h1]
    exact FindAndEventuallyAddTxSpectrumModel_frame isOrthogonal s psd.spectrumModel

/-- The receive path leaves the state alone when it aborts on a signal without PSD or on
a receiver without model, which happens before the lookup of the transmit model. -/
theorem StartRx_state_of_none (isOrthogonal : SpectrumModel → SpectrumModel → Bool)
    (convert : SpectrumConverter → SpectrumValue → SpectrumValue) (base : SpectrumChannel)
    (s : MultiModelSpectrumChannel) (params : SpectrumSignalParameters) (receiver : SpectrumPhy)
    (h : params.psd = none ∨ receiver.rxSpectrumModel = none) :
    StartRx isOrthogonal convert base s params receiver = (s, .error Fatal.nullDereference) := by
  unfold StartRx
  cases hp : params.psd with
  | none => rfl
  | some psd =>
    rcases h with h | h
    · rw [hp] at h
      cases h
    · simp only [h]

/-- C24. Registry frame of the transmit and receive paths: `StartTx` leaves the whole
channel state as it is, so the device count, every receive-model bucket and the
transmit-model map are unchanged, and a transmit model that was not registered is still
not registered.  `StartRx`, called with a signal that has a PSD for a receiver that has a
model, leaves the state that a single `FindAndEventuallyAddTxSpectrumModel` call on the
model of the signal leaves: the device count, the receive-model map and every bucket are
unchanged, and the transmit-model map is the one that call produces. -/
theorem registry_frame (env : Environment) (linkModels : SpectrumChannelLinkModels)
    (isOrthogonal : SpectrumModel → SpectrumModel → Bool)
    (convert : SpectrumConverter → SpectrumValue → SpectrumValue) (base : SpectrumChannel)
    (s : MultiModelSpectrumChannel) (txParams params : SpectrumSignalParameters)
    (receiver : SpectrumPhy) (psd : SpectrumValue) (m : SpectrumModel)
    (hpsd : params.psd = some psd) (hrx : receiver.rxSpectrumModel = some m) :
    ((StartTx env linkModels s txParams).1 = s
        ∧ (StartTx env linkModels s txParams).1.m_numDevices = s.m_numDevices
        ∧ (∀ uid, bucket (StartTx env linkModels s txParams).1 uid = bucket s uid)
        ∧ (StartTx env linkModels s txParams).1.m_txSpectrumModelInfoMap
            = s.m_txSpectrumModelInfoMap
        ∧ (∀ txPsd, txParams.psd = some txPsd →
            UidMap.find txPsd.spectrumModel.uid s.m_txSpectrumModelInfoMap = none →
            UidMap.find txPsd.spectrumModel.uid
              (StartTx env linkModels s txParams).1.m_txSpectrumModelInfoMap = none))
      ∧ ((StartRx isOrthogonal convert base s params receiver).1
            = (FindAndEventuallyAddTxSpectrumModel isOrthogonal s psd.spectrumModel).1
        ∧ (StartRx isOrthogonal convert base s params receiver).1.m_numDevices
            = s.m_numDevices
        ∧ (StartRx isOrthogonal convert base s params receiver).1.m_rxSpectrumModelInfoMap
            = s.m_rxSpectrumModelInfoMap
        ∧ (∀ uid, bucket (StartRx isOrthogonal convert base s params receiver).1 uid
            = bucket s uid)
        ∧ (StartRx isOrthogonal convert base s params receiver).1.m_txSpectrumModelInfoMap
            = (FindAndEventuallyAddTxSpectrumModel isOrthogonal s
                psd.spectrumModel).1.m_txSpectrumModelInfoMap) := by
  have htx := StartTx_state env linkModels s txParams
  have hstate := StartRx_state_of_some isOrthogonal convert base s params receiver psd m
    hpsd hrx
  have hframe := StartRx_frame isOrthogonal convert base s params receiver
  refine ⟨⟨htx, ?_, ?_, ?_, ?_⟩, hstate, hframe.2, hframe.1, ?_, ?_⟩
  · rw [htx]
  · intro uid
    rw [htx]
  · rw [htx]
  · intro txPsd _ hnone
    rw [htx]
    exact hnone
  · intro uid
    simp only [bucket, hframe.1]
  · rw [hstate]

theorem registry_frame_witness :
    ((StartTx exampleEnvironment exampleLinkModels exampleChannel exampleTxParams).1
          = exampleChannel)
      ∧ (StartRx exampleIsOrthogonal exampleConvert ⟨none, none⟩ exampleChannel
            { psd := some ⟨⟨15⟩, [1, 1]⟩, txPhy := some exampleTxPhy, txAntenna := none }
            (exampleEnvironment.phy 10)).1
          = (FindAndEventuallyAddTxSpectrumModel exampleIsOrthogonal exampleChannel ⟨15⟩).1
      ∧ UidMap.keys (FindAndEventuallyAddTxSpectrumModel exampleIsOrthogonal exampleChannel
            ⟨15⟩).1.m_txSpectrumModelInfoMap = [2, 15]
      ∧ UidMap.keys exampleChannel.m_txSpectrumModelInfoMap = [2] :=
  ⟨(registry_frame exampleEnvironment exampleLinkModels exampleIsOrthogonal exampleConvert
      ⟨none, none⟩ exampleChannel exampleTxParams
      { psd := some ⟨⟨15⟩, [1, 1]⟩, txPhy := some exampleTxPhy, txAntenna := none }
      (exampleEnvironment.phy 10) ⟨⟨15⟩, [1, 1]⟩ ⟨20⟩ rfl rfl).1.1,
    (registry_frame exampleEnvironment exampleLinkModels exampleIsOrthogonal exampleConvert
      ⟨none, none⟩ exampleChannel exampleTxParams
      { psd := some ⟨⟨15⟩, [1, 1]⟩, txPhy := some exampleTxPhy, txAntenna := none }
      (exampleEnvironment.phy 10) ⟨⟨15⟩, [1, 1]⟩ ⟨20⟩ rfl rfl).2.1,
    by decide, by decide⟩

end ns3
